import Mathlib

set_option linter.dupNamespace false

/-!
# Order-book simulator of stream-commons (Bitmex)

A shallow embedding of `simulator/bitmex.go`, and of the channel dispatch of the
formatters `formatter/json/bitmex.go` and `formatter/jsonf/bitflyer.go`, with a
verification of their specification.

Modelling conventions.

* A Go `map[K]V` is a `GoMap K V`: a finite list of entries with pairwise
  distinct keys.  The order of the list stands for one (arbitrary) iteration
  order of the Go map; every theorem is proved for all such orders.
* Go maps are reference values: a nested map that is mutated in place is
  written back into its parent here.
* `float64` prices are the finite values `encoding/json` can decode (neither
  NaN nor an infinity has a JSON spelling); they are modelled by rationals
  with their order.  `int64` identifiers are integers and `uint64` sizes are
  naturals; the code does no arithmetic on either.
* `sort.Strings` and `sort.Slice` are modelled by insertion sort: each
  returns the ascending arrangement of its input.
* A line is represented by what `json.Unmarshal` makes of it, and
  `json.Marshal`, which cannot fail on the values of this file, by the line
  that decodes back to the marshalled value.
* A method with a pointer receiver returns the simulator after the call next
  to its results.
-/

namespace StreamCommons

/-! ## Go maps -/

/-- Value stored at key `k` in a list of entries (first match). -/
def getL {K V : Type} [DecidableEq K] (k : K) : List (K × V) → Option V
  | [] => none
  | p :: t => if p.1 = k then some p.2 else getL k t

/-- Assignment `m[k] = v` on a list of entries: replaces in place or appends. -/
def setL {K V : Type} [DecidableEq K] (k : K) (v : V) : List (K × V) → List (K × V)
  | [] => [(k, v)]
  | p :: t => if p.1 = k then (k, v) :: t else p :: setL k v t

/-- Removal `delete(m, k)` on a list of entries. -/
def deleteL {K V : Type} [DecidableEq K] (k : K) : List (K × V) → List (K × V)
  | [] => []
  | p :: t => if p.1 = k then deleteL k t else p :: deleteL k t

theorem deleteL_sublist {K V : Type} [DecidableEq K] (k : K) (l : List (K × V)) :
    (deleteL k l).Sublist l := by
  induction l with
  | nil => exact List.Sublist.refl _
  | cons p t ih =>
    by_cases hp : p.1 = k
    · simp only [deleteL, hp, if_true]
      exact ih.cons p
    · simp only [deleteL, hp, if_false]
      exact ih.cons₂ p

theorem keys_setL {K V : Type} [DecidableEq K] (k : K) (v : V) (l : List (K × V)) :
    (setL k v l).map Prod.fst =
      if k ∈ l.map Prod.fst then l.map Prod.fst else l.map Prod.fst ++ [k] := by
  induction l with
  | nil => simp [setL]
  | cons p t ih =>
    by_cases h : p.1 = k
    · simp [setL, h]
    · have h' : ¬ k = p.1 := fun e => h e.symm
      simp only [setL, h, if_false, List.map_cons, ih, List.mem_cons, h', false_or]
      split <;> simp

theorem nodup_setL {K V : Type} [DecidableEq K] (k : K) (v : V) (l : List (K × V))
    (h : (l.map Prod.fst).Nodup) : ((setL k v l).map Prod.fst).Nodup := by
  rw [keys_setL]
  split
  · exact h
  · rename_i hk
    rw [List.nodup_append]
    refine ⟨h, List.nodup_singleton k, ?_⟩
    intro a ha hb
    simp only [List.mem_singleton] at hb
    exact hk (hb ▸ ha)

theorem nodup_deleteL {K V : Type} [DecidableEq K] (k : K) (l : List (K × V))
    (h : (l.map Prod.fst).Nodup) : ((deleteL k l).map Prod.fst).Nodup :=
  h.sublist ((deleteL_sublist k l).map Prod.fst)

/-- A Go map with keys of type `K` and values of type `V`. -/
structure GoMap (K V : Type) where
  /-- the entries, in one iteration order -/
  entries : List (K × V)
  /-- a key occurs once -/
  nodup : (entries.map Prod.fst).Nodup

namespace GoMap

variable {K V : Type} [DecidableEq K]

/-- The empty map `make(map[K]V)`. -/
def empty : GoMap K V := ⟨[], List.nodup_nil⟩

/-- Two-valued index expression `v, ok := m[k]`. -/
def get (m : GoMap K V) (k : K) : Option V := getL k m.entries

/-- Assignment `m[k] = v`. -/
def set (m : GoMap K V) (k : K) (v : V) : GoMap K V :=
  ⟨setL k v m.entries, nodup_setL k v m.entries m.nodup⟩

/-- Builtin `delete(m, k)`. -/
def delete (m : GoMap K V) (k : K) : GoMap K V :=
  ⟨deleteL k m.entries, nodup_deleteL k m.entries m.nodup⟩

/-- The keys, in iteration order. -/
def keys (m : GoMap K V) : List K := m.entries.map Prod.fst

end GoMap

/-! ## Data model of the simulator -/

/-- Go constant `BitmexSideSell`. -/
def BitmexSideSell : String := "Sell"

/-- Go constant `BitmexSideBuy`. -/
def BitmexSideBuy : String := "Buy"

/-- Go type `bitmexOrderBookL2Element`: what the store keeps for one order. -/
structure bitmexOrderBookL2Element where
  price : ℚ
  size : ℕ
deriving DecidableEq

/-- Go type `jsonstructs.BitmexOrderBookL2DataElement`, with the fields the
simulator reads and writes. -/
structure BitmexOrderBookL2DataElement where
  ID : ℤ
  Price : ℚ
  Side : String
  Size : ℕ
  Symbol : String
deriving DecidableEq

/-- Innermost maps of the store, `map[int64]bitmexOrderBookL2Element`. -/
abbrev IDMap := GoMap ℤ bitmexOrderBookL2Element

/-- Middle maps of the store, from a side to its orders. -/
abbrev SideMap := GoMap String IDMap

/-- Field `orderBooks` of the simulator: `map[symbol]map[side]map[id]`. -/
abbrev OrderBooks := GoMap String SideMap

/-- Errors the simulator returns. -/
inductive SimError where
  /-- `json.Unmarshal` failed -/
  | unmarshal
  /-- "unknown action type" of `processData` -/
  | unknownAction (action : String)
  /-- "channel differs" of `ProcessMessageChannelKnown` -/
  | channelDiffers (wsChannel channel : String)
  /-- "channel filter is enabled" of `TakeStateSnapshot` -/
  | filterEnabled
deriving DecidableEq

/-- Go expression `s.orderBooks[symbol][side][id]` with its `ok` flag: indexing
a missing (nil) map yields nothing. -/
def getEntry (orderBooks : OrderBooks) (symbol side : String) (id : ℤ) :
    Option bitmexOrderBookL2Element :=
  (orderBooks.get symbol).bind fun sides => (sides.get side).bind fun ids => ids.get id

/-- Entry of one symbol's side map: `sides[side][id]`. -/
def sideEntry (sides : SideMap) (side : String) (id : ℤ) : Option bitmexOrderBookL2Element :=
  (sides.get side).bind fun ids => ids.get id

/-- The crossed-book loops of `processData` (lines 69-79 and 84-94): first the
identifiers of the orders on the other side that are on the wrong side of the
new price are collected while ranging over the map, then each is deleted. -/
def removeCrossed (anoIDs : IDMap) (crossed : bitmexOrderBookL2Element → Bool) : IDMap :=
  let dueToRemove := (anoIDs.entries.filter (fun p => crossed p.2)).map Prod.fst
  dueToRemove.foldl (fun m anoID => m.delete anoID) anoIDs

/-- Body of the loop of `processData` for one element: the store after it, or
the error that ends the loop. -/
def processDataElement (orderBooks : OrderBooks) (action : String)
    (data : BitmexOrderBookL2DataElement) : Except SimError OrderBooks :=
  if action = "partial" ∨ action = "insert" then
    let sides := (orderBooks.get data.Symbol).getD GoMap.empty
    let ids := (sides.get data.Side).getD GoMap.empty
    let ids := ids.set data.ID ⟨data.Price, data.Size⟩
    let sides := sides.set data.Side ids
    let sides :=
      if data.Side = BitmexSideBuy then
        match sides.get BitmexSideSell with
        | some sellIDs =>
          sides.set BitmexSideSell
            (removeCrossed sellIDs (fun anoElem => decide (anoElem.price < data.Price)))
        | none => sides
      else
        match sides.get BitmexSideBuy with
        | some buyIDs =>
          sides.set BitmexSideBuy
            (removeCrossed buyIDs (fun anoElem => decide (anoElem.price > data.Price)))
        | none => sides
    .ok (orderBooks.set data.Symbol sides)
  else if action = "update" then
    match orderBooks.get data.Symbol with
    | none => .ok orderBooks
    | some sides =>
      match sides.get data.Side with
      | none => .ok orderBooks
      | some ids =>
        match ids.get data.ID with
        | none => .ok orderBooks
        | some elem =>
          .ok (orderBooks.set data.Symbol
            (sides.set data.Side (ids.set data.ID ⟨elem.price, data.Size⟩)))
  else if action = "delete" then
    match orderBooks.get data.Symbol with
    | none => .ok orderBooks
    | some sides =>
      match sides.get data.Side with
      | none => .ok orderBooks
      | some ids => .ok (orderBooks.set data.Symbol (sides.set data.Side (ids.delete data.ID)))
  else
    .error (SimError.unknownAction action)

/-- Go method `processData`: the store it leaves and the error it returns. -/
def processData (orderBooks : OrderBooks) (action : String) :
    List BitmexOrderBookL2DataElement → OrderBooks × Option SimError
  | [] => (orderBooks, none)
  | data :: rest =>
    match processDataElement orderBooks action data with
    | .error e => (orderBooks, some e)
    | .ok orderBooks' => processData orderBooks' action rest

/-- What `s.orderBooks[symbol][side][id]` holds once an element `e` has been
applied with action partial or insert, in terms of the store before. -/
def entryAfterUpsert (orderBooks : OrderBooks) (e : BitmexOrderBookL2DataElement)
    (symbol side : String) (id : ℤ) : Option bitmexOrderBookL2Element :=
  if symbol = e.Symbol then
    if side = e.Side then
      if id = e.ID then some ⟨e.Price, e.Size⟩ else getEntry orderBooks symbol side id
    else if e.Side = BitmexSideBuy then
      if side = BitmexSideSell then
        (getEntry orderBooks symbol side id).filter (fun el => !decide (el.price < e.Price))
      else getEntry orderBooks symbol side id
    else
      if side = BitmexSideBuy then
        (getEntry orderBooks symbol side id).filter (fun el => !decide (el.price > e.Price))
      else getEntry orderBooks symbol side id
  else getEntry orderBooks symbol side id

/-! ## Sorting -/

/-- Decision procedure for the order of strings, through their lists of
characters.  Go compares strings byte by byte; on the UTF-8 text that
`encoding/json` yields this is the order of the lists of code points. -/
def decLEString : DecidableRel (fun a b : String => a ≤ b) := fun a b =>
  decidable_of_iff (a.toList ≤ b.toList) String.le_iff_toList_le.symm

/-- Go function `sort.Strings`. -/
def sortStrings (keys : List String) : List String :=
  @List.insertionSort String (fun a b => a ≤ b) decLEString keys

/-- Go function `sortBitmexSubscribe`. -/
def sortBitmexSubscribe (m : GoMap String Bool) : List String :=
  sortStrings (m.entries.map Prod.fst)

/-- Go function `sortBitmexOrderbooks`. -/
def sortBitmexOrderbooks (m : OrderBooks) : List String :=
  sortStrings (m.entries.map Prod.fst)

/-- Go function `sortBitmexSides`. -/
def sortBitmexSides (m : SideMap) : List String :=
  sortStrings (m.entries.map Prod.fst)

/-- Go function `sortBitmexID`. -/
def sortBitmexID (m : IDMap) : List ℤ :=
  (m.entries.map Prod.fst).insertionSort (fun a b => a ≤ b)

/-- Go method `orderBookL2DataElements`. -/
def orderBookL2DataElements (orderBooks : OrderBooks) : List BitmexOrderBookL2DataElement :=
  (sortBitmexOrderbooks orderBooks).flatMap fun symbol =>
    let sides := (orderBooks.get symbol).getD GoMap.empty
    (sortBitmexSides sides).flatMap fun side =>
      let ids := (sides.get side).getD GoMap.empty
      (sortBitmexID ids).map fun id =>
        let elem := (ids.get id).getD ⟨0, 0⟩
        { ID := id, Price := elem.price, Side := side, Size := elem.size, Symbol := symbol }

/-- The order of emission: lexicographic on symbol, then side, then identifier. -/
def keyLT (a b : BitmexOrderBookL2DataElement) : Prop :=
  a.Symbol < b.Symbol ∨
    (a.Symbol = b.Symbol ∧ (a.Side < b.Side ∨ (a.Side = b.Side ∧ a.ID < b.ID)))

/-! ## Lines and their decoding

A captured line is a byte string that the simulator only ever hands to
`json.Unmarshal`.  It is represented by what each of the four decodings the
simulator performs makes of it; `none` stands for a decoding error. -/

/-- Go type `jsonstructs.BitmexSubscribe`, with the fields the simulator uses. -/
structure BitmexSubscribe where
  Success : Bool
  Subscribe : String
deriving DecidableEq

/-- Go type `jsonstructs.BitmexRoot`.  `Info` and `Error` are `none` when the
field is nil; `Data` is the raw message, represented by its decoding as a
slice of order-book elements. -/
structure BitmexRoot where
  Table : String
  Action : String
  Info : Option String
  Error : Option String
  Data : Option (List BitmexOrderBookL2DataElement)
deriving DecidableEq

/-- A line of the captured stream or of a snapshot. -/
structure Line where
  /-- result of `json.Unmarshal(line, &subscribe)` -/
  asSubscribe : Option BitmexSubscribe
  /-- result of `json.Unmarshal(line, decoded)` for a `BitmexRoot` -/
  asRoot : Option BitmexRoot
  /-- result of decoding the line as a `BitmexStateSubscribed`, a list of channels -/
  asStateSubscribed : Option (List String)
  /-- result of decoding the line as a slice of order-book elements -/
  asElements : Option (List BitmexOrderBookL2DataElement)
deriving DecidableEq

/-- Modelled from the spec: `json.Marshal` of a `BitmexSubscribe`, a JSON object
with the keys of a subscription acknowledgment.  It decodes back to the same
value, as a root it has none of the root's keys, and an object does not decode
as an array. -/
def marshalSubscribe (subscr : BitmexSubscribe) : Line :=
  { asSubscribe := some subscr
    asRoot := some { Table := "", Action := "", Info := none, Error := none, Data := none }
    asStateSubscribed := none
    asElements := none }

/-- Modelled from the spec: `json.Marshal` of a `BitmexRoot`, a JSON object with
the keys of a data frame.  It has no key of a subscription acknowledgment, it
decodes back to the same root, and an object does not decode as an array. -/
def marshalRoot (root : BitmexRoot) : Line :=
  { asSubscribe := some { Success := false, Subscribe := "" }
    asRoot := some root
    asStateSubscribed := none
    asElements := none }

/-- Modelled from the spec: `json.Marshal` of a list of channel names, a JSON
array of strings.  An array does not decode as an object, and a string does
not decode as an order-book element. -/
def marshalStrings (subList : List String) : Line :=
  { asSubscribe := none
    asRoot := none
    asStateSubscribed := some subList
    asElements := if subList = [] then some [] else none }

/-- Modelled from the spec: `json.Marshal` of a slice of order-book elements, a
JSON array of objects.  An array does not decode as an object, and an object
does not decode as a string. -/
def marshalElements (data : List BitmexOrderBookL2DataElement) : Line :=
  { asSubscribe := none
    asRoot := none
    asStateSubscribed := if data = [] then some [] else none
    asElements := some data }

/-- Modelled from the spec: method `Initialize` of `jsonstructs.BitmexSubscribe`,
which prepares a successful subscription acknowledgment. -/
def BitmexSubscribe.Initialize (subscr : BitmexSubscribe) : BitmexSubscribe :=
  { subscr with Success := true }

/-! ## The simulator -/

/-- Go constant `BitmexChannelInfo`. -/
def BitmexChannelInfo : String := "info"

/-- Go constant `BitmexChannelError`. -/
def BitmexChannelError : String := "error"

/-- Go type `bitmexSimulator`.  `filterChannel` is `none` when the map is nil. -/
structure bitmexSimulator where
  filterChannel : Option (GoMap String Bool)
  subscribed : GoMap String Bool
  orderBooks : OrderBooks

/-- Go type `Snapshot`. -/
structure Snapshot where
  Channel : String
  Snapshot : Line
deriving DecidableEq

/-- Go expression `_, ok := s.filterChannel[channel]`, which is false on a nil map. -/
def filterHas (filterChannel : Option (GoMap String Bool)) (channel : String) : Bool :=
  match filterChannel with
  | none => false
  | some m => (m.get channel).isSome

/-- Go method `ProcessStart`. -/
def ProcessStart (s : bitmexSimulator) (_line : Line) : bitmexSimulator × Option SimError :=
  (s, none)

/-- Go method `ProcessSend`; `channelUnknown` is the constant
`streamcommons.ChannelUnknown`. -/
def ProcessSend (channelUnknown : String) (s : bitmexSimulator) (_line : Line) :
    bitmexSimulator × String × Option SimError :=
  (s, channelUnknown, none)

/-- Go method `ProcessMessageWebSocket`: the simulator after the call, the
channel and the error returned; `channelUnknown` is the constant
`streamcommons.ChannelUnknown`. -/
def ProcessMessageWebSocket (channelUnknown : String) (s : bitmexSimulator) (line : Line) :
    bitmexSimulator × String × Option SimError :=
  match line.asSubscribe with
  | none => (s, channelUnknown, some SimError.unmarshal)
  | some subscribe =>
    if subscribe.Success then
      let channel := subscribe.Subscribe
      match s.filterChannel with
      | none => ({ s with subscribed := s.subscribed.set channel true }, channel, none)
      | some filterChannel =>
        match filterChannel.get channel with
        | some _ => ({ s with subscribed := s.subscribed.set channel true }, channel, none)
        | none => (s, channel, none)
    else
      match line.asRoot with
      | none => (s, channelUnknown, some SimError.unmarshal)
      | some decoded =>
        if decoded.Info.isSome then (s, BitmexChannelInfo, none)
        else if decoded.Error.isSome then (s, BitmexChannelError, none)
        else
          let channel := decoded.Table
          if channel = "orderBookL2" then
            match decoded.Data with
            | none => (s, channel, some SimError.unmarshal)
            | some dataSlice =>
              let r := processData s.orderBooks decoded.Action dataSlice
              ({ s with orderBooks := r.1 }, channel, r.2)
          else (s, channel, none)

/-- Go method `ProcessMessageChannelKnown`. -/
def ProcessMessageChannelKnown (channelUnknown : String) (s : bitmexSimulator)
    (channel : String) (line : Line) : bitmexSimulator × Option SimError :=
  let r := ProcessMessageWebSocket channelUnknown s line
  match r.2.2 with
  | some serr => (r.1, some serr)
  | none =>
    if r.2.1 ≠ channel then (r.1, some (SimError.channelDiffers r.2.1 channel))
    else (r.1, none)

/-- Go method `ProcessState`; `stateChannelSubscribed` is the constant
`streamcommons.StateChannelSubscribed`. -/
def ProcessState (stateChannelSubscribed : String) (s : bitmexSimulator)
    (channel : String) (line : Line) : bitmexSimulator × Option SimError :=
  if channel = stateChannelSubscribed then
    match line.asStateSubscribed with
    | none => (s, some SimError.unmarshal)
    | some subscribed =>
      ({ s with
          subscribed := subscribed.foldl
            (fun m subscrCh => if filterHas s.filterChannel subscrCh then m.set subscrCh true else m)
            s.subscribed },
        none)
  else if s.filterChannel.isSome ∧ filterHas s.filterChannel channel = false then
    (s, none)
  else if channel = "orderBookL2" then
    match line.asElements with
    | none => (s, some SimError.unmarshal)
    | some decoded =>
      let r := processData s.orderBooks "partial" decoded
      ({ s with orderBooks := r.1 }, r.2)
  else (s, none)

/-- Go method `TakeStateSnapshot`: the simulator after the call (the method
assigns none of its fields), the snapshots and the error returned. -/
def TakeStateSnapshot (stateChannelSubscribed : String) (s : bitmexSimulator) :
    bitmexSimulator × List Snapshot × Option SimError :=
  if s.filterChannel.isSome then
    (s, [], some SimError.filterEnabled)
  else
    let subList := sortBitmexSubscribe s.subscribed
    let data := orderBookL2DataElements s.orderBooks
    (s, [⟨stateChannelSubscribed, marshalStrings subList⟩,
      ⟨"orderBookL2", marshalElements data⟩], none)

/-- Go method `TakeSnapshot`: the simulator after the call (the method assigns
none of its fields), the snapshots and the error returned. -/
def TakeSnapshot (s : bitmexSimulator) : bitmexSimulator × List Snapshot × Option SimError :=
  let snapshots := (sortBitmexSubscribe s.subscribed).map fun channel =>
    let subscr := { (BitmexSubscribe.Initialize ⟨false, ""⟩) with Subscribe := channel }
    (⟨channel, marshalSubscribe subscr⟩ : Snapshot)
  match s.subscribed.get "orderBookL2" with
  | some _ =>
    let data := orderBookL2DataElements s.orderBooks
    let root : BitmexRoot :=
      { Table := "orderBookL2", Action := "partial", Info := none, Error := none,
        Data := some data }
    (s, snapshots ++ [⟨"orderBookL2", marshalRoot root⟩], none)
  | none => (s, snapshots, none)

/-- Go function `newBitmexSimulator`; `filterChannels` is `none` for a nil slice. -/
def newBitmexSimulator (filterChannels : Option (List String)) : bitmexSimulator :=
  { filterChannel := filterChannels.map fun chs =>
      chs.foldl (fun m ch => m.set ch true) GoMap.empty
    subscribed := GoMap.empty
    orderBooks := GoMap.empty }

/-- The simulators that a driver can reach: a fresh instance built with the
filter list `filterChannels`, then any sequence of calls of the methods of the
contract with any arguments.  `channelUnknown` and `stateChannelSubscribed`
are the two constants of the package `streamcommons`. -/
inductive Reachable (channelUnknown stateChannelSubscribed : String)
    (filterChannels : Option (List String)) : bitmexSimulator → Prop where
  | fresh : Reachable channelUnknown stateChannelSubscribed filterChannels
      (newBitmexSimulator filterChannels)
  | processStart (s : bitmexSimulator) (line : Line) :
      Reachable channelUnknown stateChannelSubscribed filterChannels s →
      Reachable channelUnknown stateChannelSubscribed filterChannels (ProcessStart s line).1
  | processSend (s : bitmexSimulator) (line : Line) :
      Reachable channelUnknown stateChannelSubscribed filterChannels s →
      Reachable channelUnknown stateChannelSubscribed filterChannels
        (ProcessSend channelUnknown s line).1
  | processMessageWebSocket (s : bitmexSimulator) (line : Line) :
      Reachable channelUnknown stateChannelSubscribed filterChannels s →
      Reachable channelUnknown stateChannelSubscribed filterChannels
        (ProcessMessageWebSocket channelUnknown s line).1
  | processMessageChannelKnown (s : bitmexSimulator) (channel : String) (line : Line) :
      Reachable channelUnknown stateChannelSubscribed filterChannels s →
      Reachable channelUnknown stateChannelSubscribed filterChannels
        (ProcessMessageChannelKnown channelUnknown s channel line).1
  | processState (s : bitmexSimulator) (channel : String) (line : Line) :
      Reachable channelUnknown stateChannelSubscribed filterChannels s →
      Reachable channelUnknown stateChannelSubscribed filterChannels
        (ProcessState stateChannelSubscribed s channel line).1
  | takeSnapshot (s : bitmexSimulator) :
      Reachable channelUnknown stateChannelSubscribed filterChannels s →
      Reachable channelUnknown stateChannelSubscribed filterChannels (TakeSnapshot s).1
  | takeStateSnapshot (s : bitmexSimulator) :
      Reachable channelUnknown stateChannelSubscribed filterChannels s →
      Reachable channelUnknown stateChannelSubscribed filterChannels
        (TakeStateSnapshot stateChannelSubscribed s).1

/-- Feeding snapshots, in order, through `ProcessMessageWebSocket`: the
simulator at the end and the errors returned on the way. -/
def feedWebSocket (channelUnknown : String) (s : bitmexSimulator) :
    List Snapshot → bitmexSimulator × List SimError
  | [] => (s, [])
  | snap :: rest =>
    let r := ProcessMessageWebSocket channelUnknown s snap.Snapshot
    let r' := feedWebSocket channelUnknown r.1 rest
    (r'.1, r.2.2.toList ++ r'.2)

/-- Feeding snapshots, in order, through `ProcessState`, each on its own
channel: the simulator at the end and the errors returned on the way. -/
def feedState (stateChannelSubscribed : String) (s : bitmexSimulator) :
    List Snapshot → bitmexSimulator × List SimError
  | [] => (s, [])
  | snap :: rest =>
    let r := ProcessState stateChannelSubscribed s snap.Channel snap.Snapshot
    let r' := feedState stateChannelSubscribed r.1 rest
    (r'.1, r.2.toList ++ r'.2)

/-- The resting ask of the crossed-book example of the specification. -/
def exampleSell (symbol : String) (id : ℤ) : BitmexOrderBookL2DataElement :=
  { ID := id, Price := 100, Side := BitmexSideSell, Size := 5, Symbol := symbol }

/-- The arriving bid of the crossed-book example of the specification. -/
def exampleBuy (symbol : String) (id : ℤ) : BitmexOrderBookL2DataElement :=
  { ID := id, Price := 105, Side := BitmexSideBuy, Size := 3, Symbol := symbol }

/-- A store with one resting ask. -/
def booksPlain : OrderBooks :=
  ⟨[("X", ⟨[("Sell", ⟨[(1, ⟨100, 5⟩)], by simp⟩)], by simp⟩)], by simp⟩

/-- The same entries as `booksPlain`, with an emptied symbol and an emptied
side left behind and another iteration order. -/
def booksWithLeftovers : OrderBooks :=
  ⟨[("Y", ⟨[("Buy", ⟨[], by simp⟩)], by simp⟩),
    ("X", ⟨[("Buy", ⟨[], by simp⟩), ("Sell", ⟨[(1, ⟨100, 5⟩)], by simp⟩)], by simp⟩)],
    by simp⟩

/-- An uncrossed store with a bid at 95 and an ask at 100 of the symbol X. -/
def booksTwoSided : OrderBooks :=
  ⟨[("X", ⟨[("Sell", ⟨[(1, ⟨100, 5⟩)], by simp⟩), ("Buy", ⟨[(2, ⟨95, 3⟩)], by simp⟩)],
    by simp⟩)], by simp⟩

/-- Two subscribed channels, recorded in one order. -/
def subscribedAB : GoMap String Bool := ⟨[("trade", true), ("orderBookL2", true)], by simp⟩

/-- The same two channels, recorded in the other order. -/
def subscribedBA : GoMap String Bool := ⟨[("orderBookL2", true), ("trade", true)], by simp⟩

/-- A simulator without a filter that has received the subscription
acknowledgment of the channel orderBookL2 and nothing else. -/
def subscribedOnce (channelUnknown : String) : bitmexSimulator :=
  (ProcessMessageWebSocket channelUnknown (newBitmexSimulator none)
    (marshalSubscribe ⟨true, "orderBookL2"⟩)).1

/-- A book is uncrossed when no bid of a symbol is priced above an ask of the
same symbol. -/
def Uncrossed (orderBooks : OrderBooks) : Prop :=
  ∀ symbol i j b a, getEntry orderBooks symbol BitmexSideBuy i = some b →
    getEntry orderBooks symbol BitmexSideSell j = some a → ¬ b.price > a.price

/-- A simulator without a filter that has received one order-book data frame
(the insertion of a bid) and no subscription acknowledgment. -/
def unsubscribedBook : bitmexSimulator :=
  { filterChannel := none
    subscribed := GoMap.empty
    orderBooks := (processData GoMap.empty "insert" [exampleBuy "X" 2]).1 }

/-- An order whose side is spelt "sell", priced below the bid of the example. -/
def lowercaseSell : BitmexOrderBookL2DataElement :=
  { ID := 1, Price := 100, Side := "sell", Size := 5, Symbol := "X" }

/-- A simulator without a filter that has subscribed to orderBookL2 and then
received the insertion of `lowercaseSell` followed by the bid of the example. -/
def lowercaseBook : bitmexSimulator :=
  { filterChannel := none
    subscribed := (GoMap.empty : GoMap String Bool).set "orderBookL2" true
    orderBooks := (processData GoMap.empty "insert" [lowercaseSell, exampleBuy "X" 2]).1 }

/-- A simulator without a filter that has subscribed to orderBookL2 and then
received the insertion of the resting ask of the example. -/
def subscribedBook : bitmexSimulator :=
  (ProcessMessageWebSocket "unknown" (subscribedOnce "unknown")
    (marshalRoot ⟨"orderBookL2", "insert", none, none, some [exampleSell "X" 1]⟩)).1

/-- The stores that calls of `processData` can build: the empty store, then any
sequence of calls with any action and any elements that satisfy `allowed`. -/
inductive ReachableStore (allowed : BitmexOrderBookL2DataElement → Prop) :
    OrderBooks → Prop where
  | empty : ReachableStore allowed GoMap.empty
  | step (orderBooks : OrderBooks) (action : String)
      (dataSlice : List BitmexOrderBookL2DataElement) :
      ReachableStore allowed orderBooks → (∀ d ∈ dataSlice, allowed d) →
      ReachableStore allowed (processData orderBooks action dataSlice).1

/-! ## The formatters

The formatters are stateless.  A call ends by returning rows and an error, or
by a run-time panic; where the code slices a string by byte offsets the string
is represented by its bytes. -/

/-- The run-time panics of Go that the formatters can raise. -/
inductive GoPanic where
  /-- "slice bounds out of range", of a slice expression `s[n:]` -/
  | sliceBounds
  /-- "invalid memory address or nil pointer dereference" -/
  | nilDereference
deriving DecidableEq

/-- How a call of a Go function with the results `([][]byte, error)` ends. -/
inductive GoResult (ρ ε : Type) where
  /-- the function returned `ret` and `err` -/
  | returned (ret : List ρ) (err : Option ε)
  /-- the function panicked -/
  | panicked (cause : GoPanic)
deriving DecidableEq

/-- A Go string as its sequence of bytes. -/
abbrev GoString := List UInt8

/-- The bytes (UTF-8) of a string literal. -/
def goString (s : String) : GoString := s.toUTF8.data.toList

/-- Go function `strings.HasPrefix`. -/
def HasPrefix (s pre : GoString) : Bool := pre.isPrefixOf s

/-- Go slice expression `s[n:]`; `none` is the panic for an offset beyond the
length of the string. -/
def sliceFrom (s : GoString) (n : ℕ) : Option GoString :=
  if n ≤ s.length then some (s.drop n) else none

/-! ### Bitmex formatter (`formatter/json/bitmex.go`) -/

/-- Rows that `BitmexFormatter.Format` returns: the seven header constants of
the package `jsondef`, and the rows built by the formatters of the tables. -/
inductive BitmexRow where
  | TypeDefBitmexOrderBookL2
  | TypeDefBitmexTrade
  | TypeDefBitmexInstrument
  | TypeDefBitmexLiquidation
  | TypeDefBitmexSettlement
  | TypeDefBitmexInsurance
  | TypeDefBitmexFunding
  /-- a row marshalled by the formatter of a table -/
  | data (bytes : GoString)
deriving DecidableEq

/-- Errors that `BitmexFormatter.Format` returns. -/
inductive BitmexFormatError where
  /-- "unmarshal failed" -/
  | unmarshal
  /-- "unsupported channel ... for csvlike formatting", on an acknowledgment -/
  | unsupportedChannel (channel : String)
  /-- "root unmarshal failed" -/
  | rootUnmarshal
  /-- "channel ... if not supported for csvlike formatting", on a data line -/
  | channelNotSupported (channel : String)
  /-- an error of the formatter of a table -/
  | table (message : String)
deriving DecidableEq

/-- The seven formatters of the tables (`formatOrderBookL2` to `formatFunding`),
which transcode the data of a frame with float conversions and timestamp
parsing.  They are parameters: each is given the line, of which it reads the
data of the root, and may return anything or panic. -/
structure BitmexTableFormatters where
  formatOrderBookL2 : Line → GoResult BitmexRow BitmexFormatError
  formatTrade : Line → GoResult BitmexRow BitmexFormatError
  formatInstrument : Line → GoResult BitmexRow BitmexFormatError
  formatLiquidation : Line → GoResult BitmexRow BitmexFormatError
  formatSettlement : Line → GoResult BitmexRow BitmexFormatError
  formatInsurance : Line → GoResult BitmexRow BitmexFormatError
  formatFunding : Line → GoResult BitmexRow BitmexFormatError

/-- Go method `BitmexFormatter.Format`. -/
def BitmexFormatter.Format (tables : BitmexTableFormatters) (channel : String) (line : Line) :
    GoResult BitmexRow BitmexFormatError :=
  match line.asSubscribe with
  | none => .returned [] (some .unmarshal)
  | some subscribed =>
    if subscribed.Success then
      if channel = "orderBookL2" then .returned [.TypeDefBitmexOrderBookL2] none
      else if channel = "trade" then .returned [.TypeDefBitmexTrade] none
      else if channel = "instrument" then .returned [.TypeDefBitmexInstrument] none
      else if channel = "liquidation" then .returned [.TypeDefBitmexLiquidation] none
      else if channel = "settlement" then .returned [.TypeDefBitmexSettlement] none
      else if channel = "insurance" then .returned [.TypeDefBitmexInsurance] none
      else if channel = "funding" then .returned [.TypeDefBitmexFunding] none
      else .returned [] (some (.unsupportedChannel channel))
    else
      match line.asRoot with
      | none => .returned [] (some .rootUnmarshal)
      | some _ =>
        if channel = "orderBookL2" then tables.formatOrderBookL2 line
        else if channel = "trade" then tables.formatTrade line
        else if channel = "instrument" then tables.formatInstrument line
        else if channel = "liquidation" then tables.formatLiquidation line
        else if channel = "settlement" then tables.formatSettlement line
        else if channel = "insurance" then tables.formatInsurance line
        else if channel = "funding" then tables.formatFunding line
        else .returned [] (some (.channelNotSupported channel))

/-- Go method `BitmexFormatter.IsSupported`. -/
def BitmexFormatter.IsSupported (channel : String) : Bool :=
  channel = "orderBookL2" || channel = "trade" || channel = "instrument" ||
    channel = "liquidation" || channel = "settlement" || channel = "insurance" ||
    channel = "funding"

/-! ### Bitflyer formatter (`formatter/jsonf/bitflyer.go`) -/

/-- Go type `jsonstructs.BitflyerSubscribed`, with the field the formatter reads. -/
structure BitflyerSubscribed where
  Result : Bool
deriving DecidableEq

/-- A price level of `jsonstructs.BitflyerBoardParamsMessage`. -/
structure BitflyerBoardLevel where
  Price : ℚ
  Size : ℚ
deriving DecidableEq

/-- Go type `jsonstructs.BitflyerBoardParamsMessage`, with the fields the
formatter reads. -/
structure BitflyerBoardParamsMessage where
  Bids : List BitflyerBoardLevel
  Asks : List BitflyerBoardLevel
deriving DecidableEq

/-- Go type `jsonstructs.BitflyerExecutionsParamMessageElement`, with the fields
the formatter reads. -/
structure BitflyerExecutionsParamMessageElement where
  Side : String
  Price : ℚ
  Size : ℚ
deriving DecidableEq

/-- The raw message of a Bitflyer frame (`root.Params.Message`), represented by
what `json.Unmarshal` makes of it for the board and for the executions; `bytes`
is the message itself, for the formatter of the ticker. -/
structure BitflyerRawMessage where
  asBoard : Option BitflyerBoardParamsMessage
  asExecutions : Option (List BitflyerExecutionsParamMessageElement)
  bytes : GoString
deriving DecidableEq

/-- The field `Params` of `jsonstructs.BitflyerRoot`, with the field the
formatter reads. -/
structure BitflyerRootParams where
  Message : BitflyerRawMessage
deriving DecidableEq

/-- Go type `jsonstructs.BitflyerRoot`, with the field the formatter reads. -/
structure BitflyerRoot where
  Params : BitflyerRootParams
deriving DecidableEq

/-- A line given to the Bitflyer formatter, represented by its two decodings.
`asSubscribed` is what `json.Unmarshal(line, &subscribe)` makes of the struct
`subscribe`, `none` for an error.  `asRoot` is what `json.Unmarshal(line, &root)`
makes of the pointer `root` (line 166; the target is the address of the
pointer): `none` for an error, `some none` when it sets the pointer to nil,
which it does on the line `null`, and `some (some r)` when the pointer is to
`r`. -/
structure BitflyerLine where
  asSubscribed : Option BitflyerSubscribed
  asRoot : Option (Option BitflyerRoot)
deriving DecidableEq

/-- Rows that the Bitflyer formatter returns: the three header constants of
the package `jsondef`, the marshalled `jsondef.BitflyerBoard` and
`jsondef.BitflyerExecutions`, and the row of the ticker. -/
inductive BitflyerRow where
  | TypeDefBitflyerBoard
  | TypeDefBitflyerExecutions
  | TypeDefBitflyerTicker
  | BitflyerBoard (Symbol : GoString) (Price Size : ℚ)
  | BitflyerExecutions (Symbol : GoString) (Price Size : ℚ)
  | ticker (bytes : GoString)
deriving DecidableEq

/-- Errors that the Bitflyer formatter returns. -/
inductive BitflyerFormatError where
  /-- "FormatMessage: line: ..." -/
  | line
  /-- "csvlike unsupported: ..." -/
  | unsupported (channel : GoString)
  /-- "formatBoard: messageRaw: ..." -/
  | boardMessageRaw
  /-- "formatExecutions: messageRaw: ..." -/
  | executionsMessageRaw
  /-- an error of `formatTicker` -/
  | ticker (message : String)
deriving DecidableEq

/-- Go method `BitflyerFormatter.formatBoard`.  The slice expression of the
pair (lines 33-37) is evaluated first and panics when the channel is shorter
than the prefix. -/
def BitflyerFormatter.formatBoard (channel : GoString) (messageRaw : BitflyerRawMessage) :
    GoResult BitflyerRow BitflyerFormatError :=
  match (if HasPrefix channel (goString "lightning_board_snapshot_") then
      sliceFrom channel (goString "lightning_board_snapshot_").length
    else
      sliceFrom channel (goString "lightning_board_").length) with
  | none => .panicked .sliceBounds
  | some pair =>
    match messageRaw.asBoard with
    | none => .returned [] (some .boardMessageRaw)
    | some message =>
      .returned
        (message.Asks.map (fun ask => BitflyerRow.BitflyerBoard pair ask.Price (-ask.Size)) ++
          message.Bids.map (fun bid => BitflyerRow.BitflyerBoard pair bid.Price bid.Size))
        none

/-- Go method `BitflyerFormatter.formatExecutions`.  The slice expression of
the pair (line 77) is evaluated first and panics when the channel is shorter
than the prefix. -/
def BitflyerFormatter.formatExecutions (channel : GoString) (messageRaw : BitflyerRawMessage) :
    GoResult BitflyerRow BitflyerFormatError :=
  match sliceFrom channel (goString "lightning_executions_").length with
  | none => .panicked .sliceBounds
  | some pair =>
    match messageRaw.asExecutions with
    | none => .returned [] (some .executionsMessageRaw)
    | some orders =>
      .returned
        (orders.map fun element =>
          let size : ℚ :=
            if element.Size ≠ 0 then
              if element.Side = "ask" then -element.Size else element.Size
            else 0
          BitflyerRow.BitflyerExecutions pair element.Price size)
        none

/-- Go method `BitflyerFormatter.FormatMessage`.  `formatTicker`, which slices
nothing and parses a timestamp with the package `time`, is a parameter that
returns rows and, for an error, its message (every one starts with
"formatTicker:").  Under each of the three prefixes the argument
`root.Params.Message` is evaluated before the call, and panics when `root` is
nil; the last branch does not read `root`. -/
def BitflyerFormatter.FormatMessage
    (formatTicker : GoString → BitflyerRawMessage → List BitflyerRow × Option String)
    (channel : GoString) (line : BitflyerLine) : GoResult BitflyerRow BitflyerFormatError :=
  match line.asSubscribed with
  | none => .returned [] (some .line)
  | some subscribe =>
    if subscribe.Result then
      if HasPrefix channel (goString "lightning_board_") then
        .returned [.TypeDefBitflyerBoard] none
      else if HasPrefix channel (goString "lightning_executions_") then
        .returned [.TypeDefBitflyerExecutions] none
      else if HasPrefix channel (goString "lightning_ticker_") then
        .returned [.TypeDefBitflyerTicker] none
      else .returned [] (some (.unsupported channel))
    else
      match line.asRoot with
      | none => .returned [] (some .line)
      | some root =>
        if HasPrefix channel (goString "lightning_board_") then
          match root with
          | none => .panicked .nilDereference
          | some root => BitflyerFormatter.formatBoard channel root.Params.Message
        else if HasPrefix channel (goString "lightning_executions_") then
          match root with
          | none => .panicked .nilDereference
          | some root => BitflyerFormatter.formatExecutions channel root.Params.Message
        else if HasPrefix channel (goString "lightning_ticker_") then
          match root with
          | none => .panicked .nilDereference
          | some root =>
            .returned (formatTicker channel root.Params.Message).1
              ((formatTicker channel root.Params.Message).2.map BitflyerFormatError.ticker)
        else .returned [] (some (.unsupported channel))

/-- Go method `BitflyerFormatter.IsSupported`. -/
def BitflyerFormatter.IsSupported (channel : GoString) : Bool :=
  HasPrefix channel (goString "lightning_board_snapshot_") ||
    HasPrefix channel (goString "lightning_board_") ||
    HasPrefix channel (goString "lightning_executions_") ||
    HasPrefix channel (goString "lightning_ticker_")

/-! ## Lemmas on the store -/

theorem getL_setL {K V : Type} [DecidableEq K] (k : K) (v : V) (l : List (K × V)) (k' : K) :
    getL k' (setL k v l) = if k' = k then some v else getL k' l := by
  induction l with
  | nil =>
    by_cases h : k' = k
    · simp [setL, getL, h]
    · have h' : ¬ k = k' := fun e => h e.symm
      simp [setL, getL, h, h']
  | cons p t ih =>
    by_cases hp : p.1 = k
    · by_cases h : k' = k
      · simp [setL, getL, hp, h]
      · have h' : ¬ k = k' := fun e => h e.symm
        simp [setL, getL, hp, h, h']
    · by_cases hpk : p.1 = k'
      · have h : ¬ k' = k := fun e => hp (hpk.trans e)
        simp [setL, getL, hp, hpk, h]
      · simp [setL, getL, hp, hpk, ih]

theorem getL_deleteL {K V : Type} [DecidableEq K] (k : K) (l : List (K × V)) (k' : K) :
    getL k' (deleteL k l) = if k' = k then none else getL k' l := by
  induction l with
  | nil => simp [deleteL, getL]
  | cons p t ih =>
    by_cases hp : p.1 = k
    · by_cases h : k' = k
      · subst h
        simpa [deleteL, hp] using ih
      · have hkk : ¬ k = k' := fun e => h e.symm
        simp [deleteL, hp, h, ih, getL, hkk]
    · by_cases hpk : p.1 = k'
      · have h : ¬ k' = k := fun e => hp (hpk.trans e)
        simp [deleteL, hp, getL, hpk, h]
      · simp [deleteL, hp, getL, hpk, ih]

theorem getL_isSome_iff {K V : Type} [DecidableEq K] (k : K) (l : List (K × V)) :
    (getL k l).isSome ↔ k ∈ l.map Prod.fst := by
  induction l with
  | nil => simp [getL]
  | cons p t ih =>
    by_cases hp : p.1 = k
    · simp [getL, hp]
    · have h' : ¬ k = p.1 := fun e => hp e.symm
      simp [getL, hp, ih, h']

theorem getL_eq_some_iff {K V : Type} [DecidableEq K] (k : K) (v : V) (l : List (K × V))
    (h : (l.map Prod.fst).Nodup) : getL k l = some v ↔ (k, v) ∈ l := by
  induction l with
  | nil => simp [getL]
  | cons p t ih =>
    rw [List.map_cons, List.nodup_cons] at h
    by_cases hp : p.1 = k
    · have hnot : ∀ w, (k, w) ∉ t := fun w hw =>
        h.1 (hp ▸ List.mem_map_of_mem Prod.fst hw)
      obtain ⟨a, b⟩ := p
      simp only at hp
      subst hp
      simp only [getL, if_true, Option.some.injEq, List.mem_cons, Prod.mk.injEq, true_and]
      constructor
      · intro e; exact Or.inl e.symm
      · rintro (e | e)
        · exact e.symm
        · exact absurd e (hnot v)
    · have hne : (k, v) ≠ p := fun e => hp (e ▸ rfl)
      simp [getL, hp, ih h.2, hne]

namespace GoMap

variable {K V : Type} [DecidableEq K]

theorem get_set (m : GoMap K V) (k : K) (v : V) (k' : K) :
    (m.set k v).get k' = if k' = k then some v else m.get k' :=
  getL_setL k v m.entries k'

theorem get_set_self (m : GoMap K V) (k : K) (v : V) : (m.set k v).get k = some v := by
  simp [get_set]

theorem get_set_ne (m : GoMap K V) (k : K) (v : V) (k' : K) (h : k' ≠ k) :
    (m.set k v).get k' = m.get k' := by
  simp [get_set, h]

theorem get_delete (m : GoMap K V) (k k' : K) :
    (m.delete k).get k' = if k' = k then none else m.get k' :=
  getL_deleteL k m.entries k'

theorem get_empty (k : K) : (empty : GoMap K V).get k = none := rfl

theorem mem_keys_iff (m : GoMap K V) (k : K) : k ∈ m.keys ↔ (m.get k).isSome :=
  (getL_isSome_iff k m.entries).symm

theorem get_eq_some_iff (m : GoMap K V) (k : K) (v : V) :
    m.get k = some v ↔ (k, v) ∈ m.entries :=
  getL_eq_some_iff k v m.entries m.nodup

end GoMap

theorem GoMap.keys_nodup {K V : Type} (m : GoMap K V) : (m.entries.map Prod.fst).Nodup :=
  m.nodup


theorem get_foldl_delete (l : List ℤ) (m : IDMap) (k : ℤ) :
    (l.foldl (fun m anoID => m.delete anoID) m).get k = if k ∈ l then none else m.get k := by
  induction l generalizing m with
  | nil => simp
  | cons a t ih =>
    rw [List.foldl_cons, ih, GoMap.get_delete]
    by_cases hk : k = a
    · simp [hk]
    · by_cases ht : k ∈ t
      · simp [ht]
      · simp [hk, ht]

theorem get_removeCrossed (m : IDMap) (crossed : bitmexOrderBookL2Element → Bool) (k : ℤ) :
    (removeCrossed m crossed).get k = (m.get k).filter (fun el => !crossed el) := by
  unfold removeCrossed
  simp only
  rw [get_foldl_delete]
  cases hget : m.get k with
  | none =>
    have hk : ¬ ∃ el, (k, el) ∈ m.entries := by
      rintro ⟨el, hel⟩
      rw [← GoMap.get_eq_some_iff, hget] at hel
      exact Option.noConfusion hel
    have : k ∉ (m.entries.filter (fun p => crossed p.2)).map Prod.fst := by
      intro hmem
      rw [List.mem_map] at hmem
      obtain ⟨⟨a, b⟩, hp, rfl⟩ := hmem
      exact hk ⟨b, (List.mem_filter.mp hp).1⟩
    simp [this]
  | some el =>
    have hel : (k, el) ∈ m.entries := (GoMap.get_eq_some_iff m k el).mp hget
    by_cases hc : crossed el = true
    · have : k ∈ (m.entries.filter (fun p => crossed p.2)).map Prod.fst :=
        List.mem_map.mpr ⟨(k, el), List.mem_filter.mpr ⟨hel, hc⟩, rfl⟩
      simp [this, Option.filter, hc]
    · have : k ∉ (m.entries.filter (fun p => crossed p.2)).map Prod.fst := by
        intro hmem
        rw [List.mem_map] at hmem
        obtain ⟨⟨a, b⟩, hp, hab⟩ := hmem
        simp only at hab
        subst hab
        have hp' := List.mem_filter.mp hp
        have hb : m.get a = some b := (GoMap.get_eq_some_iff m a b).mpr hp'.1
        rw [hget, Option.some.injEq] at hb
        subst hb
        exact hc hp'.2
      simp [this, Option.filter, hc]

theorem getEntry_set (orderBooks : OrderBooks) (symbol : String) (sides : SideMap)
    (symbol' side : String) (id : ℤ) :
    getEntry (orderBooks.set symbol sides) symbol' side id =
      if symbol' = symbol then sideEntry sides side id else getEntry orderBooks symbol' side id := by
  unfold getEntry sideEntry
  rw [GoMap.get_set]
  split <;> rfl

theorem sideEntry_set (sides : SideMap) (side : String) (ids : IDMap) (side' : String) (id : ℤ) :
    sideEntry (sides.set side ids) side' id =
      if side' = side then ids.get id else sideEntry sides side' id := by
  unfold sideEntry
  rw [GoMap.get_set]
  split <;> rfl

theorem sideEntry_getD (orderBooks : OrderBooks) (symbol side : String) (id : ℤ) :
    sideEntry ((orderBooks.get symbol).getD GoMap.empty) side id =
      getEntry orderBooks symbol side id := by
  unfold getEntry sideEntry
  cases orderBooks.get symbol <;> rfl

theorem get_getD (sides : SideMap) (side : String) (id : ℤ) :
    ((sides.get side).getD GoMap.empty).get id = sideEntry sides side id := by
  unfold sideEntry
  cases sides.get side <;> rfl

theorem sideEntry_of_get (sides : SideMap) (side : String) (ids : IDMap) (id : ℤ)
    (h : sides.get side = some ids) : sideEntry sides side id = ids.get id := by
  unfold sideEntry
  rw [h]
  rfl

theorem sideEntry_of_get_none (sides : SideMap) (side : String) (id : ℤ)
    (h : sides.get side = none) : sideEntry sides side id = none := by
  unfold sideEntry
  rw [h]
  rfl

theorem processDataElement_upsert (orderBooks : OrderBooks) (action : String)
    (e : BitmexOrderBookL2DataElement) (hact : action = "partial" ∨ action = "insert") :
    ∃ ob', processDataElement orderBooks action e = .ok ob' ∧
      ∀ symbol side id, getEntry ob' symbol side id =
        entryAfterUpsert orderBooks e symbol side id := by
  unfold processDataElement
  simp only [hact, if_true]
  refine ⟨_, rfl, ?_⟩
  intro symbol side id
  unfold entryAfterUpsert
  rw [getEntry_set]
  by_cases hsym : symbol = e.Symbol
  swap
  · simp only [hsym, if_false]
  subst hsym
  simp only [if_true]
  by_cases hb : e.Side = BitmexSideBuy
  · simp only [hb, if_true]
    have hne : BitmexSideSell ≠ BitmexSideBuy := by decide
    rw [GoMap.get_set_ne _ _ _ _ hne]
    cases hs : ((orderBooks.get e.Symbol).getD GoMap.empty).get BitmexSideSell with
    | none =>
      rw [sideEntry_set]
      by_cases h1 : side = BitmexSideBuy
      · simp only [h1, if_true, GoMap.get_set, get_getD, sideEntry_getD]
      · simp only [h1, if_false, sideEntry_getD]
        by_cases h2 : side = BitmexSideSell
        · subst h2
          have := sideEntry_of_get_none _ _ id hs
          rw [sideEntry_getD] at this
          simp [this]
        · simp only [h2, if_false]
    | some sellIDs =>
      rw [sideEntry_set]
      by_cases h2 : side = BitmexSideSell
      · subst h2
        have := sideEntry_of_get _ _ _ id hs
        rw [sideEntry_getD] at this
        simp only [if_true, hne, if_false, get_removeCrossed, this]
      · simp only [h2, if_false]
        rw [sideEntry_set]
        by_cases h1 : side = BitmexSideBuy
        · simp only [h1, if_true, GoMap.get_set, get_getD, sideEntry_getD]
        · simp only [h1, if_false, sideEntry_getD]
  · simp only [hb, if_false]
    have hne : BitmexSideBuy ≠ e.Side := fun h => hb h.symm
    rw [GoMap.get_set_ne _ _ _ _ hne]
    cases hs : ((orderBooks.get e.Symbol).getD GoMap.empty).get BitmexSideBuy with
    | none =>
      rw [sideEntry_set]
      by_cases h1 : side = e.Side
      · simp only [h1, if_true, GoMap.get_set, get_getD, sideEntry_getD]
      · simp only [h1, if_false, sideEntry_getD]
        by_cases h2 : side = BitmexSideBuy
        · subst h2
          have := sideEntry_of_get_none _ _ id hs
          rw [sideEntry_getD] at this
          simp [this]
        · simp only [h2, if_false]
    | some buyIDs =>
      rw [sideEntry_set]
      by_cases h2 : side = BitmexSideBuy
      · subst h2
        have := sideEntry_of_get _ _ _ id hs
        rw [sideEntry_getD] at this
        simp only [if_true, hne, if_false, get_removeCrossed, this]
      · simp only [h2, if_false]
        rw [sideEntry_set]
        by_cases h1 : side = e.Side
        · simp only [h1, if_true, GoMap.get_set, get_getD, sideEntry_getD]
        · simp only [h1, if_false, sideEntry_getD]

theorem processData_upsert_single (orderBooks : OrderBooks) (action : String)
    (e : BitmexOrderBookL2DataElement) (hact : action = "partial" ∨ action = "insert") :
    (processData orderBooks action [e]).2 = none ∧
      ∀ symbol side id, getEntry (processData orderBooks action [e]).1 symbol side id =
        entryAfterUpsert orderBooks e symbol side id := by
  obtain ⟨ob', h1, h2⟩ := processDataElement_upsert orderBooks action e hact
  simp only [processData, h1]
  exact ⟨trivial, h2⟩

/-! ## Sorted keys -/

theorem mem_sortStrings (l : List String) (x : String) : x ∈ sortStrings l ↔ x ∈ l :=
  (@List.perm_insertionSort String (fun a b => a ≤ b) decLEString l).mem_iff

theorem sortStrings_perm (l : List String) : (sortStrings l).Perm l :=
  @List.perm_insertionSort String (fun a b => a ≤ b) decLEString l

theorem sortStrings_sorted (l : List String) : (sortStrings l).Sorted (fun a b => a ≤ b) :=
  @List.sorted_insertionSort String (fun a b => a ≤ b) decLEString _ _ l

theorem sortStrings_pairwise_lt (l : List String) (h : l.Nodup) :
    (sortStrings l).Pairwise (fun a b => a < b) :=
  (sortStrings_sorted l).lt_of_le ((sortStrings_perm l).nodup_iff.mpr h)

theorem mem_sortBitmexSubscribe (m : GoMap String Bool) (x : String) :
    x ∈ sortBitmexSubscribe m ↔ (m.get x).isSome = true :=
  (mem_sortStrings _ x).trans (getL_isSome_iff x m.entries).symm

theorem mem_sortBitmexOrderbooks (m : OrderBooks) (x : String) :
    x ∈ sortBitmexOrderbooks m ↔ (m.get x).isSome = true :=
  (mem_sortStrings _ x).trans (getL_isSome_iff x m.entries).symm

theorem mem_sortBitmexSides (m : SideMap) (x : String) :
    x ∈ sortBitmexSides m ↔ (m.get x).isSome = true :=
  (mem_sortStrings _ x).trans (getL_isSome_iff x m.entries).symm

theorem mem_sortBitmexID (m : IDMap) (x : ℤ) :
    x ∈ sortBitmexID m ↔ (m.get x).isSome = true :=
  ((List.perm_insertionSort _ _).mem_iff).trans (getL_isSome_iff x m.entries).symm

theorem sortBitmexID_pairwise_lt (m : IDMap) : (sortBitmexID m).Pairwise (fun a b => a < b) :=
  (List.sorted_insertionSort (fun a b : ℤ => a ≤ b) _).lt_of_le
    ((List.perm_insertionSort _ _).nodup_iff.mpr m.nodup)

/-- Two lists that are strictly ascending for the same order and have the
same members are equal. -/
theorem eq_of_pairwise_lt_of_mem_iff {α : Type} [LinearOrder α] (l₁ l₂ : List α)
    (h₁ : l₁.Pairwise (fun a b => a < b)) (h₂ : l₂.Pairwise (fun a b => a < b))
    (h : ∀ x, x ∈ l₁ ↔ x ∈ l₂) : l₁ = l₂ := by
  have n₁ : l₁.Nodup := h₁.imp (fun hab => ne_of_lt hab)
  have n₂ : l₂.Nodup := h₂.imp (fun hab => ne_of_lt hab)
  have hp : l₁.Perm l₂ := (List.perm_ext_iff_of_nodup n₁ n₂).mpr h
  exact List.eq_of_perm_of_sorted hp (List.Sorted.le_of_lt h₁) (List.Sorted.le_of_lt h₂)

/-! ## The emitted element list -/

theorem mem_orderBookL2DataElements (orderBooks : OrderBooks)
    (d : BitmexOrderBookL2DataElement) :
    d ∈ orderBookL2DataElements orderBooks ↔
      getEntry orderBooks d.Symbol d.Side d.ID = some ⟨d.Price, d.Size⟩ := by
  unfold orderBookL2DataElements
  simp only [List.mem_flatMap, List.mem_map, mem_sortBitmexOrderbooks, mem_sortBitmexSides,
    mem_sortBitmexID]
  constructor
  · rintro ⟨symbol, hsym, side, hside, id, hid, rfl⟩
    obtain ⟨sides, hs⟩ := Option.isSome_iff_exists.mp hsym
    rw [hs] at hside hid ⊢
    simp only [Option.getD_some] at hside hid ⊢
    obtain ⟨ids, hi⟩ := Option.isSome_iff_exists.mp hside
    rw [hi] at hid ⊢
    simp only [Option.getD_some] at hid ⊢
    obtain ⟨el, he⟩ := Option.isSome_iff_exists.mp hid
    simp [getEntry, hs, hi, he]
  · intro h
    unfold getEntry at h
    cases hs : orderBooks.get d.Symbol with
    | none => simp [hs] at h
    | some sides =>
      rw [hs] at h
      simp only [Option.some_bind] at h
      cases hi : sides.get d.Side with
      | none => simp [hi] at h
      | some ids =>
        rw [hi] at h
        simp only [Option.some_bind] at h
        refine ⟨d.Symbol, ?_, d.Side, ?_, d.ID, ?_, ?_⟩
        · rw [hs]; rfl
        · rw [hs, Option.getD_some, hi]; rfl
        · rw [hs, Option.getD_some, hi, Option.getD_some, h]; rfl
        · simp [hs, hi, h]

theorem orderBookL2DataElements_pairwise (orderBooks : OrderBooks) :
    (orderBookL2DataElements orderBooks).Pairwise keyLT := by
  unfold orderBookL2DataElements
  rw [List.pairwise_flatMap]
  constructor
  · intro symbol _
    rw [List.pairwise_flatMap]
    constructor
    · intro side _
      rw [List.pairwise_map]
      exact (sortBitmexID_pairwise_lt _).imp (fun hab => Or.inr ⟨rfl, Or.inr ⟨rfl, hab⟩⟩)
    · refine (sortStrings_pairwise_lt _ (GoMap.keys_nodup _)).imp ?_
      intro a b hab x hx y hy
      simp only [List.mem_map] at hx hy
      obtain ⟨_, _, rfl⟩ := hx
      obtain ⟨_, _, rfl⟩ := hy
      exact Or.inr ⟨rfl, Or.inl hab⟩
  · refine (sortStrings_pairwise_lt _ (GoMap.keys_nodup _)).imp ?_
    intro a b hab x hx y hy
    simp only [List.mem_flatMap, List.mem_map] at hx hy
    obtain ⟨_, _, _, _, rfl⟩ := hx
    obtain ⟨_, _, _, _, rfl⟩ := hy
    exact Or.inl hab

theorem keyLT_irrefl (a : BitmexOrderBookL2DataElement) : ¬ keyLT a a := by
  unfold keyLT
  simp

theorem keyLT_asymm (a b : BitmexOrderBookL2DataElement) (h : keyLT a b) : ¬ keyLT b a := by
  unfold keyLT at *
  rintro (h' | ⟨e', h' | ⟨e2', h'⟩⟩)
  · rcases h with h | ⟨e, _⟩
    · exact lt_asymm h h'
    · rw [e] at h'; exact lt_irrefl _ h'
  · rcases h with h | ⟨e, h | ⟨e2, h⟩⟩
    · rw [e'] at h; exact lt_irrefl _ h
    · exact lt_asymm h h'
    · rw [e2] at h'; exact lt_irrefl _ h'
  · rcases h with h | ⟨e, h | ⟨e2, h⟩⟩
    · rw [e'] at h; exact lt_irrefl _ h
    · rw [e2'] at h; exact lt_irrefl _ h
    · exact lt_asymm h h'

/-- The emitted element list is a function of the entries of the store. -/
theorem orderBookL2DataElements_congr (ob₁ ob₂ : OrderBooks)
    (h : ∀ symbol side id, getEntry ob₁ symbol side id = getEntry ob₂ symbol side id) :
    orderBookL2DataElements ob₁ = orderBookL2DataElements ob₂ := by
  have p₁ := orderBookL2DataElements_pairwise ob₁
  have p₂ := orderBookL2DataElements_pairwise ob₂
  have n₁ : (orderBookL2DataElements ob₁).Nodup :=
    p₁.imp (fun {a b} hab (e : a = b) => keyLT_irrefl a (by rw [← e] at hab; exact hab))
  have n₂ : (orderBookL2DataElements ob₂).Nodup :=
    p₂.imp (fun {a b} hab (e : a = b) => keyLT_irrefl a (by rw [← e] at hab; exact hab))
  have hp : (orderBookL2DataElements ob₁).Perm (orderBookL2DataElements ob₂) := by
    rw [List.perm_ext_iff_of_nodup n₁ n₂]
    intro d
    rw [mem_orderBookL2DataElements, mem_orderBookL2DataElements, h]
  haveI : IsAntisymm BitmexOrderBookL2DataElement keyLT :=
    ⟨fun a b h₁ h₂ => absurd h₂ (keyLT_asymm a b h₁)⟩
  exact List.eq_of_perm_of_sorted hp p₁ p₂

/-- The sorted channel list is a function of the set of subscribed channels. -/
theorem sortBitmexSubscribe_congr (m₁ m₂ : GoMap String Bool)
    (h : ∀ channel, (m₁.get channel).isSome = (m₂.get channel).isSome) :
    sortBitmexSubscribe m₁ = sortBitmexSubscribe m₂ := by
  apply eq_of_pairwise_lt_of_mem_iff
  · exact sortStrings_pairwise_lt _ m₁.nodup
  · exact sortStrings_pairwise_lt _ m₂.nodup
  · intro x
    rw [mem_sortBitmexSubscribe, mem_sortBitmexSubscribe, h]

/-! ## Insertion and the crossed-book purge -/

/-- C1: crossed-book purge on a Buy.  After `processData` with action partial
or insert on a single Buy element of price `P`, no Sell entry of its symbol
with price strictly less than `P` remains, and every Sell entry of that symbol
with price not less than `P` that was present before is still present with the
same price and size.  In the example of the specification (a Sell at 100 of
size 5 inserted into the empty store, then a Buy at 105 of size 3), no Sell
entry is left and the Buy entry is there. -/
theorem processData_buy_purges_crossed_sells (orderBooks : OrderBooks)
    (e : BitmexOrderBookL2DataElement) (action : String)
    (hside : e.Side = BitmexSideBuy) (hact : action = "partial" ∨ action = "insert") :
    (∀ id el, getEntry (processData orderBooks action [e]).1 e.Symbol BitmexSideSell id = some el →
        ¬ el.price < e.Price) ∧
    (∀ id el, getEntry orderBooks e.Symbol BitmexSideSell id = some el → ¬ el.price < e.Price →
        getEntry (processData orderBooks action [e]).1 e.Symbol BitmexSideSell id = some el) ∧
    (∀ (symbol : String) (i j id : ℤ),
        getEntry (processData (processData GoMap.empty "insert" [exampleSell symbol i]).1
            "insert" [exampleBuy symbol j]).1 symbol BitmexSideSell id = none ∧
        getEntry (processData (processData GoMap.empty "insert" [exampleSell symbol i]).1
            "insert" [exampleBuy symbol j]).1 symbol BitmexSideBuy j = some ⟨105, 3⟩) := by
  have hne : BitmexSideSell ≠ BitmexSideBuy := by decide
  have key := (processData_upsert_single orderBooks action e hact).2
  refine ⟨?_, ?_, ?_⟩
  · intro id el h
    rw [key] at h
    simp only [entryAfterUpsert, if_true, hside, hne, if_false] at h
    cases hg : getEntry orderBooks e.Symbol BitmexSideSell id with
    | none => simp [hg, Option.filter] at h
    | some el0 =>
      rw [hg] at h
      by_cases hc : el0.price < e.Price
      · simp [Option.filter, hc] at h
      · simp only [Option.filter, hc, decide_False, Bool.not_false, if_true,
          Option.some.injEq] at h
        exact h ▸ hc
  · intro id el h hc
    rw [key]
    simp only [entryAfterUpsert, if_true, hside, hne, if_false, h]
    simp [Option.filter, hc]
  · intro symbol i j id
    have k1 := (processData_upsert_single GoMap.empty "insert" (exampleSell symbol i)
      (Or.inr rfl)).2
    have k2 := (processData_upsert_single
      (processData GoMap.empty "insert" [exampleSell symbol i]).1 "insert"
      (exampleBuy symbol j) (Or.inr rfl)).2
    have hempty : ∀ sy si d, getEntry (GoMap.empty : OrderBooks) sy si d = none :=
      fun _ _ _ => rfl
    have hS : getEntry (processData GoMap.empty "insert" [exampleSell symbol i]).1 symbol
        BitmexSideSell id = if id = i then some ⟨100, 5⟩ else none := by
      rw [k1]
      simp [entryAfterUpsert, exampleSell, hempty]
    constructor
    · rw [k2]
      have hsym : (exampleBuy symbol j).Symbol = symbol := rfl
      have hsd : (exampleBuy symbol j).Side = BitmexSideBuy := rfl
      have hpr : (exampleBuy symbol j).Price = 105 := rfl
      simp only [entryAfterUpsert, hsym, hsd, hpr, if_true, hne, if_false, hS]
      by_cases hid : id = i
      · simp only [hid, if_true, Option.filter]
        rw [if_neg]
        simp only [Bool.not_eq_true, Bool.not_eq_false_eq_eq_true, decide_eq_true_eq]
        norm_num
      · simp [hid, Option.filter]
    · rw [k2]
      simp [entryAfterUpsert, exampleBuy]

/-- Witness of C1: the example of the specification, with symbol X and the
identifiers 1 and 2. -/
theorem processData_buy_purges_crossed_sells_witness :
    (exampleBuy "X" 2).Side = BitmexSideBuy ∧ ("insert" = "partial" ∨ "insert" = "insert") ∧
    (∀ id el, getEntry (processData (processData GoMap.empty "insert" [exampleSell "X" 1]).1
        "insert" [exampleBuy "X" 2]).1 "X" BitmexSideSell id = some el →
        ¬ el.price < 105) ∧
    getEntry (processData (processData GoMap.empty "insert" [exampleSell "X" 1]).1
        "insert" [exampleBuy "X" 2]).1 "X" BitmexSideSell 1 = none ∧
    getEntry (processData (processData GoMap.empty "insert" [exampleSell "X" 1]).1
        "insert" [exampleBuy "X" 2]).1 "X" BitmexSideBuy 2 = some ⟨105, 3⟩ :=
  ⟨rfl, Or.inr rfl,
    (processData_buy_purges_crossed_sells
      (processData GoMap.empty "insert" [exampleSell "X" 1]).1 (exampleBuy "X" 2) "insert"
      rfl (Or.inr rfl)).1,
    by decide, by decide⟩

/-- C2: crossed-book purge on a Sell.  After `processData` with action partial
or insert on a single Sell element of price `P`, no Buy entry of its symbol
with price strictly greater than `P` remains, and every Buy entry of that
symbol with price not greater than `P` that was present before is still
present with the same price and size. -/
theorem processData_sell_purges_crossed_buys (orderBooks : OrderBooks)
    (e : BitmexOrderBookL2DataElement) (action : String)
    (hside : e.Side = BitmexSideSell) (hact : action = "partial" ∨ action = "insert") :
    (∀ id el, getEntry (processData orderBooks action [e]).1 e.Symbol BitmexSideBuy id = some el →
        ¬ el.price > e.Price) ∧
    (∀ id el, getEntry orderBooks e.Symbol BitmexSideBuy id = some el → ¬ el.price > e.Price →
        getEntry (processData orderBooks action [e]).1 e.Symbol BitmexSideBuy id = some el) := by
  have hne : BitmexSideBuy ≠ BitmexSideSell := by decide
  have hne' : BitmexSideSell ≠ BitmexSideBuy := by decide
  have key := (processData_upsert_single orderBooks action e hact).2
  refine ⟨?_, ?_⟩
  · intro id el h
    rw [key] at h
    simp only [entryAfterUpsert, if_true, hside, hne, hne', if_false] at h
    cases hg : getEntry orderBooks e.Symbol BitmexSideBuy id with
    | none => simp [hg, Option.filter] at h
    | some el0 =>
      rw [hg] at h
      by_cases hc : el0.price > e.Price
      · simp [Option.filter, hc] at h
      · simp only [Option.filter, hc, decide_False, Bool.not_false, if_true,
          Option.some.injEq] at h
        exact h ▸ hc
  · intro id el h hc
    rw [key]
    simp only [entryAfterUpsert, if_true, hside, hne, hne', if_false, h]
    simp [Option.filter, hc]

/-- Witness of C2: a Buy at 105 rests in the store and a Sell at 100 arrives. -/
theorem processData_sell_purges_crossed_buys_witness :
    (exampleSell "X" 1).Side = BitmexSideSell ∧ ("partial" = "partial" ∨ "partial" = "insert") ∧
    (∀ id el, getEntry (processData (processData GoMap.empty "insert" [exampleBuy "X" 2]).1
        "partial" [exampleSell "X" 1]).1 "X" BitmexSideBuy id = some el → ¬ el.price > 100) ∧
    getEntry (processData (processData GoMap.empty "insert" [exampleBuy "X" 2]).1
        "partial" [exampleSell "X" 1]).1 "X" BitmexSideBuy 2 = none :=
  ⟨rfl, Or.inl rfl,
    (processData_sell_purges_crossed_buys
      (processData GoMap.empty "insert" [exampleBuy "X" 2]).1 (exampleSell "X" 1) "partial"
      rfl (Or.inl rfl)).1,
    by decide⟩

/-- C10: upsert.  After `processData` with action partial or insert on a single
element `e`, no error is returned and the store holds at the key
`(e.Symbol, e.Side, e.ID)` exactly the entry `(e.Price, e.Size)`, whether or
not the key existed before. -/
theorem processData_upsert (orderBooks : OrderBooks)
    (e : BitmexOrderBookL2DataElement) (action : String)
    (hact : action = "partial" ∨ action = "insert") :
    (processData orderBooks action [e]).2 = none ∧
    getEntry (processData orderBooks action [e]).1 e.Symbol e.Side e.ID =
      some ⟨e.Price, e.Size⟩ := by
  obtain ⟨h1, h2⟩ := processData_upsert_single orderBooks action e hact
  refine ⟨h1, ?_⟩
  rw [h2]
  simp [entryAfterUpsert]

/-- Witness of C10: the key exists before (a Sell at 100 of size 5) and is
replaced by an element of the same key with another price and size. -/
theorem processData_upsert_witness :
    ("partial" = "partial" ∨ "partial" = "insert") ∧
    getEntry (processData GoMap.empty "insert" [exampleSell "X" 1]).1 "X" "Sell" 1 =
      some ⟨100, 5⟩ ∧
    (processData (processData GoMap.empty "insert" [exampleSell "X" 1]).1 "partial"
      [⟨1, 99, "Sell", 7, "X"⟩]).2 = none ∧
    getEntry (processData (processData GoMap.empty "insert" [exampleSell "X" 1]).1 "partial"
      [⟨1, 99, "Sell", 7, "X"⟩]).1 "X" "Sell" 1 = some ⟨99, 7⟩ :=
  ⟨Or.inl rfl, by decide,
    processData_upsert (processData GoMap.empty "insert" [exampleSell "X" 1]).1
      ⟨1, 99, "Sell", 7, "X"⟩ "partial" (Or.inl rfl)⟩

/-! ## Update and delete, entry by entry -/

theorem getEntry_of_get (orderBooks : OrderBooks) (symbol : String) (sides : SideMap)
    (h : orderBooks.get symbol = some sides) (side : String) (id : ℤ) :
    getEntry orderBooks symbol side id = sideEntry sides side id := by
  unfold getEntry sideEntry
  rw [h]
  rfl

theorem getEntry_of_get_none (orderBooks : OrderBooks) (symbol : String)
    (h : orderBooks.get symbol = none) (side : String) (id : ℤ) :
    getEntry orderBooks symbol side id = none := by
  unfold getEntry
  rw [h]
  rfl

theorem processDataElement_update (orderBooks : OrderBooks) (e : BitmexOrderBookL2DataElement) :
    ∃ ob', processDataElement orderBooks "update" e = .ok ob' ∧
      ∀ symbol side id, getEntry ob' symbol side id =
        if symbol = e.Symbol ∧ side = e.Side ∧ id = e.ID then
          (getEntry orderBooks symbol side id).map fun elem => ⟨elem.price, e.Size⟩
        else getEntry orderBooks symbol side id := by
  have hu : ¬ ("update" = "partial" ∨ "update" = "insert") := by decide
  unfold processDataElement
  simp only [hu, if_false, if_true]
  cases hs : orderBooks.get e.Symbol with
  | none =>
    refine ⟨_, rfl, ?_⟩
    intro symbol side id
    split
    · rename_i h
      rw [h.1, getEntry_of_get_none _ _ hs]; rfl
    · rfl
  | some sides =>
    dsimp only
    cases hi : sides.get e.Side with
    | none =>
      refine ⟨_, rfl, ?_⟩
      intro symbol side id
      split
      · rename_i h
        rw [h.1, h.2.1, getEntry_of_get _ _ _ hs, sideEntry_of_get_none _ _ _ hi]; rfl
      · rfl
    | some ids =>
      dsimp only
      cases he : ids.get e.ID with
      | none =>
        refine ⟨_, rfl, ?_⟩
        intro symbol side id
        split
        · rename_i h
          rw [h.1, h.2.1, h.2.2, getEntry_of_get _ _ _ hs, sideEntry_of_get _ _ _ _ hi, he]; rfl
        · rfl
      | some elem =>
        refine ⟨_, rfl, ?_⟩
        intro symbol side id
        rw [getEntry_set]
        by_cases h1 : symbol = e.Symbol
        · subst h1
          simp only [if_true, true_and]
          rw [sideEntry_set, getEntry_of_get _ _ _ hs]
          by_cases h2 : side = e.Side
          · subst h2
            simp only [if_true, true_and]
            rw [GoMap.get_set, sideEntry_of_get _ _ _ _ hi]
            by_cases h3 : id = e.ID
            · subst h3
              simp [he]
            · simp [h3]
          · simp [h2]
        · simp [h1]

theorem processDataElement_delete (orderBooks : OrderBooks) (e : BitmexOrderBookL2DataElement) :
    ∃ ob', processDataElement orderBooks "delete" e = .ok ob' ∧
      ∀ symbol side id, getEntry ob' symbol side id =
        if symbol = e.Symbol ∧ side = e.Side ∧ id = e.ID then none
        else getEntry orderBooks symbol side id := by
  have hu : ¬ ("delete" = "partial" ∨ "delete" = "insert") := by decide
  have hd : ¬ ("delete" = "update") := by decide
  unfold processDataElement
  simp only [hu, hd, if_false, if_true]
  cases hs : orderBooks.get e.Symbol with
  | none =>
    refine ⟨_, rfl, ?_⟩
    intro symbol side id
    split
    · rename_i h
      rw [h.1, getEntry_of_get_none _ _ hs]
    · rfl
  | some sides =>
    dsimp only
    cases hi : sides.get e.Side with
    | none =>
      refine ⟨_, rfl, ?_⟩
      intro symbol side id
      split
      · rename_i h
        rw [h.1, h.2.1, getEntry_of_get _ _ _ hs, sideEntry_of_get_none _ _ _ hi]
      · rfl
    | some ids =>
      refine ⟨_, rfl, ?_⟩
      intro symbol side id
      rw [getEntry_set]
      by_cases h1 : symbol = e.Symbol
      · subst h1
        simp only [if_true, true_and]
        rw [sideEntry_set, getEntry_of_get _ _ _ hs]
        by_cases h2 : side = e.Side
        · subst h2
          simp only [if_true, true_and]
          rw [GoMap.get_delete, sideEntry_of_get _ _ _ _ hi]
        · simp [h2]
      · simp [h1]

/-! ## The uncrossed-book invariant -/

theorem entryAfterUpsert_uncrossed (orderBooks : OrderBooks) (e : BitmexOrderBookL2DataElement)
    (h : Uncrossed orderBooks) (symbol : String) (i j : ℤ) (b a : bitmexOrderBookL2Element)
    (hb : entryAfterUpsert orderBooks e symbol BitmexSideBuy i = some b)
    (ha : entryAfterUpsert orderBooks e symbol BitmexSideSell j = some a) :
    ¬ b.price > a.price := by
  have hne : BitmexSideSell ≠ BitmexSideBuy := by decide
  have hne' : BitmexSideBuy ≠ BitmexSideSell := by decide
  unfold entryAfterUpsert at hb ha
  by_cases hsym : symbol = e.Symbol
  swap
  · simp only [hsym, if_false] at hb ha
    exact h symbol i j b a hb ha
  simp only [hsym, if_true] at hb ha
  by_cases hB : e.Side = BitmexSideBuy
  · simp only [hB, if_true, hne, if_false] at hb ha
    obtain ⟨ha1, ha2⟩ := Option.filter_eq_some.mp ha |>.imp_right id
    have ha3 : ¬ a.price < e.Price := by simpa using ha2
    by_cases hi : i = e.ID
    · simp only [hi, if_true, Option.some.injEq] at hb
      rw [← hb]
      exact ha3
    · simp only [hi, if_false] at hb
      exact h e.Symbol i j b a hb ha1
  · have hB' : ¬ BitmexSideBuy = e.Side := fun x => hB x.symm
    simp only [hB, hB', if_false, if_true] at hb ha
    obtain ⟨hb1, hb2⟩ := Option.filter_eq_some.mp hb |>.imp_right id
    have hb3 : ¬ b.price > e.Price := by simpa using hb2
    by_cases hS : BitmexSideSell = e.Side
    · simp only [hS, if_true] at ha
      by_cases hj : j = e.ID
      · simp only [hj, if_true, Option.some.injEq] at ha
        rw [← ha]
        exact hb3
      · simp only [hj, if_false] at ha
        rw [← hS] at ha
        exact h e.Symbol i j b a hb1 ha
    · simp only [hS, if_false, hne] at ha
      exact h e.Symbol i j b a hb1 ha

theorem processDataElement_uncrossed (orderBooks : OrderBooks) (action : String)
    (e : BitmexOrderBookL2DataElement) (ob' : OrderBooks) (h : Uncrossed orderBooks)
    (hr : processDataElement orderBooks action e = .ok ob') : Uncrossed ob' := by
  by_cases hact : action = "partial" ∨ action = "insert"
  · obtain ⟨ob'', h1, h2⟩ := processDataElement_upsert orderBooks action e hact
    rw [h1] at hr
    cases hr
    intro symbol i j b a hb ha
    rw [h2] at hb ha
    exact entryAfterUpsert_uncrossed orderBooks e h symbol i j b a hb ha
  · by_cases hu : action = "update"
    · subst hu
      obtain ⟨ob'', h1, h2⟩ := processDataElement_update orderBooks e
      rw [h1] at hr
      cases hr
      intro symbol i j b a hb ha
      rw [h2] at hb ha
      have key : ∀ side id el, (if symbol = e.Symbol ∧ side = e.Side ∧ id = e.ID then
            (getEntry orderBooks symbol side id).map
              (fun elem => (⟨elem.price, e.Size⟩ : bitmexOrderBookL2Element))
          else getEntry orderBooks symbol side id) = some el →
          ∃ el0, getEntry orderBooks symbol side id = some el0 ∧ el0.price = el.price := by
        intro side id el hel
        split at hel
        · cases hg : getEntry orderBooks symbol side id with
          | none => simp [hg] at hel
          | some el0 =>
            rw [hg] at hel
            simp only [Option.map_some', Option.some.injEq] at hel
            exact ⟨el0, rfl, by rw [← hel]⟩
        · exact ⟨el, hel, rfl⟩
      obtain ⟨b0, hb0, hbp⟩ := key _ _ _ hb
      obtain ⟨a0, ha0, hap⟩ := key _ _ _ ha
      rw [← hbp, ← hap]
      exact h symbol i j b0 a0 hb0 ha0
    · by_cases hd : action = "delete"
      · subst hd
        obtain ⟨ob'', h1, h2⟩ := processDataElement_delete orderBooks e
        rw [h1] at hr
        cases hr
        intro symbol i j b a hb ha
        rw [h2] at hb ha
        split at hb
        · exact absurd hb (by simp)
        · split at ha
          · exact absurd ha (by simp)
          · exact h symbol i j b a hb ha
      · have h1 : action ≠ "partial" := fun x => hact (Or.inl x)
        have h2 : action ≠ "insert" := fun x => hact (Or.inr x)
        simp [processDataElement, h1, h2, hu, hd] at hr

theorem processData_uncrossed (action : String) (dataSlice : List BitmexOrderBookL2DataElement)
    (orderBooks : OrderBooks) (h : Uncrossed orderBooks) :
    Uncrossed (processData orderBooks action dataSlice).1 := by
  induction dataSlice generalizing orderBooks with
  | nil => exact h
  | cons data rest ih =>
    unfold processData
    cases hr : processDataElement orderBooks action data with
    | error err => exact h
    | ok ob' => exact ih ob' (processDataElement_uncrossed orderBooks action data ob' h hr)

/-! ## Replaying a list of elements as a partial -/

/-- Inserting an element into a book whose opposite side is not crossed by it
changes the entry at the key of the element and nothing else. -/
theorem entryAfterUpsert_of_uncrossed (G : String → String → ℤ → Option bitmexOrderBookL2Element)
    (hG : ∀ symbol i j b a, G symbol BitmexSideBuy i = some b →
      G symbol BitmexSideSell j = some a → ¬ b.price > a.price)
    (T : OrderBooks) (d : BitmexOrderBookL2DataElement)
    (hside : d.Side = BitmexSideBuy ∨ d.Side = BitmexSideSell)
    (hd : G d.Symbol d.Side d.ID = some ⟨d.Price, d.Size⟩)
    (hT : ∀ symbol side id el, getEntry T symbol side id = some el → G symbol side id = some el)
    (symbol side : String) (id : ℤ) :
    entryAfterUpsert T d symbol side id =
      if symbol = d.Symbol ∧ side = d.Side ∧ id = d.ID then some ⟨d.Price, d.Size⟩
      else getEntry T symbol side id := by
  have hne : BitmexSideSell ≠ BitmexSideBuy := by decide
  unfold entryAfterUpsert
  by_cases hsym : symbol = d.Symbol
  swap
  · simp [hsym]
  subst hsym
  simp only [if_true, true_and]
  by_cases hsd : side = d.Side
  · subst hsd
    simp only [if_true, true_and]
  · simp only [hsd, if_false, false_and]
    rcases hside with hB | hS
    · simp only [hB, if_true]
      by_cases h2 : side = BitmexSideSell
      · subst h2
        simp only [if_true]
        cases hg : getEntry T d.Symbol BitmexSideSell id with
        | none => rfl
        | some a =>
          have h1 := hT _ _ _ _ hg
          rw [hB] at hd
          have h3 := hG d.Symbol d.ID id _ a hd h1
          have h4 : ¬ a.price < d.Price := h3
          simp [Option.filter, h4]
      · simp only [h2, if_false]
    · have hSB : ¬ d.Side = BitmexSideBuy := by rw [hS]; exact hne
      simp only [hSB, if_false]
      by_cases h2 : side = BitmexSideBuy
      · subst h2
        simp only [if_true]
        cases hg : getEntry T d.Symbol BitmexSideBuy id with
        | none => rfl
        | some b =>
          have h1 := hT _ _ _ _ hg
          rw [hS] at hd
          have h3 := hG d.Symbol id d.ID b _ h1 hd
          have h4 : ¬ b.price > d.Price := h3
          simp [Option.filter, h4]
      · simp only [h2, if_false]

/-- Replaying as a partial a list of elements with pairwise distinct keys and
sides Buy or Sell, which together with the store make up an uncrossed book
`G`, returns no error and leaves exactly the book `G`. -/
theorem processData_replay (G : String → String → ℤ → Option bitmexOrderBookL2Element)
    (hG : ∀ symbol i j b a, G symbol BitmexSideBuy i = some b →
      G symbol BitmexSideSell j = some a → ¬ b.price > a.price)
    (l : List BitmexOrderBookL2DataElement) (T : OrderBooks)
    (hside : ∀ d ∈ l, d.Side = BitmexSideBuy ∨ d.Side = BitmexSideSell)
    (hkeys : l.Pairwise (fun a b => ¬ (a.Symbol = b.Symbol ∧ a.Side = b.Side ∧ a.ID = b.ID)))
    (hfresh : ∀ d ∈ l, getEntry T d.Symbol d.Side d.ID = none)
    (hl : ∀ d ∈ l, G d.Symbol d.Side d.ID = some ⟨d.Price, d.Size⟩)
    (hT : ∀ symbol side id el, getEntry T symbol side id = some el → G symbol side id = some el)
    (hcov : ∀ symbol side id el, G symbol side id = some el →
      getEntry T symbol side id = some el ∨
        ∃ d ∈ l, d.Symbol = symbol ∧ d.Side = side ∧ d.ID = id) :
    (processData T "partial" l).2 = none ∧
      ∀ symbol side id, getEntry (processData T "partial" l).1 symbol side id =
        G symbol side id := by
  induction l generalizing T with
  | nil =>
    refine ⟨rfl, ?_⟩
    intro symbol side id
    show getEntry T symbol side id = G symbol side id
    cases hg : G symbol side id with
    | none =>
      cases ht : getEntry T symbol side id with
      | none => rfl
      | some el => rw [hT _ _ _ _ ht] at hg; exact Option.noConfusion hg
    | some el =>
      rcases hcov _ _ _ _ hg with h | ⟨d, hd, _⟩
      · exact h
      · exact absurd hd (List.not_mem_nil d)
  | cons d t ih =>
    obtain ⟨T', h1, h2⟩ := processDataElement_upsert T "partial" d (Or.inl rfl)
    have hstep : processData T "partial" (d :: t) = processData T' "partial" t := by
      simp only [processData, h1]
    rw [hstep]
    have hdm : d ∈ d :: t := List.mem_cons_self d t
    have key : ∀ symbol side id, getEntry T' symbol side id =
        if symbol = d.Symbol ∧ side = d.Side ∧ id = d.ID then some ⟨d.Price, d.Size⟩
        else getEntry T symbol side id := by
      intro symbol side id
      rw [h2]
      exact entryAfterUpsert_of_uncrossed G hG T d (hside d hdm) (hl d hdm) hT symbol side id
    rw [List.pairwise_cons] at hkeys
    apply ih T'
    · exact fun d' hd' => hside d' (List.mem_cons_of_mem d hd')
    · exact hkeys.2
    · intro d' hd'
      rw [key]
      have hne := hkeys.1 d' hd'
      have hne' : ¬ (d'.Symbol = d.Symbol ∧ d'.Side = d.Side ∧ d'.ID = d.ID) :=
        fun ⟨x, y, z⟩ => hne ⟨x.symm, y.symm, z.symm⟩
      rw [if_neg hne']
      exact hfresh d' (List.mem_cons_of_mem d hd')
    · exact fun d' hd' => hl d' (List.mem_cons_of_mem d hd')
    · intro symbol side id el hel
      rw [key] at hel
      split at hel
      · rename_i hk
        obtain ⟨x, y, z⟩ := hk
        subst x; subst y; subst z
        rw [← hel]
        exact hl d hdm
      · exact hT _ _ _ _ hel
    · intro symbol side id el hg
      rw [key]
      by_cases hk : symbol = d.Symbol ∧ side = d.Side ∧ id = d.ID
      · left
        rw [if_pos hk]
        obtain ⟨x, y, z⟩ := hk
        subst x; subst y; subst z
        rw [← hg]
        exact (hl d hdm).symm
      · rw [if_neg hk]
        rcases hcov _ _ _ _ hg with h | ⟨d', hd', hx, hy, hz⟩
        · exact Or.inl h
        · rcases List.mem_cons.mp hd' with e | hmem
          · subst e
            exact absurd ⟨hx.symm, hy.symm, hz.symm⟩ hk
          · exact Or.inr ⟨d', hmem, hx, hy, hz⟩

theorem getEntry_empty (symbol side : String) (id : ℤ) :
    getEntry (GoMap.empty : OrderBooks) symbol side id = none := rfl

/-- The emitted element list of an uncrossed book whose entries all have side
Buy or Sell, replayed as a partial into the empty store, rebuilds the entries
of the book. -/
theorem processData_replay_elements (orderBooks : OrderBooks) (hU : Uncrossed orderBooks)
    (hside : ∀ symbol side id el, getEntry orderBooks symbol side id = some el →
      side = BitmexSideBuy ∨ side = BitmexSideSell) :
    (processData GoMap.empty "partial" (orderBookL2DataElements orderBooks)).2 = none ∧
      ∀ symbol side id,
        getEntry (processData GoMap.empty "partial"
          (orderBookL2DataElements orderBooks)).1 symbol side id =
          getEntry orderBooks symbol side id := by
  apply processData_replay (getEntry orderBooks) hU
  · intro d hd
    exact hside _ _ _ _ ((mem_orderBookL2DataElements orderBooks d).mp hd)
  · refine (orderBookL2DataElements_pairwise orderBooks).imp ?_
    intro a b hab ⟨x, y, z⟩
    unfold keyLT at hab
    rw [x, y, z] at hab
    simp at hab
  · intro d _
    rfl
  · intro d hd
    exact (mem_orderBookL2DataElements orderBooks d).mp hd
  · intro symbol side id el h
    rw [getEntry_empty] at h
    exact Option.noConfusion h
  · intro symbol side id el h
    right
    refine ⟨⟨id, el.price, side, el.size, symbol⟩, ?_, rfl, rfl, rfl⟩
    rw [mem_orderBookL2DataElements]
    exact h

/-! ## Emission order -/

/-- C5: emission order and completeness.  For every store the list produced by
`orderBookL2DataElements` is strictly ascending in the lexicographic order on
(symbol, side, identifier), where the side Buy precedes the side Sell; it has
no repetition; each stored entry occurs in it exactly once, with its stored
price and size; and every element of the list is a stored entry. -/
theorem orderBookL2DataElements_sorted_complete (orderBooks : OrderBooks) :
    (orderBookL2DataElements orderBooks).Pairwise keyLT ∧
    BitmexSideBuy < BitmexSideSell ∧
    (orderBookL2DataElements orderBooks).Nodup ∧
    (∀ symbol side id el, getEntry orderBooks symbol side id = some el →
      (orderBookL2DataElements orderBooks).count
        { ID := id, Price := el.price, Side := side, Size := el.size, Symbol := symbol } = 1) ∧
    (∀ d ∈ orderBookL2DataElements orderBooks,
      getEntry orderBooks d.Symbol d.Side d.ID = some ⟨d.Price, d.Size⟩) := by
  have hp := orderBookL2DataElements_pairwise orderBooks
  have hn : (orderBookL2DataElements orderBooks).Nodup :=
    hp.imp (fun {a b} hab (e : a = b) => keyLT_irrefl a (by rw [← e] at hab; exact hab))
  refine ⟨hp, ?_, hn, ?_, ?_⟩
  · rw [String.lt_iff_toList_lt]
    decide
  · intro symbol side id el h
    apply List.count_eq_one_of_mem hn
    rw [mem_orderBookL2DataElements]
    exact h
  · intro d hd
    exact (mem_orderBookL2DataElements orderBooks d).mp hd

/-! ## Unknown actions -/

theorem processData_unknown_cons (orderBooks : OrderBooks) (action : String)
    (data : BitmexOrderBookL2DataElement) (rest : List BitmexOrderBookL2DataElement)
    (h1 : action ≠ "partial") (h2 : action ≠ "insert") (h3 : action ≠ "update")
    (h4 : action ≠ "delete") :
    processData orderBooks action (data :: rest) =
      (orderBooks, some (SimError.unknownAction action)) := by
  simp [processData, processDataElement, h1, h2, h3, h4]

/-- Counterexample to C8: with an empty sequence of elements the loop of
`processData` has no iteration, and an action that is none of the four is
accepted without an error. -/
theorem processData_unknown_action_empty :
    (processData GoMap.empty "replace" []).2 = none := rfl

/-- C8, amended: for every action string other than partial, insert, update and
delete and every non-empty sequence of elements, `processData` returns the
error "unknown action type". -/
theorem processData_unknown_action (orderBooks : OrderBooks) (action : String)
    (dataSlice : List BitmexOrderBookL2DataElement)
    (h1 : action ≠ "partial") (h2 : action ≠ "insert") (h3 : action ≠ "update")
    (h4 : action ≠ "delete") (hne : dataSlice ≠ []) :
    (processData orderBooks action dataSlice).2 = some (SimError.unknownAction action) := by
  cases dataSlice with
  | nil => exact absurd rfl hne
  | cons data rest => rw [processData_unknown_cons orderBooks action data rest h1 h2 h3 h4]

/-- Witness of C8 as amended: the action "replace" on one element. -/
theorem processData_unknown_action_witness :
    "replace" ≠ "partial" ∧ "replace" ≠ "insert" ∧ "replace" ≠ "update" ∧
    "replace" ≠ "delete" ∧ [exampleBuy "X" 2] ≠ [] ∧
    (processData GoMap.empty "replace" [exampleBuy "X" 2]).2 =
      some (SimError.unknownAction "replace") :=
  ⟨by decide, by decide, by decide, by decide, by decide,
    processData_unknown_action GoMap.empty "replace" [exampleBuy "X" 2]
      (by decide) (by decide) (by decide) (by decide) (by decide)⟩

/-! ## The channel filter -/

theorem ProcessMessageWebSocket_filterChannel (channelUnknown : String) (s : bitmexSimulator)
    (line : Line) :
    (ProcessMessageWebSocket channelUnknown s line).1.filterChannel = s.filterChannel := by
  unfold ProcessMessageWebSocket
  dsimp only
  repeat (first | rfl | split)

theorem ProcessMessageChannelKnown_fst (channelUnknown : String) (s : bitmexSimulator)
    (channel : String) (line : Line) :
    (ProcessMessageChannelKnown channelUnknown s channel line).1 =
      (ProcessMessageWebSocket channelUnknown s line).1 := by
  unfold ProcessMessageChannelKnown
  dsimp only
  repeat (first | rfl | split)

theorem ProcessState_filterChannel (stateChannelSubscribed : String) (s : bitmexSimulator)
    (channel : String) (line : Line) :
    (ProcessState stateChannelSubscribed s channel line).1.filterChannel = s.filterChannel := by
  unfold ProcessState
  dsimp only
  repeat (first | rfl | split)

theorem TakeSnapshot_fst (s : bitmexSimulator) : (TakeSnapshot s).1 = s := by
  unfold TakeSnapshot
  dsimp only
  repeat (first | rfl | split)

theorem TakeStateSnapshot_fst (stateChannelSubscribed : String) (s : bitmexSimulator) :
    (TakeStateSnapshot stateChannelSubscribed s).1 = s := by
  unfold TakeStateSnapshot
  dsimp only
  repeat (first | rfl | split)

theorem Reachable.filterChannel_isSome {channelUnknown stateChannelSubscribed : String}
    {filterChannels : Option (List String)} {s : bitmexSimulator}
    (h : Reachable channelUnknown stateChannelSubscribed filterChannels s) :
    s.filterChannel.isSome = filterChannels.isSome := by
  induction h with
  | fresh => cases filterChannels <;> rfl
  | processStart s line _ ih => exact ih
  | processSend s line _ ih => exact ih
  | processMessageWebSocket s line _ ih =>
    rw [ProcessMessageWebSocket_filterChannel]; exact ih
  | processMessageChannelKnown s channel line _ ih =>
    rw [ProcessMessageChannelKnown_fst, ProcessMessageWebSocket_filterChannel]; exact ih
  | processState s channel line _ ih =>
    rw [ProcessState_filterChannel]; exact ih
  | takeSnapshot s _ ih => rw [TakeSnapshot_fst]; exact ih
  | takeStateSnapshot s _ ih => rw [TakeStateSnapshot_fst]; exact ih

/-- C7: on a simulator constructed with a channel filter, whatever has been
processed since, `TakeStateSnapshot` returns the error "channel filter is
enabled" with no snapshot and leaves the simulator as it is; on a simulator
constructed without a filter it does not return that error. -/
theorem TakeStateSnapshot_filter (channelUnknown stateChannelSubscribed : String)
    (filterChannels : Option (List String)) (s : bitmexSimulator)
    (h : Reachable channelUnknown stateChannelSubscribed filterChannels s) :
    (filterChannels.isSome = true →
      TakeStateSnapshot stateChannelSubscribed s = (s, [], some SimError.filterEnabled)) ∧
    (filterChannels = none →
      (TakeStateSnapshot stateChannelSubscribed s).2.2 ≠ some SimError.filterEnabled) := by
  have hf := h.filterChannel_isSome
  constructor
  · intro hsome
    rw [hsome] at hf
    simp [TakeStateSnapshot, hf]
  · intro hnone
    rw [hnone] at hf
    simp only [Option.isSome_none] at hf
    simp [TakeStateSnapshot, hf]

/-- Witness of C7: a fresh simulator filtered on the channel trade, after an
order-book data frame. -/
theorem TakeStateSnapshot_filter_witness :
    Reachable "unknown" "subscribed" (some ["trade"])
      (ProcessMessageWebSocket "unknown" (newBitmexSimulator (some ["trade"]))
        (marshalRoot ⟨"orderBookL2", "insert", none, none, some [exampleBuy "X" 2]⟩)).1 ∧
    (TakeStateSnapshot "subscribed"
      (ProcessMessageWebSocket "unknown" (newBitmexSimulator (some ["trade"]))
        (marshalRoot ⟨"orderBookL2", "insert", none, none, some [exampleBuy "X" 2]⟩)).1).2 =
      ([], some SimError.filterEnabled) :=
  ⟨Reachable.processMessageWebSocket _ _ Reachable.fresh,
    congrArg Prod.snd ((TakeStateSnapshot_filter "unknown" "subscribed" (some ["trade"]) _
      (Reachable.processMessageWebSocket _ _ Reachable.fresh)).1 rfl)⟩

/-! ## Frames through `ProcessMessageWebSocket` -/

theorem ProcessMessageWebSocket_ack (channelUnknown : String) (s : bitmexSimulator)
    (channel : String) :
    (ProcessMessageWebSocket channelUnknown s
        (marshalSubscribe ⟨true, channel⟩)).1.orderBooks = s.orderBooks ∧
      (ProcessMessageWebSocket channelUnknown s (marshalSubscribe ⟨true, channel⟩)).2.2 = none := by
  unfold ProcessMessageWebSocket marshalSubscribe
  dsimp only
  simp only [if_true]
  cases s.filterChannel with
  | none => exact ⟨rfl, rfl⟩
  | some filterChannel =>
    dsimp only
    cases filterChannel.get channel <;> exact ⟨rfl, rfl⟩

theorem ProcessMessageWebSocket_data (channelUnknown : String) (s : bitmexSimulator)
    (action : String) (dataSlice : List BitmexOrderBookL2DataElement) :
    ProcessMessageWebSocket channelUnknown s
        (marshalRoot ⟨"orderBookL2", action, none, none, some dataSlice⟩) =
      ({ s with orderBooks := (processData s.orderBooks action dataSlice).1 }, "orderBookL2",
        (processData s.orderBooks action dataSlice).2) := rfl

theorem ProcessMessageWebSocket_orderBooks (channelUnknown : String) (s : bitmexSimulator)
    (line : Line) :
    ∃ action dataSlice, (ProcessMessageWebSocket channelUnknown s line).1.orderBooks =
      (processData s.orderBooks action dataSlice).1 := by
  unfold ProcessMessageWebSocket
  dsimp only
  repeat (first | exact ⟨"partial", [], rfl⟩ | exact ⟨_, _, rfl⟩ | split)

theorem ProcessState_orderBooks (stateChannelSubscribed : String) (s : bitmexSimulator)
    (channel : String) (line : Line) :
    ∃ action dataSlice, (ProcessState stateChannelSubscribed s channel line).1.orderBooks =
      (processData s.orderBooks action dataSlice).1 := by
  unfold ProcessState
  dsimp only
  repeat (first | exact ⟨"partial", [], rfl⟩ | exact ⟨_, _, rfl⟩ | split)

theorem Reachable.uncrossed {channelUnknown stateChannelSubscribed : String}
    {filterChannels : Option (List String)} {s : bitmexSimulator}
    (h : Reachable channelUnknown stateChannelSubscribed filterChannels s) :
    Uncrossed s.orderBooks := by
  induction h with
  | fresh =>
    intro symbol i j b a hb _
    exact Option.noConfusion hb
  | processStart s line _ ih => exact ih
  | processSend s line _ ih => exact ih
  | processMessageWebSocket s line _ ih =>
    obtain ⟨action, dataSlice, e⟩ := ProcessMessageWebSocket_orderBooks channelUnknown s line
    rw [e]
    exact processData_uncrossed action dataSlice s.orderBooks ih
  | processMessageChannelKnown s channel line _ ih =>
    rw [ProcessMessageChannelKnown_fst]
    obtain ⟨action, dataSlice, e⟩ := ProcessMessageWebSocket_orderBooks channelUnknown s line
    rw [e]
    exact processData_uncrossed action dataSlice s.orderBooks ih
  | processState s channel line _ ih =>
    obtain ⟨action, dataSlice, e⟩ :=
      ProcessState_orderBooks stateChannelSubscribed s channel line
    rw [e]
    exact processData_uncrossed action dataSlice s.orderBooks ih
  | takeSnapshot s _ ih => rw [TakeSnapshot_fst]; exact ih
  | takeStateSnapshot s _ ih => rw [TakeStateSnapshot_fst]; exact ih

theorem feedWebSocket_append (channelUnknown : String) (l₁ l₂ : List Snapshot)
    (s : bitmexSimulator) :
    feedWebSocket channelUnknown s (l₁ ++ l₂) =
      ((feedWebSocket channelUnknown (feedWebSocket channelUnknown s l₁).1 l₂).1,
        (feedWebSocket channelUnknown s l₁).2 ++
          (feedWebSocket channelUnknown (feedWebSocket channelUnknown s l₁).1 l₂).2) := by
  induction l₁ generalizing s with
  | nil => rfl
  | cons snap rest ih =>
    have e := ih (ProcessMessageWebSocket channelUnknown s snap.Snapshot).1
    show (_, _) = (_, _)
    simp only [feedWebSocket]
    rw [show rest.append l₂ = rest ++ l₂ from rfl, e, List.append_assoc]

theorem feedWebSocket_acks (channelUnknown : String) (channels : List String)
    (s : bitmexSimulator) :
    (feedWebSocket channelUnknown s
        (channels.map fun channel =>
          (⟨channel, marshalSubscribe ⟨true, channel⟩⟩ : Snapshot))).1.orderBooks =
        s.orderBooks ∧
      (feedWebSocket channelUnknown s
        (channels.map fun channel =>
          (⟨channel, marshalSubscribe ⟨true, channel⟩⟩ : Snapshot))).2 = [] := by
  induction channels generalizing s with
  | nil => exact ⟨rfl, rfl⟩
  | cons channel rest ih =>
    obtain ⟨h1, h2⟩ := ProcessMessageWebSocket_ack channelUnknown s channel
    obtain ⟨h3, h4⟩ := ih (ProcessMessageWebSocket channelUnknown s
      (marshalSubscribe ⟨true, channel⟩)).1
    simp only [List.map_cons, feedWebSocket]
    refine ⟨h3.trans h1, ?_⟩
    rw [h2, h4]
    rfl

theorem TakeSnapshot_subscribed (s : bitmexSimulator)
    (h : (s.subscribed.get "orderBookL2").isSome = true) :
    (TakeSnapshot s).2.1 =
      ((sortBitmexSubscribe s.subscribed).map fun channel =>
          (⟨channel, marshalSubscribe ⟨true, channel⟩⟩ : Snapshot)) ++
        [⟨"orderBookL2", marshalRoot ⟨"orderBookL2", "partial", none, none,
          some (orderBookL2DataElements s.orderBooks)⟩⟩] := by
  unfold TakeSnapshot
  dsimp only
  cases hg : s.subscribed.get "orderBookL2" with
  | none => rw [hg] at h; exact absurd h (by simp)
  | some v => rfl

/-- Feeding the snapshot of a simulator subscribed to orderBookL2 through
`ProcessMessageWebSocket` replays its element list as a partial. -/
theorem feedWebSocket_TakeSnapshot (channelUnknown : String) (s t : bitmexSimulator)
    (h : (s.subscribed.get "orderBookL2").isSome = true) :
    (feedWebSocket channelUnknown t (TakeSnapshot s).2.1).1.orderBooks =
        (processData t.orderBooks "partial" (orderBookL2DataElements s.orderBooks)).1 ∧
      (feedWebSocket channelUnknown t (TakeSnapshot s).2.1).2 =
        (processData t.orderBooks "partial" (orderBookL2DataElements s.orderBooks)).2.toList := by
  rw [TakeSnapshot_subscribed s h, feedWebSocket_append]
  obtain ⟨h1, h2⟩ := feedWebSocket_acks channelUnknown (sortBitmexSubscribe s.subscribed) t
  simp only [feedWebSocket, ProcessMessageWebSocket_data, h1, h2, List.append_nil,
    List.nil_append]
  exact ⟨trivial, trivial⟩

/-! ## Wire-replay round trip -/

/-- Counterexample to C3, in two reachable states.  First, a simulator that
has processed an order-book data frame and no subscription acknowledgment
holds a bid, its snapshot is empty, and the fresh instance fed with it holds
nothing.  Second, a simulator subscribed to orderBookL2 holds an order of side
"sell" at 100 and a bid at 105 (the bid purges only the side "Sell"); its
snapshot lists the bid first, and on replay the order of side "sell", taken for
an ask, purges the bid. -/
theorem TakeSnapshot_roundtrip_counterexample :
    ((∀ cu cs, Reachable cu cs none unsubscribedBook) ∧
      getEntry unsubscribedBook.orderBooks "X" "Buy" 2 = some ⟨105, 3⟩ ∧
      (∀ cu fc, getEntry (feedWebSocket cu (newBitmexSimulator fc)
        (TakeSnapshot unsubscribedBook).2.1).1.orderBooks "X" "Buy" 2 = none)) ∧
    ((∀ cu cs, Reachable cu cs none lowercaseBook) ∧
      lowercaseBook.subscribed.get "orderBookL2" = some true ∧
      getEntry lowercaseBook.orderBooks "X" "Buy" 2 = some ⟨105, 3⟩ ∧
      (∀ cu fc, getEntry (feedWebSocket cu (newBitmexSimulator fc)
        (TakeSnapshot lowercaseBook).2.1).1.orderBooks "X" "Buy" 2 = none)) := by
  refine ⟨⟨?_, by decide, ?_⟩, ⟨?_, by decide, by decide, ?_⟩⟩
  · intro cu cs
    exact Reachable.processMessageWebSocket (newBitmexSimulator none)
      (marshalRoot ⟨"orderBookL2", "insert", none, none, some [exampleBuy "X" 2]⟩)
      Reachable.fresh
  · intro cu fc
    rfl
  · intro cu cs
    exact Reachable.processMessageWebSocket _
      (marshalRoot ⟨"orderBookL2", "insert", none, none,
        some [lowercaseSell, exampleBuy "X" 2]⟩)
      (Reachable.processMessageWebSocket (newBitmexSimulator none)
        (marshalSubscribe ⟨true, "orderBookL2"⟩) Reachable.fresh)
  · intro cu fc
    rw [(feedWebSocket_TakeSnapshot cu lowercaseBook (newBitmexSimulator fc) (by decide)).1]
    show getEntry (processData GoMap.empty "partial"
      (orderBookL2DataElements lowercaseBook.orderBooks)).1 "X" "Buy" 2 = none
    decide

/-- C3, amended: for every simulator state reachable from a fresh instance in
which orderBookL2 is subscribed and every order-book entry has side Buy or
Sell, feeding the frames of `TakeSnapshot`, in order, through
`ProcessMessageWebSocket` on a fresh instance (with any filter) returns no
error and yields a store with exactly the same entries. -/
theorem TakeSnapshot_roundtrip (channelUnknown stateChannelSubscribed : String)
    (filterChannels freshFilter : Option (List String)) (s : bitmexSimulator)
    (h : Reachable channelUnknown stateChannelSubscribed filterChannels s)
    (hsub : (s.subscribed.get "orderBookL2").isSome = true)
    (hside : ∀ symbol side id el, getEntry s.orderBooks symbol side id = some el →
      side = BitmexSideBuy ∨ side = BitmexSideSell) :
    (feedWebSocket channelUnknown (newBitmexSimulator freshFilter) (TakeSnapshot s).2.1).2 = [] ∧
    ∀ symbol side id,
      getEntry (feedWebSocket channelUnknown (newBitmexSimulator freshFilter)
        (TakeSnapshot s).2.1).1.orderBooks symbol side id =
        getEntry s.orderBooks symbol side id := by
  obtain ⟨h1, h2⟩ :=
    feedWebSocket_TakeSnapshot channelUnknown s (newBitmexSimulator freshFilter) hsub
  obtain ⟨h3, h4⟩ := processData_replay_elements s.orderBooks h.uncrossed hside
  have he : (newBitmexSimulator freshFilter).orderBooks = GoMap.empty := rfl
  rw [h1, h2, he, h3]
  exact ⟨rfl, h4⟩

/-- Witness of C3 as amended: a simulator that has subscribed to orderBookL2
and received the resting ask of the example. -/
theorem TakeSnapshot_roundtrip_witness :
    Reachable "unknown" "subscribed" none subscribedBook ∧
    (subscribedBook.subscribed.get "orderBookL2").isSome = true ∧
    (∀ symbol side id el, getEntry subscribedBook.orderBooks symbol side id = some el →
      side = BitmexSideBuy ∨ side = BitmexSideSell) ∧
    (feedWebSocket "unknown" (newBitmexSimulator none) (TakeSnapshot subscribedBook).2.1).2 = [] ∧
    getEntry (feedWebSocket "unknown" (newBitmexSimulator none)
      (TakeSnapshot subscribedBook).2.1).1.orderBooks "X" "Sell" 1 = some ⟨100, 5⟩ :=
  have hr : Reachable "unknown" "subscribed" none subscribedBook :=
    Reachable.processMessageWebSocket _ _
      (Reachable.processMessageWebSocket (newBitmexSimulator none)
        (marshalSubscribe ⟨true, "orderBookL2"⟩) Reachable.fresh)
  have hside : ∀ symbol side id el,
      getEntry subscribedBook.orderBooks symbol side id = some el →
        side = BitmexSideBuy ∨ side = BitmexSideSell := by
    intro symbol side id el
    have e : subscribedBook.orderBooks = booksPlain := rfl
    rw [e]
    by_cases hX : "X" = symbol
    · subst hX
      by_cases hS : "Sell" = side
      · intro _
        exact Or.inr hS.symm
      · simp [getEntry, GoMap.get, booksPlain, getL, hS]
    · simp [getEntry, GoMap.get, booksPlain, getL, hX]
  ⟨hr, by decide, hside,
    (TakeSnapshot_roundtrip "unknown" "subscribed" none none subscribedBook hr
      (by decide) hside).1,
    ((TakeSnapshot_roundtrip "unknown" "subscribed" none none subscribedBook hr
      (by decide) hside).2 "X" "Sell" 1).trans (by decide)⟩

/-- C9, the code at the failing input: a simulator filtered on the channel
trade alone, whose filter does not contain orderBookL2, receives an
orderBookL2 data frame inserting one Buy; `ProcessMessageWebSocket` returns no
error and the store, empty before, holds the order afterwards. -/
theorem ProcessMessageWebSocket_data_ignores_filter (channelUnknown : String) :
    (newBitmexSimulator (some ["trade"])).filterChannel.isSome = true ∧
    filterHas (newBitmexSimulator (some ["trade"])).filterChannel "orderBookL2" = false ∧
    getEntry (newBitmexSimulator (some ["trade"])).orderBooks "X" "Buy" 2 = none ∧
    (ProcessMessageWebSocket channelUnknown (newBitmexSimulator (some ["trade"]))
      (marshalRoot ⟨"orderBookL2", "insert", none, none, some [exampleBuy "X" 2]⟩)).2 =
        ("orderBookL2", none) ∧
    getEntry (ProcessMessageWebSocket channelUnknown (newBitmexSimulator (some ["trade"]))
      (marshalRoot ⟨"orderBookL2", "insert", none, none, some [exampleBuy "X" 2]⟩)).1.orderBooks
        "X" "Buy" 2 = some ⟨105, 3⟩ := by
  refine ⟨rfl, by decide, rfl, rfl, rfl⟩

/-! ## Emission determinism -/

/-- Counterexample to C6: a fresh simulator without a filter and a fresh
simulator with an empty filter have the same (empty) subscription set and the
same (empty) set of entries, and `TakeStateSnapshot` gives two snapshots on the
first and none, with an error, on the second, whatever the name of the
subscribed-state channel. -/
theorem TakeStateSnapshot_depends_on_filter :
    (newBitmexSimulator none).subscribed = (newBitmexSimulator (some [])).subscribed ∧
    (newBitmexSimulator none).orderBooks = (newBitmexSimulator (some [])).orderBooks ∧
    ¬ ∃ stateChannelSubscribed : String,
      (TakeStateSnapshot stateChannelSubscribed (newBitmexSimulator none)).2 =
        (TakeStateSnapshot stateChannelSubscribed (newBitmexSimulator (some []))).2 := by
  refine ⟨rfl, rfl, ?_⟩
  rintro ⟨c, h⟩
  have h2 := congrArg Prod.snd h
  exact absurd h2 (by simp [TakeStateSnapshot, newBitmexSimulator])

/-- C6, amended: the output of `TakeSnapshot` depends only on the subscription
set and the set of entries, and so does the output of `TakeStateSnapshot` among
simulators that all have or all lack a channel filter: two simulators with the
same subscribed channels and the same entries produce identical snapshots and
errors, whatever the order of their maps and whatever empty symbol or side
maps they hold. -/
theorem snapshots_depend_on_logical_state (stateChannelSubscribed : String)
    (s₁ s₂ : bitmexSimulator)
    (hsub : ∀ channel, (s₁.subscribed.get channel).isSome = (s₂.subscribed.get channel).isSome)
    (hob : ∀ symbol side id,
      getEntry s₁.orderBooks symbol side id = getEntry s₂.orderBooks symbol side id) :
    (TakeSnapshot s₁).2 = (TakeSnapshot s₂).2 ∧
    (s₁.filterChannel.isSome = s₂.filterChannel.isSome →
      (TakeStateSnapshot stateChannelSubscribed s₁).2 =
        (TakeStateSnapshot stateChannelSubscribed s₂).2) := by
  have e₁ := sortBitmexSubscribe_congr _ _ hsub
  have e₂ := orderBookL2DataElements_congr _ _ hob
  constructor
  · unfold TakeSnapshot
    dsimp only
    rw [e₁, e₂]
    have h := hsub "orderBookL2"
    cases h₁ : s₁.subscribed.get "orderBookL2" <;>
      cases h₂ : s₂.subscribed.get "orderBookL2" <;>
      simp_all
  · intro hf
    unfold TakeStateSnapshot
    dsimp only
    rw [e₁, e₂, hf]
    split <;> rfl

/-- Witness of C6 as amended: the same two channels recorded in opposite
orders, and the same resting ask in a store with and without emptied maps. -/
theorem snapshots_depend_on_logical_state_witness :
    (∀ channel, (subscribedAB.get channel).isSome = (subscribedBA.get channel).isSome) ∧
    (∀ symbol side id,
      getEntry booksPlain symbol side id = getEntry booksWithLeftovers symbol side id) ∧
    (TakeSnapshot ⟨none, subscribedAB, booksPlain⟩).2 =
      (TakeSnapshot ⟨none, subscribedBA, booksWithLeftovers⟩).2 ∧
    (TakeStateSnapshot "subscribed" ⟨none, subscribedAB, booksPlain⟩).2 =
      (TakeStateSnapshot "subscribed" ⟨none, subscribedBA, booksWithLeftovers⟩).2 :=
  have hsub : ∀ channel,
      (subscribedAB.get channel).isSome = (subscribedBA.get channel).isSome := by
    intro channel
    simp only [GoMap.get, subscribedAB, subscribedBA, getL]
    split_ifs <;> simp_all
  have hob : ∀ symbol side id,
      getEntry booksPlain symbol side id = getEntry booksWithLeftovers symbol side id := by
    intro symbol side id
    by_cases hY : "Y" = symbol
    · subst hY
      by_cases hB : "Buy" = side <;>
        simp [getEntry, GoMap.get, booksPlain, booksWithLeftovers, getL, hB]
    · by_cases hX : "X" = symbol
      · subst hX
        by_cases hB : "Buy" = side
        · subst hB
          simp [getEntry, GoMap.get, booksPlain, booksWithLeftovers, getL]
        · by_cases hS : "Sell" = side <;>
            simp [getEntry, GoMap.get, booksPlain, booksWithLeftovers, getL, hB, hS]
      · simp [getEntry, GoMap.get, booksPlain, booksWithLeftovers, getL, hX, hY]
  ⟨hsub, hob,
    (snapshots_depend_on_logical_state "subscribed" ⟨none, subscribedAB, booksPlain⟩
      ⟨none, subscribedBA, booksWithLeftovers⟩ hsub hob).1,
    (snapshots_depend_on_logical_state "subscribed" ⟨none, subscribedAB, booksPlain⟩
      ⟨none, subscribedBA, booksWithLeftovers⟩ hsub hob).2 rfl⟩

/-! ## Checkpoint and restore -/

/-- C4, the code at the failing input: a simulator without a filter has
subscribed to orderBookL2; its checkpoint lists that channel; fed through
`ProcessState` on a fresh simulator without a filter, in order and without
any error, the checkpoint leaves the subscription set empty, because the
restore loop records a channel only when it finds it in the (nil) filter. -/
theorem ProcessState_restores_no_subscription (channelUnknown stateChannelSubscribed : String) :
    (subscribedOnce channelUnknown).filterChannel = none ∧
    (subscribedOnce channelUnknown).subscribed.get "orderBookL2" = some true ∧
    (TakeStateSnapshot stateChannelSubscribed (subscribedOnce channelUnknown)).2 =
      ([⟨stateChannelSubscribed, marshalStrings ["orderBookL2"]⟩,
        ⟨"orderBookL2", marshalElements []⟩], none) ∧
    (feedState stateChannelSubscribed (newBitmexSimulator none)
      (TakeStateSnapshot stateChannelSubscribed (subscribedOnce channelUnknown)).2.1).2 = [] ∧
    (feedState stateChannelSubscribed (newBitmexSimulator none)
      (TakeStateSnapshot stateChannelSubscribed
        (subscribedOnce channelUnknown)).2.1).1.subscribed.get "orderBookL2" = none := by
  have hsnap : (TakeStateSnapshot stateChannelSubscribed (subscribedOnce channelUnknown)).2 =
      ([⟨stateChannelSubscribed, marshalStrings ["orderBookL2"]⟩,
        ⟨"orderBookL2", marshalElements []⟩], none) := rfl
  refine ⟨rfl, rfl, hsnap, ?_, ?_⟩
  · rw [hsnap]
    by_cases hc : "orderBookL2" = stateChannelSubscribed
    · simp [feedState, ProcessState, hc, marshalStrings, marshalElements, filterHas,
        newBitmexSimulator]
    · simp [feedState, ProcessState, hc, marshalStrings, marshalElements, filterHas,
        newBitmexSimulator, processData]
  · rw [hsnap]
    by_cases hc : "orderBookL2" = stateChannelSubscribed
    · simp [feedState, ProcessState, hc, marshalStrings, marshalElements, filterHas,
        newBitmexSimulator]
      rfl
    · simp [feedState, ProcessState, hc, marshalStrings, marshalElements, filterHas,
        newBitmexSimulator, processData]
      rfl

/-! ## Update and delete -/

theorem processData_single_ok (orderBooks ob' : OrderBooks) (action : String)
    (e : BitmexOrderBookL2DataElement) (h : processDataElement orderBooks action e = .ok ob') :
    processData orderBooks action [e] = (ob', none) := by
  simp only [processData, h]

theorem setL_of_getL {K V : Type} [DecidableEq K] (k : K) (v : V) (l : List (K × V))
    (h : getL k l = some v) : setL k v l = l := by
  induction l with
  | nil => simp [getL] at h
  | cons p t ih =>
    obtain ⟨a, b⟩ := p
    by_cases hp : a = k
    · subst hp
      simp only [getL, if_true, Option.some.injEq] at h
      simp [setL, h]
    · simp only [getL, hp, if_false] at h
      simp [setL, hp, ih h]

theorem deleteL_of_getL_none {K V : Type} [DecidableEq K] (k : K) (l : List (K × V))
    (h : getL k l = none) : deleteL k l = l := by
  induction l with
  | nil => rfl
  | cons p t ih =>
    by_cases hp : p.1 = k
    · simp [getL, hp] at h
    · simp only [getL, hp, if_false] at h
      simp [deleteL, hp, ih h]

theorem GoMap.eq_of_entries {K V : Type} (m₁ m₂ : GoMap K V) (h : m₁.entries = m₂.entries) :
    m₁ = m₂ := by
  cases m₁
  cases m₂
  cases h
  rfl

theorem GoMap.set_of_get {K V : Type} [DecidableEq K] (m : GoMap K V) (k : K) (v : V)
    (h : m.get k = some v) : m.set k v = m :=
  GoMap.eq_of_entries _ _ (setL_of_getL k v m.entries h)

theorem GoMap.delete_of_get_none {K V : Type} [DecidableEq K] (m : GoMap K V) (k : K)
    (h : m.get k = none) : m.delete k = m :=
  GoMap.eq_of_entries _ _ (deleteL_of_getL_none k m.entries h)

/-- C11: update is size-only.  When the store holds the entry `(p, s)` at the
key of the element, `processData` with action update returns no error, leaves
at that key the entry `(p, e.Size)`, whatever price the element carries, and
leaves the entry at every other key as it was. -/
theorem processData_update_size_only (orderBooks : OrderBooks)
    (e : BitmexOrderBookL2DataElement) (p : ℚ) (s : ℕ)
    (h : getEntry orderBooks e.Symbol e.Side e.ID = some ⟨p, s⟩) :
    (processData orderBooks "update" [e]).2 = none ∧
    getEntry (processData orderBooks "update" [e]).1 e.Symbol e.Side e.ID = some ⟨p, e.Size⟩ ∧
    (∀ symbol side id, ¬ (symbol = e.Symbol ∧ side = e.Side ∧ id = e.ID) →
      getEntry (processData orderBooks "update" [e]).1 symbol side id =
        getEntry orderBooks symbol side id) := by
  obtain ⟨ob', h1, h2⟩ := processDataElement_update orderBooks e
  rw [processData_single_ok orderBooks ob' "update" e h1]
  refine ⟨rfl, ?_, ?_⟩
  · show getEntry ob' e.Symbol e.Side e.ID = _
    rw [h2, h]
    simp
  · intro symbol side id hne
    show getEntry ob' symbol side id = _
    rw [h2, if_neg hne]

/-- Witness of C11: the resting ask (100, 5) of the example is updated by an
element of its key that carries the price 999 and the size 7. -/
theorem processData_update_size_only_witness :
    getEntry booksPlain "X" "Sell" 1 = some ⟨100, 5⟩ ∧
    (processData booksPlain "update" [⟨1, 999, "Sell", 7, "X"⟩]).2 = none ∧
    getEntry (processData booksPlain "update" [⟨1, 999, "Sell", 7, "X"⟩]).1 "X" "Sell" 1 =
      some ⟨100, 7⟩ :=
  ⟨by decide,
    (processData_update_size_only booksPlain ⟨1, 999, "Sell", 7, "X"⟩ 100 5 (by decide)).1,
    (processData_update_size_only booksPlain ⟨1, 999, "Sell", 7, "X"⟩ 100 5 (by decide)).2.1⟩

/-- C12: update on an absent key.  When the store holds no entry at the key of
the element (the symbol or the side may never have been seen), `processData`
with action update returns no error and leaves the store exactly as it was: no
entry is created and the number of entries is the same. -/
theorem processData_update_absent (orderBooks : OrderBooks)
    (e : BitmexOrderBookL2DataElement)
    (h : getEntry orderBooks e.Symbol e.Side e.ID = none) :
    processData orderBooks "update" [e] = (orderBooks, none) ∧
    getEntry (processData orderBooks "update" [e]).1 e.Symbol e.Side e.ID = none ∧
    (orderBookL2DataElements (processData orderBooks "update" [e]).1).length =
      (orderBookL2DataElements orderBooks).length := by
  have key : processData orderBooks "update" [e] = (orderBooks, none) := by
    apply processData_single_ok
    have hu : ¬ ("update" = "partial" ∨ "update" = "insert") := by decide
    unfold processDataElement
    simp only [hu, if_false, if_true]
    unfold getEntry at h
    cases hs : orderBooks.get e.Symbol with
    | none => rfl
    | some sides =>
      rw [hs] at h
      simp only [Option.some_bind] at h
      dsimp only
      cases hi : sides.get e.Side with
      | none => rfl
      | some ids =>
        rw [hi] at h
        simp only [Option.some_bind] at h
        dsimp only
        rw [h]
  rw [key]
  exact ⟨rfl, h, rfl⟩

/-- Witness of C12: an update for a symbol that has never been seen, on the
store of the example. -/
theorem processData_update_absent_witness :
    getEntry booksPlain "Y" "Buy" 3 = none ∧
    processData booksPlain "update" [⟨3, 50, "Buy", 7, "Y"⟩] = (booksPlain, none) :=
  ⟨by decide, (processData_update_absent booksPlain ⟨3, 50, "Buy", 7, "Y"⟩ (by decide)).1⟩

/-- C13: delete on an absent key.  When the store holds no entry at the key of
the element (the symbol or the side may never have been seen), `processData`
with action delete returns no error and leaves the store exactly as it was. -/
theorem processData_delete_absent (orderBooks : OrderBooks)
    (e : BitmexOrderBookL2DataElement)
    (h : getEntry orderBooks e.Symbol e.Side e.ID = none) :
    processData orderBooks "delete" [e] = (orderBooks, none) := by
  apply processData_single_ok
  have hu : ¬ ("delete" = "partial" ∨ "delete" = "insert") := by decide
  have hd : ¬ ("delete" = "update") := by decide
  unfold processDataElement
  simp only [hu, hd, if_false, if_true]
  unfold getEntry at h
  cases hs : orderBooks.get e.Symbol with
  | none => rfl
  | some sides =>
    rw [hs] at h
    simp only [Option.some_bind] at h
    dsimp only
    cases hi : sides.get e.Side with
    | none => rfl
    | some ids =>
      rw [hi] at h
      simp only [Option.some_bind] at h
      dsimp only
      rw [GoMap.delete_of_get_none ids e.ID h, GoMap.set_of_get sides e.Side ids hi,
        GoMap.set_of_get orderBooks e.Symbol sides hs]

/-- Witness of C13: a delete for an identifier that is not on the side Sell of
the symbol X, on the store of the example. -/
theorem processData_delete_absent_witness :
    getEntry booksPlain "X" "Sell" 4 = none ∧
    processData booksPlain "delete" [⟨4, 100, "Sell", 5, "X"⟩] = (booksPlain, none) :=
  ⟨by decide, processData_delete_absent booksPlain ⟨4, 100, "Sell", 5, "X"⟩ (by decide)⟩

/-- C14: delete removes exactly one key.  After `processData` with action
delete on a single element, whatever price and size it carries, no error is
returned, the key of the element is absent, and the entry at every other key is
as it was. -/
theorem processData_delete_one_key (orderBooks : OrderBooks)
    (e : BitmexOrderBookL2DataElement) :
    (processData orderBooks "delete" [e]).2 = none ∧
    getEntry (processData orderBooks "delete" [e]).1 e.Symbol e.Side e.ID = none ∧
    (∀ symbol side id, ¬ (symbol = e.Symbol ∧ side = e.Side ∧ id = e.ID) →
      getEntry (processData orderBooks "delete" [e]).1 symbol side id =
        getEntry orderBooks symbol side id) := by
  obtain ⟨ob', h1, h2⟩ := processDataElement_delete orderBooks e
  rw [processData_single_ok orderBooks ob' "delete" e h1]
  refine ⟨rfl, ?_, ?_⟩
  · show getEntry ob' e.Symbol e.Side e.ID = _
    rw [h2]
    simp
  · intro symbol side id hne
    show getEntry ob' symbol side id = _
    rw [h2, if_neg hne]

/-! ## Re-applying a partial, and the reach of the purge -/

theorem removeCrossed_of_none_crossed (m : IDMap) (crossed : bitmexOrderBookL2Element → Bool)
    (h : ∀ id el, m.get id = some el → crossed el = false) : removeCrossed m crossed = m := by
  unfold removeCrossed
  have hf : m.entries.filter (fun p => crossed p.2) = [] := by
    rw [List.filter_eq_nil_iff]
    intro p hp
    obtain ⟨k, el⟩ := p
    have := h k el ((GoMap.get_eq_some_iff m k el).mpr hp)
    simp [this]
  simp only [hf, List.map_nil, List.foldl_nil]

/-- C15: re-applying a partial is a no-op when nothing is crossed.  When the
store already holds `(e.Price, e.Size)` at the key of `e` and no entry on the
side that `processData` scans for `e` (the side Sell for a Buy, the side Buy
otherwise) is crossed relative to `e.Price`, `processData` with action partial
on the single element `e` returns no error and leaves the store identical. -/
theorem processData_partial_again (orderBooks : OrderBooks)
    (e : BitmexOrderBookL2DataElement)
    (hheld : getEntry orderBooks e.Symbol e.Side e.ID = some ⟨e.Price, e.Size⟩)
    (hbuy : e.Side = BitmexSideBuy → ∀ id el,
      getEntry orderBooks e.Symbol BitmexSideSell id = some el → ¬ el.price < e.Price)
    (hsell : e.Side ≠ BitmexSideBuy → ∀ id el,
      getEntry orderBooks e.Symbol BitmexSideBuy id = some el → ¬ el.price > e.Price) :
    processData orderBooks "partial" [e] = (orderBooks, none) := by
  apply processData_single_ok
  have hp : "partial" = "partial" ∨ "partial" = "insert" := Or.inl rfl
  unfold processDataElement
  rw [if_pos hp]
  dsimp only
  unfold getEntry at hheld
  cases hs : orderBooks.get e.Symbol with
  | none => rw [hs] at hheld; exact Option.noConfusion hheld
  | some sides =>
    rw [hs] at hheld
    simp only [Option.some_bind] at hheld
    cases hi : sides.get e.Side with
    | none => rw [hi] at hheld; exact Option.noConfusion hheld
    | some ids =>
      rw [hi] at hheld
      simp only [Option.some_bind] at hheld
      simp only [Option.getD_some, hi]
      rw [GoMap.set_of_get ids e.ID _ hheld, GoMap.set_of_get sides e.Side ids hi]
      by_cases hB : e.Side = BitmexSideBuy
      · simp only [hB, if_true]
        cases ho : sides.get BitmexSideSell with
        | none => simp only [GoMap.set_of_get orderBooks e.Symbol sides hs]
        | some sellIDs =>
          have hnone : removeCrossed sellIDs (fun anoElem => decide (anoElem.price < e.Price)) =
              sellIDs := by
            apply removeCrossed_of_none_crossed
            intro id el hel
            have hg : getEntry orderBooks e.Symbol BitmexSideSell id = some el := by
              rw [getEntry_of_get _ _ _ hs, sideEntry_of_get _ _ _ _ ho, hel]
            simpa using hbuy hB id el hg
          simp only [hnone, GoMap.set_of_get sides BitmexSideSell sellIDs ho,
            GoMap.set_of_get orderBooks e.Symbol sides hs]
      · simp only [hB, if_false]
        cases ho : sides.get BitmexSideBuy with
        | none => simp only [GoMap.set_of_get orderBooks e.Symbol sides hs]
        | some buyIDs =>
          have hnone : removeCrossed buyIDs (fun anoElem => decide (anoElem.price > e.Price)) =
              buyIDs := by
            apply removeCrossed_of_none_crossed
            intro id el hel
            have hg : getEntry orderBooks e.Symbol BitmexSideBuy id = some el := by
              rw [getEntry_of_get _ _ _ hs, sideEntry_of_get _ _ _ _ ho, hel]
            simpa using hsell hB id el hg
          simp only [hnone, GoMap.set_of_get sides BitmexSideBuy buyIDs ho,
            GoMap.set_of_get orderBooks e.Symbol sides hs]

/-- Witness of C15: the ask (100, 5) of an uncrossed store, whose only bid is at
95, is applied again as a partial. -/
theorem processData_partial_again_witness :
    getEntry booksTwoSided "X" "Sell" 1 = some ⟨100, 5⟩ ∧
    getEntry booksTwoSided "X" "Buy" 2 = some ⟨95, 3⟩ ∧
    processData booksTwoSided "partial" [exampleSell "X" 1] = (booksTwoSided, none) :=
  ⟨by decide, by decide,
    processData_partial_again booksTwoSided (exampleSell "X" 1) (by decide)
      (fun h => absurd h (by decide))
      (by
        intro _ id el h
        by_cases hid : (2 : ℤ) = id
        · subst hid
          have h2 : el = ⟨95, 3⟩ := by
            have h3 : getEntry booksTwoSided "X" "Buy" 2 = some ⟨95, 3⟩ := by decide
            exact (Option.some.inj (h.symm.trans h3))
          rw [h2]
          show ¬ ((95 : ℚ) > 100)
          norm_num
        · have h3 : getEntry booksTwoSided (exampleSell "X" 1).Symbol BitmexSideBuy id = none := by
            simp [getEntry, GoMap.get, booksTwoSided, getL, exampleSell, BitmexSideBuy, hid]
          rw [h3] at h
          exact Option.noConfusion h)⟩

/-- C16: the purge is confined to the opposite side of the same symbol.
`processData` with action partial or insert on a single element `e` leaves as
it was every entry whose symbol differs from `e.Symbol`, and every entry on the
side of `e`, of any symbol, whose identifier differs from `e.ID`. -/
theorem processData_upsert_frame (orderBooks : OrderBooks)
    (e : BitmexOrderBookL2DataElement) (action : String)
    (hact : action = "partial" ∨ action = "insert") :
    (∀ symbol side id, symbol ≠ e.Symbol →
      getEntry (processData orderBooks action [e]).1 symbol side id =
        getEntry orderBooks symbol side id) ∧
    (∀ symbol id, id ≠ e.ID →
      getEntry (processData orderBooks action [e]).1 symbol e.Side id =
        getEntry orderBooks symbol e.Side id) := by
  have key := (processData_upsert_single orderBooks action e hact).2
  constructor
  · intro symbol side id hne
    rw [key]
    simp [entryAfterUpsert, hne]
  · intro symbol id hne
    rw [key]
    simp [entryAfterUpsert, hne]

/-- Witness of C16: a bid at 105 arrives in the store with a bid at 95 and an
ask at 100; the ask is purged and the resting bid, on the side of the new
element, stays. -/
theorem processData_upsert_frame_witness :
    ("insert" = "partial" ∨ "insert" = "insert") ∧
    getEntry (processData booksTwoSided "insert" [exampleBuy "X" 7]).1 "X" "Sell" 1 = none ∧
    getEntry (processData booksTwoSided "insert" [exampleBuy "X" 7]).1 "X" "Buy" 2 =
      getEntry booksTwoSided "X" "Buy" 2 ∧
    getEntry booksTwoSided "X" "Buy" 2 = some ⟨95, 3⟩ :=
  ⟨Or.inr rfl, by decide,
    (processData_upsert_frame booksTwoSided (exampleBuy "X" 7) "insert" (Or.inr rfl)).2
      "X" 2 (by decide),
    by decide⟩

/-! ## Shape of the snapshots -/

theorem sortBitmexSubscribe_length (m : GoMap String Bool) :
    (sortBitmexSubscribe m).length = m.entries.length := by
  have h := (sortStrings_perm (m.entries.map Prod.fst)).length_eq
  rw [List.length_map] at h
  exact h

/-- C17: shape of `TakeSnapshot`.  On every simulator it returns no error and
the sequence made of one subscription acknowledgment per subscribed channel,
each tagged with its channel, in strictly ascending order of the channel names
(every subscribed channel and no other), followed by one frame tagged
orderBookL2 with the table orderBookL2, the action partial and the full element
list of the store when orderBookL2 is subscribed, and by nothing otherwise; its
length is the number of subscribed channels plus one or zero. -/
theorem TakeSnapshot_shape (s : bitmexSimulator) :
    (TakeSnapshot s).2.2 = none ∧
    (TakeSnapshot s).2.1 =
      ((sortBitmexSubscribe s.subscribed).map fun channel =>
        (⟨channel, marshalSubscribe ⟨true, channel⟩⟩ : Snapshot)) ++
      (if (s.subscribed.get "orderBookL2").isSome = true then
        [⟨"orderBookL2", marshalRoot ⟨"orderBookL2", "partial", none, none,
          some (orderBookL2DataElements s.orderBooks)⟩⟩]
      else []) ∧
    (sortBitmexSubscribe s.subscribed).Pairwise (fun a b => a < b) ∧
    (∀ channel, channel ∈ sortBitmexSubscribe s.subscribed ↔
      (s.subscribed.get channel).isSome = true) ∧
    (TakeSnapshot s).2.1.length =
      s.subscribed.entries.length +
        (if (s.subscribed.get "orderBookL2").isSome = true then 1 else 0) := by
  have hshape : (TakeSnapshot s).2.2 = none ∧ (TakeSnapshot s).2.1 =
      ((sortBitmexSubscribe s.subscribed).map fun channel =>
        (⟨channel, marshalSubscribe ⟨true, channel⟩⟩ : Snapshot)) ++
      (if (s.subscribed.get "orderBookL2").isSome = true then
        [⟨"orderBookL2", marshalRoot ⟨"orderBookL2", "partial", none, none,
          some (orderBookL2DataElements s.orderBooks)⟩⟩]
      else []) := by
    unfold TakeSnapshot
    dsimp only
    cases hg : s.subscribed.get "orderBookL2" with
    | none => exact ⟨rfl, by simp [BitmexSubscribe.Initialize]⟩
    | some v => exact ⟨rfl, by simp [BitmexSubscribe.Initialize]⟩
  refine ⟨hshape.1, hshape.2, sortStrings_pairwise_lt _ s.subscribed.nodup,
    fun channel => mem_sortBitmexSubscribe s.subscribed channel, ?_⟩
  rw [hshape.2, List.length_append, List.length_map, sortBitmexSubscribe_length]
  split <;> rfl

/-- C18: shape of `TakeStateSnapshot`.  On every simulator without a channel
filter it returns no error and exactly two snapshots: first, on the
subscribed-state channel, the list of the subscribed channels in strictly
ascending order (every subscribed channel, none twice, and no other); second,
on the channel orderBookL2, the full element list of the store, whether or not
the store is empty or orderBookL2 is subscribed. -/
theorem TakeStateSnapshot_shape (stateChannelSubscribed : String) (s : bitmexSimulator)
    (h : s.filterChannel = none) :
    TakeStateSnapshot stateChannelSubscribed s =
      (s, [⟨stateChannelSubscribed, marshalStrings (sortBitmexSubscribe s.subscribed)⟩,
        ⟨"orderBookL2", marshalElements (orderBookL2DataElements s.orderBooks)⟩], none) ∧
    (sortBitmexSubscribe s.subscribed).Pairwise (fun a b => a < b) ∧
    (sortBitmexSubscribe s.subscribed).Nodup ∧
    (∀ channel, channel ∈ sortBitmexSubscribe s.subscribed ↔
      (s.subscribed.get channel).isSome = true) := by
  refine ⟨?_, sortStrings_pairwise_lt _ s.subscribed.nodup,
    (sortStrings_perm _).nodup_iff.mpr s.subscribed.nodup,
    fun channel => mem_sortBitmexSubscribe s.subscribed channel⟩
  unfold TakeStateSnapshot
  simp [h]

/-- Witness of C18: a fresh simulator without a filter, with an empty store and
no subscription, gives both snapshots. -/
theorem TakeStateSnapshot_shape_witness :
    (newBitmexSimulator none).filterChannel = none ∧
    (TakeStateSnapshot "subscribed" (newBitmexSimulator none)).2 =
      ([⟨"subscribed", marshalStrings []⟩, ⟨"orderBookL2", marshalElements []⟩], none) :=
  ⟨rfl, congrArg Prod.snd
    (TakeStateSnapshot_shape "subscribed" (newBitmexSimulator none) rfl).1⟩

/-! ## Acknowledgments and the declared channel -/

/-- C19: subscription acknowledgment.  For every line that decodes as a
successful subscribe acknowledgment of the channel `c`,
`ProcessMessageWebSocket` returns `c` and no error and leaves the store and the
filter as they were; when the simulator has no filter or `c` is in the filter,
`c` is added to the subscription set (which otherwise keeps its channels); when
a filter is present and `c` is not in it, the simulator is unchanged. -/
theorem ProcessMessageWebSocket_subscribe (channelUnknown : String) (s : bitmexSimulator)
    (line : Line) (c : String) (h : line.asSubscribe = some ⟨true, c⟩) :
    (ProcessMessageWebSocket channelUnknown s line).2 = (c, none) ∧
    (ProcessMessageWebSocket channelUnknown s line).1.orderBooks = s.orderBooks ∧
    (ProcessMessageWebSocket channelUnknown s line).1.filterChannel = s.filterChannel ∧
    (s.filterChannel = none ∨ filterHas s.filterChannel c = true →
      (ProcessMessageWebSocket channelUnknown s line).1.subscribed = s.subscribed.set c true ∧
      ∀ channel,
        ((ProcessMessageWebSocket channelUnknown s line).1.subscribed.get channel).isSome =
          (decide (channel = c) || (s.subscribed.get channel).isSome)) ∧
    (s.filterChannel.isSome = true ∧ filterHas s.filterChannel c = false →
      (ProcessMessageWebSocket channelUnknown s line).1 = s) := by
  have hset : ∀ channel, ((s.subscribed.set c true).get channel).isSome =
      (decide (channel = c) || (s.subscribed.get channel).isSome) := by
    intro channel
    rw [GoMap.get_set]
    by_cases hc : channel = c <;> simp [hc]
  unfold ProcessMessageWebSocket
  simp only [h, if_true]
  cases hf : s.filterChannel with
  | none =>
    refine ⟨rfl, rfl, rfl, fun _ => ⟨rfl, hset⟩, ?_⟩
    rintro ⟨h1, _⟩
    exact absurd h1 (by simp)
  | some filterChannel =>
    dsimp only
    cases hg : filterChannel.get c with
    | none =>
      refine ⟨rfl, rfl, hf, ?_, fun _ => rfl⟩
      rintro (h1 | h1)
      · exact Option.noConfusion h1
      · simp [filterHas, hg] at h1
    | some v =>
      refine ⟨rfl, rfl, rfl, fun _ => ⟨rfl, hset⟩, ?_⟩
      rintro ⟨_, h2⟩
      simp [filterHas, hg] at h2

/-- Witness of C19: the acknowledgment of orderBookL2 on a simulator filtered
on the channel trade alone leaves it unchanged, and on a simulator without a
filter subscribes the channel. -/
theorem ProcessMessageWebSocket_subscribe_witness :
    (marshalSubscribe ⟨true, "orderBookL2"⟩).asSubscribe = some ⟨true, "orderBookL2"⟩ ∧
    (ProcessMessageWebSocket "unknown" (newBitmexSimulator (some ["trade"]))
      (marshalSubscribe ⟨true, "orderBookL2"⟩)).2 = ("orderBookL2", none) ∧
    ((ProcessMessageWebSocket "unknown" (newBitmexSimulator (some ["trade"]))
      (marshalSubscribe ⟨true, "orderBookL2"⟩)).1.subscribed.get "orderBookL2").isSome = false ∧
    ((ProcessMessageWebSocket "unknown" (newBitmexSimulator none)
      (marshalSubscribe ⟨true, "orderBookL2"⟩)).1.subscribed.get "orderBookL2").isSome = true :=
  ⟨rfl,
    (ProcessMessageWebSocket_subscribe "unknown" (newBitmexSimulator (some ["trade"]))
      (marshalSubscribe ⟨true, "orderBookL2"⟩) "orderBookL2" rfl).1,
    by decide, by decide⟩

/-- C20: `ProcessMessageChannelKnown` leaves the simulator in exactly the state
`ProcessMessageWebSocket` leaves it in for the same line; it returns no error
if and only if `ProcessMessageWebSocket` returns no error and resolves to the
declared channel; hence whenever the resolved channel differs from the
declared one an error is returned. -/
theorem ProcessMessageChannelKnown_spec (channelUnknown : String) (s : bitmexSimulator)
    (channel : String) (line : Line) :
    (ProcessMessageChannelKnown channelUnknown s channel line).1 =
      (ProcessMessageWebSocket channelUnknown s line).1 ∧
    ((ProcessMessageChannelKnown channelUnknown s channel line).2 = none ↔
      (ProcessMessageWebSocket channelUnknown s line).2.2 = none ∧
        (ProcessMessageWebSocket channelUnknown s line).2.1 = channel) ∧
    ((ProcessMessageWebSocket channelUnknown s line).2.1 ≠ channel →
      (ProcessMessageChannelKnown channelUnknown s channel line).2 ≠ none) := by
  have hiff : (ProcessMessageChannelKnown channelUnknown s channel line).2 = none ↔
      (ProcessMessageWebSocket channelUnknown s line).2.2 = none ∧
        (ProcessMessageWebSocket channelUnknown s line).2.1 = channel := by
    unfold ProcessMessageChannelKnown
    dsimp only
    cases he : (ProcessMessageWebSocket channelUnknown s line).2.2 with
    | some serr => simp
    | none =>
      by_cases hc : (ProcessMessageWebSocket channelUnknown s line).2.1 = channel
      · simp [hc]
      · simp [hc]
  refine ⟨ProcessMessageChannelKnown_fst channelUnknown s channel line, hiff, ?_⟩
  intro hne hnone
  exact hne (hiff.mp hnone).2

/-! ## The filter in `ProcessState`, and frames that carry no data -/

/-- C21: `ProcessState` honors the filter.  On a simulator with a channel
filter, `ProcessState` on a channel that is not the subscribed-state channel
and is not in the filter returns no error and leaves the simulator, hence the
store and the subscription set, as it was, whatever the line contains. -/
theorem ProcessState_outside_filter (stateChannelSubscribed : String) (s : bitmexSimulator)
    (filterChannel : GoMap String Bool) (channel : String) (line : Line)
    (hfilter : s.filterChannel = some filterChannel)
    (hstate : channel ≠ stateChannelSubscribed)
    (hout : filterChannel.get channel = none) :
    ProcessState stateChannelSubscribed s channel line = (s, none) := by
  unfold ProcessState
  rw [if_neg hstate]
  have h : s.filterChannel.isSome = true ∧ filterHas s.filterChannel channel = false := by
    rw [hfilter]
    exact ⟨rfl, by simp [filterHas, hout]⟩
  rw [if_pos h]

/-- Witness of C21: a simulator filtered on the channel trade alone is given, on
the channel orderBookL2, a line that holds an order and a line that does not
decode as a list of orders. -/
theorem ProcessState_outside_filter_witness :
    (newBitmexSimulator (some ["trade"])).filterChannel =
      some ((GoMap.empty : GoMap String Bool).set "trade" true) ∧
    "orderBookL2" ≠ "subscribed" ∧
    ((GoMap.empty : GoMap String Bool).set "trade" true).get "orderBookL2" = none ∧
    (marshalElements [exampleBuy "X" 2]).asElements = some [exampleBuy "X" 2] ∧
    ProcessState "subscribed" (newBitmexSimulator (some ["trade"])) "orderBookL2"
      (marshalElements [exampleBuy "X" 2]) = (newBitmexSimulator (some ["trade"]), none) ∧
    (marshalSubscribe ⟨true, "trade"⟩).asElements = none ∧
    ProcessState "subscribed" (newBitmexSimulator (some ["trade"])) "orderBookL2"
      (marshalSubscribe ⟨true, "trade"⟩) = (newBitmexSimulator (some ["trade"]), none) :=
  ⟨rfl, by decide, by decide, rfl,
    ProcessState_outside_filter "subscribed" (newBitmexSimulator (some ["trade"])) _
      "orderBookL2" (marshalElements [exampleBuy "X" 2]) rfl (by decide) (by decide),
    rfl,
    ProcessState_outside_filter "subscribed" (newBitmexSimulator (some ["trade"])) _
      "orderBookL2" (marshalSubscribe ⟨true, "trade"⟩) rfl (by decide) (by decide)⟩

/-- C22: info and error frames.  For every line that decodes, is not a
successful subscribe acknowledgment and carries an info field,
`ProcessMessageWebSocket` returns the channel "info"; for one that carries an
error field and no info field it returns the channel "error"; in both cases no
error is returned and the simulator, hence the store and the subscription set,
is as it was, whatever table, action and data the frame carries. -/
theorem ProcessMessageWebSocket_info_error (channelUnknown : String) (s : bitmexSimulator)
    (line : Line) (subscribe : BitmexSubscribe) (decoded : BitmexRoot)
    (hsub : line.asSubscribe = some subscribe) (hno : subscribe.Success = false)
    (hroot : line.asRoot = some decoded) :
    (decoded.Info.isSome = true →
      ProcessMessageWebSocket channelUnknown s line = (s, "info", none)) ∧
    (decoded.Info = none → decoded.Error.isSome = true →
      ProcessMessageWebSocket channelUnknown s line = (s, "error", none)) := by
  unfold ProcessMessageWebSocket
  simp only [hsub, hno, hroot]
  constructor
  · intro hi
    simp [hi, BitmexChannelInfo]
  · intro hi he
    simp [hi, he, BitmexChannelError]

/-- Witness of C22: an info frame and an error frame that both name the table
orderBookL2 and carry an order, on a simulator without a filter. -/
theorem ProcessMessageWebSocket_info_error_witness :
    (marshalRoot ⟨"orderBookL2", "insert", some "Welcome", none,
      some [exampleBuy "X" 2]⟩).asSubscribe = some ⟨false, ""⟩ ∧
    ProcessMessageWebSocket "unknown" (newBitmexSimulator none)
      (marshalRoot ⟨"orderBookL2", "insert", some "Welcome", none, some [exampleBuy "X" 2]⟩) =
      (newBitmexSimulator none, "info", none) ∧
    ProcessMessageWebSocket "unknown" (newBitmexSimulator none)
      (marshalRoot ⟨"orderBookL2", "insert", none, some "Bad", some [exampleBuy "X" 2]⟩) =
      (newBitmexSimulator none, "error", none) :=
  ⟨rfl,
    (ProcessMessageWebSocket_info_error "unknown" (newBitmexSimulator none)
      (marshalRoot ⟨"orderBookL2", "insert", some "Welcome", none, some [exampleBuy "X" 2]⟩)
      ⟨false, ""⟩ _ rfl rfl rfl).1 rfl,
    (ProcessMessageWebSocket_info_error "unknown" (newBitmexSimulator none)
      (marshalRoot ⟨"orderBookL2", "insert", none, some "Bad", some [exampleBuy "X" 2]⟩)
      ⟨false, ""⟩ _ rfl rfl rfl).2 rfl rfl⟩

/-- C23: unrecognized tables are ignored.  For every line that decodes, is
neither a successful subscribe acknowledgment nor an info or error frame, and
whose table is not orderBookL2, `ProcessMessageWebSocket` returns the table as
the channel and no error, whatever the action and the data (decodable or not),
and leaves the simulator, hence the store and the subscription set, as it
was. -/
theorem ProcessMessageWebSocket_other_table (channelUnknown : String) (s : bitmexSimulator)
    (line : Line) (subscribe : BitmexSubscribe) (decoded : BitmexRoot)
    (hsub : line.asSubscribe = some subscribe) (hno : subscribe.Success = false)
    (hroot : line.asRoot = some decoded)
    (hinfo : decoded.Info = none) (herror : decoded.Error = none)
    (htable : decoded.Table ≠ "orderBookL2") :
    ProcessMessageWebSocket channelUnknown s line = (s, decoded.Table, none) := by
  unfold ProcessMessageWebSocket
  simp [hsub, hno, hroot, hinfo, herror, htable]

/-- Witness of C23: a frame of the table trade with an unknown action and data
that do not decode as orders, on the store of the example. -/
theorem ProcessMessageWebSocket_other_table_witness :
    "trade" ≠ "orderBookL2" ∧
    ProcessMessageWebSocket "unknown" ⟨none, subscribedAB, booksPlain⟩
      (marshalRoot ⟨"trade", "replace", none, none, none⟩) =
      (⟨none, subscribedAB, booksPlain⟩, "trade", none) :=
  ⟨by decide,
    ProcessMessageWebSocket_other_table "unknown" ⟨none, subscribedAB, booksPlain⟩
      (marshalRoot ⟨"trade", "replace", none, none, none⟩) ⟨false, ""⟩
      ⟨"trade", "replace", none, none, none⟩ rfl rfl rfl rfl rfl (by decide)⟩

/-! ## The subscription set -/

theorem isSome_get_set (m : GoMap String Bool) (c channel : String) :
    ((m.set c true).get channel).isSome = true ↔
      channel = c ∨ (m.get channel).isSome = true := by
  rw [GoMap.get_set]
  by_cases hc : channel = c <;> simp [hc]

/-- Channels subscribed after the restore loop of `ProcessState`: those
subscribed before and those of the list that pass the test of the loop. -/
theorem isSome_get_foldl_set (keep : String → Bool) (subscribed : List String)
    (m : GoMap String Bool) (channel : String) :
    ((subscribed.foldl (fun m subscrCh => if keep subscrCh then m.set subscrCh true else m)
        m).get channel).isSome = true ↔
      (m.get channel).isSome = true ∨ (channel ∈ subscribed ∧ keep channel = true) := by
  induction subscribed generalizing m with
  | nil => simp
  | cons c t ih =>
    rw [List.foldl_cons, ih]
    by_cases hk : keep c = true
    · simp only [hk, if_true, isSome_get_set, List.mem_cons]
      constructor
      · rintro ((h | h) | ⟨h1, h2⟩)
        · exact Or.inr ⟨Or.inl h, h ▸ hk⟩
        · exact Or.inl h
        · exact Or.inr ⟨Or.inr h1, h2⟩
      · rintro (h | ⟨h1 | h1, h2⟩)
        · exact Or.inl (Or.inr h)
        · exact Or.inl (Or.inl h1)
        · exact Or.inr ⟨h1, h2⟩
    · simp only [hk, List.mem_cons]
      constructor
      · rintro (h | ⟨h1, h2⟩)
        · exact Or.inl h
        · exact Or.inr ⟨Or.inr h1, h2⟩
      · rintro (h | ⟨h1 | h1, h2⟩)
        · exact Or.inl h
        · exact absurd (h1 ▸ h2) hk
        · exact Or.inr ⟨h1, h2⟩

theorem ProcessMessageWebSocket_subscribed_mono (channelUnknown : String) (s : bitmexSimulator)
    (line : Line) (channel : String) (h : (s.subscribed.get channel).isSome = true) :
    ((ProcessMessageWebSocket channelUnknown s line).1.subscribed.get channel).isSome = true := by
  unfold ProcessMessageWebSocket
  dsimp only
  repeat (first
    | exact h
    | exact (isSome_get_set s.subscribed _ channel).mpr (Or.inr h)
    | split)

theorem ProcessState_subscribed_mono (stateChannelSubscribed : String) (s : bitmexSimulator)
    (ch : String) (line : Line) (channel : String)
    (h : (s.subscribed.get channel).isSome = true) :
    ((ProcessState stateChannelSubscribed s ch line).1.subscribed.get channel).isSome = true := by
  unfold ProcessState
  dsimp only
  repeat (first
    | exact h
    | exact (isSome_get_foldl_set _ _ s.subscribed channel).mpr (Or.inl h)
    | split)

/-- C24: the subscription set never shrinks.  For every simulator and every
method of the contract, with any arguments and whether or not the call returns
an error, a channel that is subscribed before the call is subscribed after
it. -/
theorem subscribed_never_shrinks (channelUnknown stateChannelSubscribed : String)
    (s : bitmexSimulator) (declared : String) (line : Line) (channel : String)
    (h : (s.subscribed.get channel).isSome = true) :
    ((ProcessStart s line).1.subscribed.get channel).isSome = true ∧
    ((ProcessSend channelUnknown s line).1.subscribed.get channel).isSome = true ∧
    ((ProcessMessageWebSocket channelUnknown s line).1.subscribed.get channel).isSome = true ∧
    ((ProcessMessageChannelKnown channelUnknown s declared line).1.subscribed.get
      channel).isSome = true ∧
    ((ProcessState stateChannelSubscribed s declared line).1.subscribed.get
      channel).isSome = true ∧
    ((TakeSnapshot s).1.subscribed.get channel).isSome = true ∧
    ((TakeStateSnapshot stateChannelSubscribed s).1.subscribed.get channel).isSome = true := by
  refine ⟨h, h, ProcessMessageWebSocket_subscribed_mono channelUnknown s line channel h, ?_,
    ProcessState_subscribed_mono stateChannelSubscribed s declared line channel h, ?_, ?_⟩
  · rw [ProcessMessageChannelKnown_fst]
    exact ProcessMessageWebSocket_subscribed_mono channelUnknown s line channel h
  · rw [TakeSnapshot_fst]
    exact h
  · rw [TakeStateSnapshot_fst]
    exact h

/-- Witness of C24: the channel trade, subscribed on a simulator filtered on
orderBookL2 alone, stays subscribed through a restore of the list that holds
orderBookL2 only, and through a line that nothing decodes. -/
theorem subscribed_never_shrinks_witness :
    (subscribedAB.get "trade").isSome = true ∧
    ((ProcessState "subscribed"
      ⟨some ((GoMap.empty : GoMap String Bool).set "orderBookL2" true), subscribedAB,
        booksPlain⟩ "subscribed" (marshalStrings ["orderBookL2"])).1.subscribed.get
      "trade").isSome = true ∧
    (ProcessMessageWebSocket "unknown"
      ⟨some ((GoMap.empty : GoMap String Bool).set "orderBookL2" true), subscribedAB,
        booksPlain⟩ ⟨none, none, none, none⟩).2.2 = some SimError.unmarshal ∧
    ((ProcessMessageWebSocket "unknown"
      ⟨some ((GoMap.empty : GoMap String Bool).set "orderBookL2" true), subscribedAB,
        booksPlain⟩ ⟨none, none, none, none⟩).1.subscribed.get "trade").isSome = true :=
  ⟨by decide,
    (subscribed_never_shrinks "unknown" "subscribed"
      ⟨some ((GoMap.empty : GoMap String Bool).set "orderBookL2" true), subscribedAB,
        booksPlain⟩ "subscribed" (marshalStrings ["orderBookL2"]) "trade" (by decide)).2.2.2.2.1,
    rfl,
    (subscribed_never_shrinks "unknown" "subscribed"
      ⟨some ((GoMap.empty : GoMap String Bool).set "orderBookL2" true), subscribedAB,
        booksPlain⟩ "subscribed" ⟨none, none, none, none⟩ "trade" (by decide)).2.2.1⟩

/-- C27: restoring subscriptions under a filter.  On a simulator with the
channel filter `F`, `ProcessState` on the subscribed-state channel with a line
that decodes as the channel list `L` returns no error, leaves the store and the
filter as they were, and leaves subscribed exactly the channels that were
subscribed before and the channels of `L` that are in `F`. -/
theorem ProcessState_restore_subscribed (stateChannelSubscribed : String) (s : bitmexSimulator)
    (F : GoMap String Bool) (line : Line) (L : List String)
    (hfilter : s.filterChannel = some F) (hline : line.asStateSubscribed = some L) :
    (ProcessState stateChannelSubscribed s stateChannelSubscribed line).2 = none ∧
    (ProcessState stateChannelSubscribed s stateChannelSubscribed line).1.orderBooks =
      s.orderBooks ∧
    (ProcessState stateChannelSubscribed s stateChannelSubscribed line).1.filterChannel =
      s.filterChannel ∧
    (∀ channel,
      ((ProcessState stateChannelSubscribed s stateChannelSubscribed line).1.subscribed.get
        channel).isSome = true ↔
      (s.subscribed.get channel).isSome = true ∨
        (channel ∈ L ∧ (F.get channel).isSome = true)) := by
  unfold ProcessState
  simp only [if_true, hline]
  refine ⟨trivial, trivial, trivial, ?_⟩
  intro channel
  rw [isSome_get_foldl_set]
  simp [filterHas, hfilter]

/-- Witness of C27: on a simulator filtered on orderBookL2 alone, with nothing
subscribed, the list of orderBookL2 and trade is restored: orderBookL2 is
subscribed and trade is not. -/
theorem ProcessState_restore_subscribed_witness :
    (newBitmexSimulator (some ["orderBookL2"])).filterChannel =
      some ((GoMap.empty : GoMap String Bool).set "orderBookL2" true) ∧
    (marshalStrings ["orderBookL2", "trade"]).asStateSubscribed =
      some ["orderBookL2", "trade"] ∧
    (ProcessState "subscribed" (newBitmexSimulator (some ["orderBookL2"])) "subscribed"
      (marshalStrings ["orderBookL2", "trade"])).2 = none ∧
    ((ProcessState "subscribed" (newBitmexSimulator (some ["orderBookL2"])) "subscribed"
      (marshalStrings ["orderBookL2", "trade"])).1.subscribed.get "orderBookL2").isSome = true ∧
    ((ProcessState "subscribed" (newBitmexSimulator (some ["orderBookL2"])) "subscribed"
      (marshalStrings ["orderBookL2", "trade"])).1.subscribed.get "trade").isSome = false :=
  ⟨rfl, rfl,
    (ProcessState_restore_subscribed "subscribed" (newBitmexSimulator (some ["orderBookL2"]))
      _ (marshalStrings ["orderBookL2", "trade"]) ["orderBookL2", "trade"] rfl rfl).1,
    by decide, by decide⟩

/-! ## Stores built by `processData` -/

/-- An entry of the store after one element has been applied is at the side of
the element or was at its key before. -/
theorem processDataElement_entry_origin (orderBooks ob' : OrderBooks) (action : String)
    (e : BitmexOrderBookL2DataElement)
    (hr : processDataElement orderBooks action e = .ok ob')
    (symbol side : String) (id : ℤ) (el : bitmexOrderBookL2Element)
    (h : getEntry ob' symbol side id = some el) :
    side = e.Side ∨ (getEntry orderBooks symbol side id).isSome = true := by
  by_cases hact : action = "partial" ∨ action = "insert"
  · obtain ⟨ob'', h1, h2⟩ := processDataElement_upsert orderBooks action e hact
    rw [h1] at hr
    cases hr
    rw [h2] at h
    unfold entryAfterUpsert at h
    by_cases hsd : side = e.Side
    · exact Or.inl hsd
    · right
      simp only [hsd, if_false] at h
      cases hg : getEntry orderBooks symbol side id with
      | some el0 => rfl
      | none =>
        rw [hg] at h
        simp [Option.filter] at h
  · by_cases hu : action = "update"
    · subst hu
      obtain ⟨ob'', h1, h2⟩ := processDataElement_update orderBooks e
      rw [h1] at hr
      cases hr
      rw [h2] at h
      right
      cases hg : getEntry orderBooks symbol side id with
      | some el0 => rfl
      | none =>
        rw [hg] at h
        simp at h
    · by_cases hd : action = "delete"
      · subst hd
        obtain ⟨ob'', h1, h2⟩ := processDataElement_delete orderBooks e
        rw [h1] at hr
        cases hr
        rw [h2] at h
        right
        split at h
        · exact Option.noConfusion h
        · rw [h]; rfl
      · have h1 : action ≠ "partial" := fun x => hact (Or.inl x)
        have h2 : action ≠ "insert" := fun x => hact (Or.inr x)
        simp [processDataElement, h1, h2, hu, hd] at hr

theorem processData_sides (good : String → Prop) (action : String)
    (dataSlice : List BitmexOrderBookL2DataElement) (orderBooks : OrderBooks)
    (hd : ∀ d ∈ dataSlice, good d.Side)
    (hob : ∀ symbol side id el, getEntry orderBooks symbol side id = some el → good side) :
    ∀ symbol side id el,
      getEntry (processData orderBooks action dataSlice).1 symbol side id = some el →
        good side := by
  induction dataSlice generalizing orderBooks with
  | nil => exact hob
  | cons data rest ih =>
    unfold processData
    cases hr : processDataElement orderBooks action data with
    | error err => exact hob
    | ok ob' =>
      apply ih ob' (fun d hd' => hd d (List.mem_cons_of_mem data hd'))
      intro symbol side id el h
      rcases processDataElement_entry_origin orderBooks ob' action data hr symbol side id el h
        with hs | hs
      · rw [hs]
        exact hd data (List.mem_cons_self data rest)
      · obtain ⟨el0, h0⟩ := Option.isSome_iff_exists.mp hs
        exact hob symbol side id el0 h0

theorem ReachableStore.store_uncrossed {allowed : BitmexOrderBookL2DataElement → Prop}
    {orderBooks : OrderBooks} (h : ReachableStore allowed orderBooks) :
    Uncrossed orderBooks := by
  induction h with
  | empty =>
    intro symbol i j b a hb _
    exact Option.noConfusion hb
  | step ob action dataSlice _ _ ih => exact processData_uncrossed action dataSlice ob ih

theorem ReachableStore.sides {good : String → Prop} {orderBooks : OrderBooks}
    (h : ReachableStore (fun d => good d.Side) orderBooks) :
    ∀ symbol side id el, getEntry orderBooks symbol side id = some el → good side := by
  induction h with
  | empty =>
    intro symbol side id el he
    exact Option.noConfusion he
  | step ob action dataSlice _ hd ih => exact processData_sides good action dataSlice ob hd ih

/-- C28: the uncrossed-book invariant.  In every store that calls of
`processData` build from the empty store, with any actions and any elements,
no symbol has a Buy entry and a Sell entry with the Buy price strictly greater
than the Sell price. -/
theorem ReachableStore_uncrossed (orderBooks : OrderBooks)
    (h : ReachableStore (fun _ => True) orderBooks) :
    ∀ symbol i j b a, getEntry orderBooks symbol BitmexSideBuy i = some b →
      getEntry orderBooks symbol BitmexSideSell j = some a → ¬ b.price > a.price :=
  h.store_uncrossed

/-- Witness of C28: an ask at 100, then a bid at 105, are inserted into the
empty store; the ask is purged and the book is uncrossed. -/
theorem ReachableStore_uncrossed_witness :
    ReachableStore (fun _ => True)
      (processData GoMap.empty "insert" [exampleSell "X" 1, exampleBuy "X" 2]).1 ∧
    getEntry (processData GoMap.empty "insert" [exampleSell "X" 1, exampleBuy "X" 2]).1
      "X" BitmexSideBuy 2 = some ⟨105, 3⟩ ∧
    (∀ j a, getEntry (processData GoMap.empty "insert"
        [exampleSell "X" 1, exampleBuy "X" 2]).1 "X" BitmexSideSell j = some a →
      ¬ (105 : ℚ) > a.price) :=
  ⟨ReachableStore.step _ _ _ ReachableStore.empty (fun _ _ => trivial), by decide,
    fun j a ha =>
      ReachableStore_uncrossed _
        (ReachableStore.step _ "insert" [exampleSell "X" 1, exampleBuy "X" 2]
          ReachableStore.empty (fun _ _ => trivial))
        "X" 2 j ⟨105, 3⟩ a (by decide) ha⟩

/-- C25: order-book replay round trip.  For every store built from the empty
store by calls of `processData`, with any actions, whose elements all have side
Buy or Sell, `processData` with action partial on the emitted element list of
the store, from the empty store, returns no error and yields a store with
exactly the same entries: nothing is purged during the replay. -/
theorem processData_replay_roundtrip (orderBooks : OrderBooks)
    (h : ReachableStore (fun d => d.Side = BitmexSideBuy ∨ d.Side = BitmexSideSell)
      orderBooks) :
    (processData GoMap.empty "partial" (orderBookL2DataElements orderBooks)).2 = none ∧
    ∀ symbol side id,
      getEntry (processData GoMap.empty "partial"
        (orderBookL2DataElements orderBooks)).1 symbol side id =
        getEntry orderBooks symbol side id :=
  processData_replay_elements orderBooks h.store_uncrossed
    (@ReachableStore.sides (fun side => side = BitmexSideBuy ∨ side = BitmexSideSell)
      orderBooks h)

/-- Witness of C25: a bid at 95 and an ask at 100 are inserted, the ask is
updated and a bid that was never inserted is deleted; the replay of the emitted
list rebuilds both entries. -/
theorem processData_replay_roundtrip_witness :
    ReachableStore (fun d => d.Side = BitmexSideBuy ∨ d.Side = BitmexSideSell)
      (processData (processData (processData GoMap.empty "insert"
        [⟨2, 95, "Buy", 3, "X"⟩, exampleSell "X" 1]).1 "update" [⟨1, 0, "Sell", 9, "X"⟩]).1
        "delete" [⟨8, 0, "Buy", 0, "X"⟩]).1 ∧
    getEntry (processData GoMap.empty "partial" (orderBookL2DataElements
      (processData (processData (processData GoMap.empty "insert"
        [⟨2, 95, "Buy", 3, "X"⟩, exampleSell "X" 1]).1 "update" [⟨1, 0, "Sell", 9, "X"⟩]).1
        "delete" [⟨8, 0, "Buy", 0, "X"⟩]).1)).1 "X" "Sell" 1 = some ⟨100, 9⟩ ∧
    getEntry (processData GoMap.empty "partial" (orderBookL2DataElements
      (processData (processData (processData GoMap.empty "insert"
        [⟨2, 95, "Buy", 3, "X"⟩, exampleSell "X" 1]).1 "update" [⟨1, 0, "Sell", 9, "X"⟩]).1
        "delete" [⟨8, 0, "Buy", 0, "X"⟩]).1)).1 "X" "Buy" 2 = some ⟨95, 3⟩ :=
  have hr : ReachableStore (fun d => d.Side = BitmexSideBuy ∨ d.Side = BitmexSideSell)
      (processData (processData (processData GoMap.empty "insert"
        [⟨2, 95, "Buy", 3, "X"⟩, exampleSell "X" 1]).1 "update" [⟨1, 0, "Sell", 9, "X"⟩]).1
        "delete" [⟨8, 0, "Buy", 0, "X"⟩]).1 :=
    ReachableStore.step _ _ _
      (ReachableStore.step _ _ _
        (ReachableStore.step _ _ _ ReachableStore.empty (by decide)) (by decide)) (by decide)
  ⟨hr, ((processData_replay_roundtrip _ hr).2 "X" "Sell" 1).trans (by decide),
    ((processData_replay_roundtrip _ hr).2 "X" "Buy" 2).trans (by decide)⟩

/-! ## Errors of `processData`, and applying an element twice -/

theorem processDataElement_known_ok (orderBooks : OrderBooks) (action : String)
    (e : BitmexOrderBookL2DataElement)
    (h : action = "partial" ∨ action = "insert" ∨ action = "update" ∨ action = "delete") :
    ∃ ob', processDataElement orderBooks action e = .ok ob' := by
  rcases h with h | h | h | h
  · obtain ⟨ob', h1, _⟩ := processDataElement_upsert orderBooks action e (Or.inl h)
    exact ⟨ob', h1⟩
  · obtain ⟨ob', h1, _⟩ := processDataElement_upsert orderBooks action e (Or.inr h)
    exact ⟨ob', h1⟩
  · subst h
    obtain ⟨ob', h1, _⟩ := processDataElement_update orderBooks e
    exact ⟨ob', h1⟩
  · subst h
    obtain ⟨ob', h1, _⟩ := processDataElement_delete orderBooks e
    exact ⟨ob', h1⟩

theorem processData_known_no_error (action : String)
    (dataSlice : List BitmexOrderBookL2DataElement) (orderBooks : OrderBooks)
    (h : action = "partial" ∨ action = "insert" ∨ action = "update" ∨ action = "delete") :
    (processData orderBooks action dataSlice).2 = none := by
  induction dataSlice generalizing orderBooks with
  | nil => rfl
  | cons data rest ih =>
    obtain ⟨ob', h1⟩ := processDataElement_known_ok orderBooks action data h
    simp only [processData, h1]
    exact ih ob'

/-- C29: atomicity of `processData` on error.  For every store, action and
sequence of elements, if `processData` returns an error then the store is as it
was before the call: no element has been applied. -/
theorem processData_error_atomic (orderBooks : OrderBooks) (action : String)
    (dataSlice : List BitmexOrderBookL2DataElement) (err : SimError)
    (h : (processData orderBooks action dataSlice).2 = some err) :
    (processData orderBooks action dataSlice).1 = orderBooks := by
  by_cases hk : action = "partial" ∨ action = "insert" ∨ action = "update" ∨ action = "delete"
  · rw [processData_known_no_error action dataSlice orderBooks hk] at h
    exact Option.noConfusion h
  · cases dataSlice with
    | nil => rfl
    | cons data rest =>
      rw [processData_unknown_cons orderBooks action data rest
        (fun x => hk (Or.inl x)) (fun x => hk (Or.inr (Or.inl x)))
        (fun x => hk (Or.inr (Or.inr (Or.inl x))))
        (fun x => hk (Or.inr (Or.inr (Or.inr x))))]

/-- Witness of C29: two elements with an unknown action on the store of the
example. -/
theorem processData_error_atomic_witness :
    (processData booksPlain "replace" [exampleBuy "X" 2, exampleSell "X" 3]).2 =
      some (SimError.unknownAction "replace") ∧
    (processData booksPlain "replace" [exampleBuy "X" 2, exampleSell "X" 3]).1 = booksPlain :=
  ⟨rfl,
    processData_error_atomic booksPlain "replace" [exampleBuy "X" 2, exampleSell "X" 3]
      (SimError.unknownAction "replace") rfl⟩

theorem Option.filter_filter_self {α : Type} (p : α → Bool) (o : Option α) :
    Option.filter p (Option.filter p o) = Option.filter p o := by
  cases o with
  | none => rfl
  | some a =>
    by_cases h : p a = true
    · simp [Option.filter, h]
    · simp [Option.filter, h]

/-- C30: idempotence of a single upsert.  For every store, crossed or not, and
every element `e`, applying `processData` with action partial or insert on the
single element `e` a second time returns no error and leaves every entry as
the first application left it. -/
theorem processData_upsert_twice (orderBooks : OrderBooks)
    (e : BitmexOrderBookL2DataElement) (first second : String)
    (h₁ : first = "partial" ∨ first = "insert")
    (h₂ : second = "partial" ∨ second = "insert") :
    (processData (processData orderBooks first [e]).1 second [e]).2 = none ∧
    ∀ symbol side id,
      getEntry (processData (processData orderBooks first [e]).1 second [e]).1
        symbol side id =
        getEntry (processData orderBooks first [e]).1 symbol side id := by
  have k₁ := (processData_upsert_single orderBooks first e h₁).2
  obtain ⟨hn, k₂⟩ := processData_upsert_single (processData orderBooks first [e]).1 second e h₂
  refine ⟨hn, ?_⟩
  intro symbol side id
  rw [k₂]
  unfold entryAfterUpsert
  by_cases hsym : symbol = e.Symbol
  swap
  · simp only [hsym, if_false]
  simp only [hsym, if_true]
  by_cases hsd : side = e.Side
  · simp only [hsd, if_true]
    by_cases hid : id = e.ID
    · simp only [hid, if_true]
      rw [k₁]
      simp [entryAfterUpsert]
    · simp only [hid, if_false]
  · simp only [hsd, if_false]
    by_cases hB : e.Side = BitmexSideBuy
    · simp only [hB, if_true]
      by_cases h2 : side = BitmexSideSell
      · have hne : ¬ BitmexSideSell = e.Side := fun x => hsd (h2.trans x)
        simp only [h2, if_true]
        rw [k₁]
        simp only [entryAfterUpsert, if_true, hne, if_false, hB]
        exact Option.filter_filter_self _ _
      · simp only [h2, if_false]
    · simp only [hB, if_false]
      by_cases h2 : side = BitmexSideBuy
      · have hne : ¬ BitmexSideBuy = e.Side := fun x => hsd (h2.trans x)
        simp only [h2, if_true]
        rw [k₁]
        simp only [entryAfterUpsert, if_true, hne, if_false, hB]
        exact Option.filter_filter_self _ _
      · simp only [h2, if_false]

/-- Witness of C30: a bid at 105 is applied twice to the store with a bid at 95
and an ask at 100; the ask is purged by the first application and the second
changes nothing. -/
theorem processData_upsert_twice_witness :
    ("partial" = "partial" ∨ "partial" = "insert") ∧
    getEntry (processData booksTwoSided "partial" [exampleBuy "X" 7]).1 "X" "Sell" 1 = none ∧
    getEntry (processData (processData booksTwoSided "partial" [exampleBuy "X" 7]).1 "partial"
      [exampleBuy "X" 7]).1 "X" "Buy" 7 =
      getEntry (processData booksTwoSided "partial" [exampleBuy "X" 7]).1 "X" "Buy" 7 ∧
    getEntry (processData booksTwoSided "partial" [exampleBuy "X" 7]).1 "X" "Buy" 7 =
      some ⟨105, 3⟩ :=
  ⟨Or.inl rfl, by decide,
    (processData_upsert_twice booksTwoSided (exampleBuy "X" 7) "partial" "partial"
      (Or.inl rfl) (Or.inl rfl)).2 "X" "Buy" 7,
    by decide⟩

/-! ## Restoring an order-book partial -/

/-- C26: restoring an order-book partial equals a live partial.  On a simulator
with no filter, or whose filter contains orderBookL2, `ProcessState` on the
channel orderBookL2 with a line whose decoding as a list of elements is `d`
leaves the simulator in exactly the state, and returns an error in exactly the
cases, of `ProcessMessageWebSocket` on a data frame of the table orderBookL2
with the action partial and the data `d` (`d` is `none` when the decoding
fails).  The subscribed-state channel is another channel than orderBookL2. -/
theorem ProcessState_orderBookL2_as_live (channelUnknown stateChannelSubscribed : String)
    (s : bitmexSimulator) (stateLine wsLine : Line) (subscribe : BitmexSubscribe)
    (d : Option (List BitmexOrderBookL2DataElement))
    (hconst : stateChannelSubscribed ≠ "orderBookL2")
    (hfilter : s.filterChannel = none ∨ filterHas s.filterChannel "orderBookL2" = true)
    (hstate : stateLine.asElements = d)
    (hsub : wsLine.asSubscribe = some subscribe) (hno : subscribe.Success = false)
    (hroot : wsLine.asRoot = some ⟨"orderBookL2", "partial", none, none, d⟩) :
    (ProcessState stateChannelSubscribed s "orderBookL2" stateLine).1 =
      (ProcessMessageWebSocket channelUnknown s wsLine).1 ∧
    (ProcessState stateChannelSubscribed s "orderBookL2" stateLine).2 =
      (ProcessMessageWebSocket channelUnknown s wsLine).2.2 := by
  have hc : ¬ "orderBookL2" = stateChannelSubscribed := fun x => hconst x.symm
  have hf : ¬ (s.filterChannel.isSome = true ∧
      filterHas s.filterChannel "orderBookL2" = false) := by
    rintro ⟨h1, h2⟩
    rcases hfilter with h | h
    · rw [h] at h1
      exact absurd h1 (by simp)
    · rw [h] at h2
      exact absurd h2 (by simp)
  unfold ProcessState ProcessMessageWebSocket
  rw [if_neg hc, if_neg hf]
  simp only [if_true, hstate, hsub, hno, hroot]
  cases d with
  | none => exact ⟨rfl, rfl⟩
  | some dataSlice => exact ⟨rfl, rfl⟩

/-- Witness of C26: the same crossing pair of orders, restored on a simulator
whose filter contains orderBookL2 and received as a live partial; both leave
the bid alone in the store. -/
theorem ProcessState_orderBookL2_as_live_witness :
    "subscribed" ≠ "orderBookL2" ∧
    filterHas (newBitmexSimulator (some ["orderBookL2"])).filterChannel "orderBookL2" = true ∧
    (ProcessState "subscribed" (newBitmexSimulator (some ["orderBookL2"])) "orderBookL2"
      (marshalElements [exampleSell "X" 1, exampleBuy "X" 2])).1 =
      (ProcessMessageWebSocket "unknown" (newBitmexSimulator (some ["orderBookL2"]))
        (marshalRoot ⟨"orderBookL2", "partial", none, none,
          some [exampleSell "X" 1, exampleBuy "X" 2]⟩)).1 ∧
    getEntry (ProcessState "subscribed" (newBitmexSimulator (some ["orderBookL2"]))
      "orderBookL2" (marshalElements [exampleSell "X" 1, exampleBuy "X" 2])).1.orderBooks
      "X" "Sell" 1 = none :=
  ⟨by decide, by decide,
    (ProcessState_orderBookL2_as_live "unknown" "subscribed"
      (newBitmexSimulator (some ["orderBookL2"]))
      (marshalElements [exampleSell "X" 1, exampleBuy "X" 2])
      (marshalRoot ⟨"orderBookL2", "partial", none, none,
        some [exampleSell "X" 1, exampleBuy "X" 2]⟩)
      ⟨false, ""⟩ (some [exampleSell "X" 1, exampleBuy "X" 2])
      (by decide) (Or.inr (by decide)) rfl rfl rfl rfl).1,
    by decide⟩

/-! ## Sides other than Buy -/

/-- C31: an element inserted on a side other than Buy is treated as a Sell for
the purge.  For every store and every element `e` whose side is any string
other than "Buy", the empty string included, `processData` with action partial
or insert removes every Buy entry of the symbol of `e` priced strictly above
`e.Price`, keeps the other Buy entries of that symbol, and removes no entry on
any other side: every entry there is as it was, except the entry at the key of
`e`, which is the one just written. -/
theorem processData_non_buy_purges_buys (orderBooks : OrderBooks)
    (e : BitmexOrderBookL2DataElement) (action : String)
    (hside : e.Side ≠ BitmexSideBuy) (hact : action = "partial" ∨ action = "insert") :
    (∀ id el, getEntry orderBooks e.Symbol BitmexSideBuy id = some el → el.price > e.Price →
      getEntry (processData orderBooks action [e]).1 e.Symbol BitmexSideBuy id = none) ∧
    (∀ id el, getEntry orderBooks e.Symbol BitmexSideBuy id = some el → ¬ el.price > e.Price →
      getEntry (processData orderBooks action [e]).1 e.Symbol BitmexSideBuy id = some el) ∧
    (∀ symbol side id el, side ≠ BitmexSideBuy →
      getEntry orderBooks symbol side id = some el →
      (getEntry (processData orderBooks action [e]).1 symbol side id).isSome = true) ∧
    (∀ symbol side id, side ≠ BitmexSideBuy →
      ¬ (symbol = e.Symbol ∧ side = e.Side ∧ id = e.ID) →
      getEntry (processData orderBooks action [e]).1 symbol side id =
        getEntry orderBooks symbol side id) := by
  have key := (processData_upsert_single orderBooks action e hact).2
  have hne : ¬ BitmexSideBuy = e.Side := fun x => hside x.symm
  have hother : ∀ symbol side id, side ≠ BitmexSideBuy →
      ¬ (symbol = e.Symbol ∧ side = e.Side ∧ id = e.ID) →
      getEntry (processData orderBooks action [e]).1 symbol side id =
        getEntry orderBooks symbol side id := by
    intro symbol side id hsd hk
    rw [key]
    unfold entryAfterUpsert
    by_cases h1 : symbol = e.Symbol
    · by_cases h2 : side = e.Side
      · by_cases h3 : id = e.ID
        · exact absurd ⟨h1, h2, h3⟩ hk
        · simp only [h1, h2, h3, if_true, if_false]
      · simp only [h1, h2, hside, hsd, if_true, if_false]
    · simp only [h1, if_false]
  refine ⟨?_, ?_, ?_, hother⟩
  · intro id el h hgt
    rw [key]
    simp only [entryAfterUpsert, if_true, hne, if_false, hside, h]
    simp [Option.filter, hgt]
  · intro id el h hle
    rw [key]
    simp only [entryAfterUpsert, if_true, hne, if_false, hside, h]
    simp [Option.filter, hle]
  · intro symbol side id el hsd h
    by_cases hk : symbol = e.Symbol ∧ side = e.Side ∧ id = e.ID
    · obtain ⟨h1, h2, h3⟩ := hk
      rw [key, h1, h2, h3]
      simp [entryAfterUpsert]
    · rw [hother symbol side id hsd hk, h]
      rfl

/-- Witness of C31: an element whose side is the empty string, priced at 100,
arrives in a store that holds a bid at 105 and a bid at 95 of its symbol; the
bid at 105 is removed, the bid at 95 stays. -/
theorem processData_non_buy_purges_buys_witness :
    ("" : String) ≠ BitmexSideBuy ∧ ("insert" = "partial" ∨ "insert" = "insert") ∧
    getEntry (processData GoMap.empty "insert"
      [⟨2, 95, "Buy", 3, "X"⟩, exampleBuy "X" 7]).1 "X" "Buy" 7 = some ⟨105, 3⟩ ∧
    getEntry (processData (processData GoMap.empty "insert"
      [⟨2, 95, "Buy", 3, "X"⟩, exampleBuy "X" 7]).1 "insert" [⟨1, 100, "", 5, "X"⟩]).1
      "X" BitmexSideBuy 7 = none ∧
    getEntry (processData (processData GoMap.empty "insert"
      [⟨2, 95, "Buy", 3, "X"⟩, exampleBuy "X" 7]).1 "insert" [⟨1, 100, "", 5, "X"⟩]).1
      "X" "Buy" 2 = some ⟨95, 3⟩ ∧
    getEntry (processData (processData GoMap.empty "insert"
      [⟨2, 95, "Buy", 3, "X"⟩, exampleBuy "X" 7]).1 "insert" [⟨1, 100, "", 5, "X"⟩]).1
      "X" "" 1 = some ⟨100, 5⟩ :=
  ⟨by decide, Or.inr rfl, by decide,
    (processData_non_buy_purges_buys
      (processData GoMap.empty "insert" [⟨2, 95, "Buy", 3, "X"⟩, exampleBuy "X" 7]).1
      ⟨1, 100, "", 5, "X"⟩ "insert" (by decide) (Or.inr rfl)).1 7 ⟨105, 3⟩ (by decide)
      (by show (105 : ℚ) > 100; norm_num),
    by decide, by decide⟩

/-! ## The Bitmex formatter -/

theorem BitmexFormatter.IsSupported_iff_mem (channel : String) :
    BitmexFormatter.IsSupported channel = true ↔
      channel ∈ ["orderBookL2", "trade", "instrument", "liquidation", "settlement",
        "insurance", "funding"] := by
  simp [BitmexFormatter.IsSupported, or_assoc]

/-- C32: `BitmexFormatter.IsSupported` agrees with `Format`.  `IsSupported` is
true exactly for the seven channels orderBookL2, trade, instrument,
liquidation, settlement, insurance and funding; on a line that decodes as a
successful subscription acknowledgment `Format` returns a single header row and
no error exactly for those channels, and for every other channel no row and the
unsupported-channel error; on a line that decodes as a data frame it returns,
for every other channel, no row and the unsupported-channel error, whatever the
formatters of the tables do. -/
theorem BitmexFormatter_IsSupported_agrees (tables : BitmexTableFormatters) :
    (∀ channel, BitmexFormatter.IsSupported channel = true ↔
      channel ∈ ["orderBookL2", "trade", "instrument", "liquidation", "settlement",
        "insurance", "funding"]) ∧
    (∀ channel line subscribed, line.asSubscribe = some subscribed →
      subscribed.Success = true →
      (BitmexFormatter.IsSupported channel = true ↔
        ∃ header, BitmexFormatter.Format tables channel line = .returned [header] none) ∧
      (BitmexFormatter.IsSupported channel = false →
        BitmexFormatter.Format tables channel line =
          .returned [] (some (.unsupportedChannel channel)))) ∧
    (∀ channel line subscribed decoded, line.asSubscribe = some subscribed →
      subscribed.Success = false → line.asRoot = some decoded →
      BitmexFormatter.IsSupported channel = false →
      BitmexFormatter.Format tables channel line =
        .returned [] (some (.channelNotSupported channel))) := by
  refine ⟨BitmexFormatter.IsSupported_iff_mem, ?_, ?_⟩
  · intro channel line subscribed hsub hok
    have hno : BitmexFormatter.IsSupported channel = false →
        BitmexFormatter.Format tables channel line =
          .returned [] (some (.unsupportedChannel channel)) := by
      intro h
      have h' : ¬ BitmexFormatter.IsSupported channel = true := by simp [h]
      rw [BitmexFormatter.IsSupported_iff_mem] at h'
      simp only [List.mem_cons, List.mem_singleton, List.not_mem_nil, or_false, not_or] at h'
      obtain ⟨h1, h2, h3, h4, h5, h6, h7⟩ := h'
      simp [BitmexFormatter.Format, hsub, hok, h1, h2, h3, h4, h5, h6, h7]
    refine ⟨⟨?_, ?_⟩, hno⟩
    · intro h
      rw [BitmexFormatter.IsSupported_iff_mem] at h
      simp only [List.mem_cons, List.mem_singleton, List.not_mem_nil, or_false] at h
      rcases h with h | h | h | h | h | h | h <;> subst h <;>
        simp [BitmexFormatter.Format, hsub, hok]
    · rintro ⟨header, hh⟩
      by_contra hn
      have hf : BitmexFormatter.IsSupported channel = false := by simpa using hn
      rw [hno hf] at hh
      simp at hh
  · intro channel line subscribed decoded hsub hno hroot h
    have h' : ¬ BitmexFormatter.IsSupported channel = true := by simp [h]
    rw [BitmexFormatter.IsSupported_iff_mem] at h'
    simp only [List.mem_cons, List.mem_singleton, List.not_mem_nil, or_false, not_or] at h'
    obtain ⟨h1, h2, h3, h4, h5, h6, h7⟩ := h'
    simp [BitmexFormatter.Format, hsub, hno, hroot, h1, h2, h3, h4, h5, h6, h7]

/-! ## The Bitflyer formatter -/

theorem HasPrefix_iff (s pre : GoString) : HasPrefix s pre = true ↔ ∃ t, s = pre ++ t := by
  unfold HasPrefix
  rw [List.isPrefixOf_iff_prefix]
  constructor
  · rintro ⟨t, ht⟩
    exact ⟨t, ht.symm⟩
  · rintro ⟨t, ht⟩
    exact ⟨t, ht.symm⟩

theorem sliceFrom_append (pre t : GoString) : sliceFrom (pre ++ t) pre.length = some t := by
  unfold sliceFrom
  rw [if_pos (by simp), List.drop_left]

theorem HasPrefix_of_longer (s short long : GoString) (h : HasPrefix long short = true)
    (hs : HasPrefix s long = true) : HasPrefix s short = true := by
  obtain ⟨t, rfl⟩ := (HasPrefix_iff long short).mp h
  obtain ⟨u, rfl⟩ := (HasPrefix_iff s (short ++ t)).mp hs
  exact (HasPrefix_iff _ _).mpr ⟨t ++ u, List.append_assoc _ _ _⟩

theorem sliceFrom_eq_none (s : GoString) (n : ℕ) : sliceFrom s n = none ↔ s.length < n := by
  unfold sliceFrom
  by_cases h : n ≤ s.length
  · rw [if_pos h]
    simp only [reduceCtorEq, false_iff, not_lt]
    exact h
  · rw [if_neg h]
    simp only [true_iff]
    exact Nat.lt_of_not_le h

theorem HasPrefix_length (s pre : GoString) (h : HasPrefix s pre = true) :
    pre.length ≤ s.length := by
  obtain ⟨t, rfl⟩ := (HasPrefix_iff s pre).mp h
  simp

theorem BitflyerFormatter.formatBoard_of_pair (channel pair : GoString)
    (messageRaw : BitflyerRawMessage)
    (h : channel = goString "lightning_board_snapshot_" ++ pair ∨
      (HasPrefix channel (goString "lightning_board_snapshot_") = false ∧
        channel = goString "lightning_board_" ++ pair)) :
    BitflyerFormatter.formatBoard channel messageRaw =
      match messageRaw.asBoard with
      | none => .returned [] (some .boardMessageRaw)
      | some message =>
        .returned
          (message.Asks.map (fun ask => BitflyerRow.BitflyerBoard pair ask.Price (-ask.Size)) ++
            message.Bids.map (fun bid => BitflyerRow.BitflyerBoard pair bid.Price bid.Size))
          none := by
  have hp : (if HasPrefix channel (goString "lightning_board_snapshot_") = true then
      sliceFrom channel (goString "lightning_board_snapshot_").length
    else sliceFrom channel (goString "lightning_board_").length) = some pair := by
    rcases h with h | ⟨hs, h⟩
    · rw [if_pos ((HasPrefix_iff _ _).mpr ⟨pair, h⟩)]
      conv_lhs => rw [h]
      exact sliceFrom_append _ pair
    · rw [if_neg (by simp [hs])]
      conv_lhs => rw [h]
      exact sliceFrom_append _ pair
  unfold BitflyerFormatter.formatBoard
  rw [hp]

theorem BitflyerFormatter.formatExecutions_of_pair (pair : GoString)
    (messageRaw : BitflyerRawMessage) :
    BitflyerFormatter.formatExecutions (goString "lightning_executions_" ++ pair) messageRaw =
      match messageRaw.asExecutions with
      | none => .returned [] (some .executionsMessageRaw)
      | some orders =>
        .returned
          (orders.map fun element =>
            BitflyerRow.BitflyerExecutions pair element.Price
              (if element.Size ≠ 0 then
                if element.Side = "ask" then -element.Size else element.Size
              else 0))
          none := by
  unfold BitflyerFormatter.formatExecutions
  rw [sliceFrom_append]

theorem BitflyerFormatter.formatBoard_sliceBounds_iff (channel : GoString)
    (messageRaw : BitflyerRawMessage) :
    BitflyerFormatter.formatBoard channel messageRaw = .panicked .sliceBounds ↔
      channel.length < (goString "lightning_board_").length := by
  unfold BitflyerFormatter.formatBoard
  by_cases hs : HasPrefix channel (goString "lightning_board_snapshot_") = true
  · have hl := HasPrefix_length _ _ hs
    have h25 : (goString "lightning_board_snapshot_").length = 25 := by decide
    have h16 : (goString "lightning_board_").length = 16 := by decide
    rw [if_pos hs]
    cases hp : sliceFrom channel (goString "lightning_board_snapshot_").length with
    | none =>
      rw [sliceFrom_eq_none] at hp
      omega
    | some pair =>
      have : ¬ channel.length < (goString "lightning_board_").length := by omega
      cases messageRaw.asBoard <;> simp [this]
  · rw [if_neg hs]
    cases hp : sliceFrom channel (goString "lightning_board_").length with
    | none =>
      rw [sliceFrom_eq_none] at hp
      simp [hp]
    | some pair =>
      have : ¬ channel.length < (goString "lightning_board_").length := by
        rw [← sliceFrom_eq_none, hp]
        simp
      cases messageRaw.asBoard <;> simp [this]

theorem BitflyerFormatter.formatExecutions_sliceBounds_iff (channel : GoString)
    (messageRaw : BitflyerRawMessage) :
    BitflyerFormatter.formatExecutions channel messageRaw = .panicked .sliceBounds ↔
      channel.length < (goString "lightning_executions_").length := by
  unfold BitflyerFormatter.formatExecutions
  cases hp : sliceFrom channel (goString "lightning_executions_").length with
  | none =>
    rw [sliceFrom_eq_none] at hp
    simp [hp]
  | some pair =>
    have : ¬ channel.length < (goString "lightning_executions_").length := by
      rw [← sliceFrom_eq_none, hp]
      simp
    cases messageRaw.asExecutions <;> simp [this]

theorem BitflyerFormatter.formatBoard_ne_nilDereference (channel : GoString)
    (messageRaw : BitflyerRawMessage) :
    BitflyerFormatter.formatBoard channel messageRaw ≠ .panicked .nilDereference := by
  unfold BitflyerFormatter.formatBoard
  split
  · simp
  · cases messageRaw.asBoard <;> simp

theorem BitflyerFormatter.formatExecutions_ne_nilDereference (channel : GoString)
    (messageRaw : BitflyerRawMessage) :
    BitflyerFormatter.formatExecutions channel messageRaw ≠ .panicked .nilDereference := by
  unfold BitflyerFormatter.formatExecutions
  split
  · simp
  · cases messageRaw.asExecutions <;> simp

theorem BitflyerFormatter.formatBoard_ne_unsupported (channel : GoString)
    (messageRaw : BitflyerRawMessage) (c : GoString) :
    BitflyerFormatter.formatBoard channel messageRaw ≠ .returned [] (some (.unsupported c)) := by
  unfold BitflyerFormatter.formatBoard
  split
  · simp
  · cases messageRaw.asBoard <;> simp

theorem BitflyerFormatter.formatExecutions_ne_unsupported (channel : GoString)
    (messageRaw : BitflyerRawMessage) (c : GoString) :
    BitflyerFormatter.formatExecutions channel messageRaw ≠
      .returned [] (some (.unsupported c)) := by
  unfold BitflyerFormatter.formatExecutions
  split
  · simp
  · cases messageRaw.asExecutions <;> simp

theorem BitflyerFormatter.FormatMessage_data
    (formatTicker : GoString → BitflyerRawMessage → List BitflyerRow × Option String)
    (channel : GoString) (line : BitflyerLine) (subscribe : BitflyerSubscribed)
    (root : BitflyerRoot) (hsub : line.asSubscribed = some subscribe)
    (hno : subscribe.Result = false) (hroot : line.asRoot = some (some root)) :
    BitflyerFormatter.FormatMessage formatTicker channel line =
      if HasPrefix channel (goString "lightning_board_") = true then
        BitflyerFormatter.formatBoard channel root.Params.Message
      else if HasPrefix channel (goString "lightning_executions_") = true then
        BitflyerFormatter.formatExecutions channel root.Params.Message
      else if HasPrefix channel (goString "lightning_ticker_") = true then
        .returned (formatTicker channel root.Params.Message).1
          ((formatTicker channel root.Params.Message).2.map BitflyerFormatError.ticker)
      else .returned [] (some (.unsupported channel)) := by
  unfold BitflyerFormatter.FormatMessage
  simp only [hsub, hno, hroot]
  rfl

theorem BitflyerFormatter.FormatMessage_nil_root
    (formatTicker : GoString → BitflyerRawMessage → List BitflyerRow × Option String)
    (channel : GoString) (line : BitflyerLine) (subscribe : BitflyerSubscribed)
    (hsub : line.asSubscribed = some subscribe)
    (hno : subscribe.Result = false) (hroot : line.asRoot = some none) :
    BitflyerFormatter.FormatMessage formatTicker channel line =
      if HasPrefix channel (goString "lightning_board_") = true then
        .panicked .nilDereference
      else if HasPrefix channel (goString "lightning_executions_") = true then
        .panicked .nilDereference
      else if HasPrefix channel (goString "lightning_ticker_") = true then
        .panicked .nilDereference
      else .returned [] (some (.unsupported channel)) := by
  unfold BitflyerFormatter.FormatMessage
  simp only [hsub, hno, hroot]
  rfl

theorem BitflyerFormatter.FormatMessage_no_data
    (formatTicker : GoString → BitflyerRawMessage → List BitflyerRow × Option String)
    (channel : GoString) (line : BitflyerLine) :
    (line.asSubscribed = none →
      BitflyerFormatter.FormatMessage formatTicker channel line =
        .returned [] (some .line)) ∧
    (∀ subscribe, line.asSubscribed = some subscribe → subscribe.Result = true →
      BitflyerFormatter.FormatMessage formatTicker channel line =
        if HasPrefix channel (goString "lightning_board_") = true then
          .returned [.TypeDefBitflyerBoard] none
        else if HasPrefix channel (goString "lightning_executions_") = true then
          .returned [.TypeDefBitflyerExecutions] none
        else if HasPrefix channel (goString "lightning_ticker_") = true then
          .returned [.TypeDefBitflyerTicker] none
        else .returned [] (some (.unsupported channel))) ∧
    (∀ subscribe, line.asSubscribed = some subscribe → subscribe.Result = false →
      line.asRoot = none →
      BitflyerFormatter.FormatMessage formatTicker channel line =
        .returned [] (some .line)) := by
  refine ⟨?_, ?_, ?_⟩
  · intro h
    unfold BitflyerFormatter.FormatMessage
    simp only [h]
  · intro subscribe h hr
    unfold BitflyerFormatter.FormatMessage
    simp only [h, hr]
    rfl
  · intro subscribe h hr hm
    unfold BitflyerFormatter.FormatMessage
    simp only [h, hr, hm]
    rfl

theorem BitflyerFormatter.IsSupported_iff_prefixes (channel : GoString) :
    BitflyerFormatter.IsSupported channel = true ↔
      HasPrefix channel (goString "lightning_board_") = true ∨
      HasPrefix channel (goString "lightning_executions_") = true ∨
      HasPrefix channel (goString "lightning_ticker_") = true := by
  unfold BitflyerFormatter.IsSupported
  simp only [Bool.or_eq_true]
  constructor
  · rintro (((h | h) | h) | h)
    · exact Or.inl (HasPrefix_of_longer channel _ _ (by decide) h)
    · exact Or.inl h
    · exact Or.inr (Or.inl h)
    · exact Or.inr (Or.inr h)
  · rintro (h | h | h)
    · exact Or.inl (Or.inl (Or.inr h))
    · exact Or.inl (Or.inr h)
    · exact Or.inr h

theorem BitflyerFormatter.FormatMessage_ne_sliceBounds
    (formatTicker : GoString → BitflyerRawMessage → List BitflyerRow × Option String)
    (channel : GoString) (line : BitflyerLine) :
    BitflyerFormatter.FormatMessage formatTicker channel line ≠ .panicked .sliceBounds := by
  obtain ⟨h1, h2, h3⟩ := BitflyerFormatter.FormatMessage_no_data formatTicker channel line
  cases hs : line.asSubscribed with
  | none => rw [h1 hs]; simp
  | some subscribe =>
    by_cases hr : subscribe.Result = true
    · rw [h2 subscribe hs hr]
      split_ifs <;> simp
    · have hr' : subscribe.Result = false := by simpa using hr
      cases hm : line.asRoot with
      | none => rw [h3 subscribe hs hr' hm]; simp
      | some root =>
        cases root with
        | none =>
          rw [BitflyerFormatter.FormatMessage_nil_root formatTicker channel line subscribe
            hs hr' hm]
          split_ifs <;> simp
        | some root =>
          rw [BitflyerFormatter.FormatMessage_data formatTicker channel line subscribe root
            hs hr' hm]
          split_ifs with hb he ht
          · intro h
            rw [BitflyerFormatter.formatBoard_sliceBounds_iff] at h
            exact absurd (HasPrefix_length _ _ hb) (Nat.not_le_of_lt h)
          · intro h
            rw [BitflyerFormatter.formatExecutions_sliceBounds_iff] at h
            exact absurd (HasPrefix_length _ _ he) (Nat.not_le_of_lt h)
          · simp
          · simp

theorem BitflyerFormatter.FormatMessage_nilDereference_iff
    (formatTicker : GoString → BitflyerRawMessage → List BitflyerRow × Option String)
    (channel : GoString) (line : BitflyerLine) :
    BitflyerFormatter.FormatMessage formatTicker channel line = .panicked .nilDereference ↔
      line.asSubscribed = some ⟨false⟩ ∧ line.asRoot = some none ∧
        BitflyerFormatter.IsSupported channel = true := by
  rw [BitflyerFormatter.IsSupported_iff_prefixes]
  obtain ⟨h1, h2, h3⟩ := BitflyerFormatter.FormatMessage_no_data formatTicker channel line
  cases hs : line.asSubscribed with
  | none => rw [h1 hs]; simp
  | some subscribe =>
    obtain ⟨result⟩ := subscribe
    cases result with
    | true =>
      rw [h2 ⟨true⟩ hs rfl]
      split_ifs <;> simp
    | false =>
      cases hm : line.asRoot with
      | none => rw [h3 ⟨false⟩ hs rfl hm]; simp
      | some root =>
        cases root with
        | none =>
          rw [BitflyerFormatter.FormatMessage_nil_root formatTicker channel line ⟨false⟩
            hs rfl hm]
          split_ifs with hb he ht <;> simp [*]
        | some root =>
          rw [BitflyerFormatter.FormatMessage_data formatTicker channel line ⟨false⟩ root
            hs rfl hm]
          split_ifs with hb he ht
          · simp [BitflyerFormatter.formatBoard_ne_nilDereference]
          · simp [BitflyerFormatter.formatExecutions_ne_nilDereference]
          · simp
          · simp

theorem BitflyerFormatter.FormatMessage_unsupported_iff
    (formatTicker : GoString → BitflyerRawMessage → List BitflyerRow × Option String)
    (channel : GoString) :
    BitflyerFormatter.IsSupported channel = true ↔
      ∀ line, BitflyerFormatter.FormatMessage formatTicker channel line ≠
        .returned [] (some (.unsupported channel)) := by
  constructor
  · intro hsup line
    rw [BitflyerFormatter.IsSupported_iff_prefixes] at hsup
    obtain ⟨h1, h2, h3⟩ := BitflyerFormatter.FormatMessage_no_data formatTicker channel line
    cases hs : line.asSubscribed with
    | none => rw [h1 hs]; simp
    | some subscribe =>
      by_cases hr : subscribe.Result = true
      · rw [h2 subscribe hs hr]
        split_ifs with hb he ht
        · simp
        · simp
        · simp
        · rcases hsup with h | h | h
          · exact absurd h hb
          · exact absurd h he
          · exact absurd h ht
      · have hr' : subscribe.Result = false := by simpa using hr
        cases hm : line.asRoot with
        | none => rw [h3 subscribe hs hr' hm]; simp
        | some root =>
          cases root with
          | none =>
            rw [BitflyerFormatter.FormatMessage_nil_root formatTicker channel line subscribe
              hs hr' hm]
            split_ifs with hb he ht
            · simp
            · simp
            · simp
            · rcases hsup with h | h | h
              · exact absurd h hb
              · exact absurd h he
              · exact absurd h ht
          | some root =>
            rw [BitflyerFormatter.FormatMessage_data formatTicker channel line subscribe root
              hs hr' hm]
            split_ifs with hb he ht
            · exact BitflyerFormatter.formatBoard_ne_unsupported channel _ channel
            · exact BitflyerFormatter.formatExecutions_ne_unsupported channel _ channel
            · cases (formatTicker channel root.Params.Message).2 <;> simp
            · rcases hsup with h | h | h
              · exact absurd h hb
              · exact absurd h he
              · exact absurd h ht
  · intro h
    by_contra hn
    rw [BitflyerFormatter.IsSupported_iff_prefixes] at hn
    simp only [not_or] at hn
    obtain ⟨hb, he, ht⟩ := hn
    apply h ⟨some ⟨true⟩, none⟩
    rw [(BitflyerFormatter.FormatMessage_no_data formatTicker channel ⟨some ⟨true⟩, none⟩).2.1
      ⟨true⟩ rfl rfl]
    simp [hb, he, ht]

/-- C33: `BitflyerFormatter` never slices a channel name out of range.  For
every channel and every line `FormatMessage` does not end in the panic of a
slice expression.  The one panic it can end in is the dereference of a nil
`root`, which happens before any formatter is called, exactly on a line that
decodes with `Result` false and sets `root` to nil (the line `null`) when the
channel is supported.  On a line that decodes as a data frame `FormatMessage`
returns what `formatBoard` returns when the channel starts with
"lightning_board_", what `formatExecutions` returns when it does not but starts
with "lightning_executions_", and calls neither otherwise; on every other line
it calls no formatter.  A channel starts with a prefix exactly when it is the
prefix followed by a rest.  `formatBoard` on a channel that is
"lightning_board_snapshot_" followed by a pair, or that does not start with it
and is "lightning_board_" followed by a pair, returns rows that carry this pair
as their symbol, asks first with negated size; `formatExecutions` on
"lightning_executions_" followed by a pair returns rows that carry this pair.
Each of the two panics in its slice expression exactly when the channel is
shorter than "lightning_board_" (resp. "lightning_executions_"), which
`FormatMessage` excludes.  And `IsSupported` is true of a channel exactly when
`FormatMessage` rejects it as unsupported on no line. -/
theorem BitflyerFormatter_slices_in_range
    (formatTicker : GoString → BitflyerRawMessage → List BitflyerRow × Option String) :
    (∀ channel line,
      BitflyerFormatter.FormatMessage formatTicker channel line ≠ .panicked .sliceBounds) ∧
    (∀ channel line,
      BitflyerFormatter.FormatMessage formatTicker channel line = .panicked .nilDereference ↔
        line.asSubscribed = some ⟨false⟩ ∧ line.asRoot = some none ∧
          BitflyerFormatter.IsSupported channel = true) ∧
    BitflyerFormatter.FormatMessage formatTicker (goString "lightning_board_BTC_JPY")
      ⟨some ⟨false⟩, some none⟩ = .panicked .nilDereference ∧
    (∀ channel line subscribe root, line.asSubscribed = some subscribe →
      subscribe.Result = false → line.asRoot = some (some root) →
      BitflyerFormatter.FormatMessage formatTicker channel line =
        if HasPrefix channel (goString "lightning_board_") = true then
          BitflyerFormatter.formatBoard channel root.Params.Message
        else if HasPrefix channel (goString "lightning_executions_") = true then
          BitflyerFormatter.formatExecutions channel root.Params.Message
        else if HasPrefix channel (goString "lightning_ticker_") = true then
          .returned (formatTicker channel root.Params.Message).1
            ((formatTicker channel root.Params.Message).2.map BitflyerFormatError.ticker)
        else .returned [] (some (.unsupported channel))) ∧
    (∀ channel line,
      (line.asSubscribed = none →
        BitflyerFormatter.FormatMessage formatTicker channel line =
          .returned [] (some .line)) ∧
      (∀ subscribe, line.asSubscribed = some subscribe → subscribe.Result = true →
        BitflyerFormatter.FormatMessage formatTicker channel line =
          if HasPrefix channel (goString "lightning_board_") = true then
            .returned [.TypeDefBitflyerBoard] none
          else if HasPrefix channel (goString "lightning_executions_") = true then
            .returned [.TypeDefBitflyerExecutions] none
          else if HasPrefix channel (goString "lightning_ticker_") = true then
            .returned [.TypeDefBitflyerTicker] none
          else .returned [] (some (.unsupported channel))) ∧
      (∀ subscribe, line.asSubscribed = some subscribe → subscribe.Result = false →
        line.asRoot = none →
        BitflyerFormatter.FormatMessage formatTicker channel line =
          .returned [] (some .line)) ∧
      (∀ subscribe, line.asSubscribed = some subscribe → subscribe.Result = false →
        line.asRoot = some none → BitflyerFormatter.IsSupported channel = false →
        BitflyerFormatter.FormatMessage formatTicker channel line =
          .returned [] (some (.unsupported channel)))) ∧
    (∀ s pre, HasPrefix s pre = true ↔ ∃ rest, s = pre ++ rest) ∧
    (∀ channel pair messageRaw,
      channel = goString "lightning_board_snapshot_" ++ pair ∨
        (HasPrefix channel (goString "lightning_board_snapshot_") = false ∧
          channel = goString "lightning_board_" ++ pair) →
      (messageRaw.asBoard = none →
        BitflyerFormatter.formatBoard channel messageRaw =
          .returned [] (some .boardMessageRaw)) ∧
      (∀ message, messageRaw.asBoard = some message →
        BitflyerFormatter.formatBoard channel messageRaw =
          .returned
            (message.Asks.map (fun ask => BitflyerRow.BitflyerBoard pair ask.Price (-ask.Size)) ++
              message.Bids.map (fun bid => BitflyerRow.BitflyerBoard pair bid.Price bid.Size))
            none)) ∧
    (∀ pair messageRaw,
      (messageRaw.asExecutions = none →
        BitflyerFormatter.formatExecutions (goString "lightning_executions_" ++ pair)
          messageRaw = .returned [] (some .executionsMessageRaw)) ∧
      (∀ orders, messageRaw.asExecutions = some orders →
        BitflyerFormatter.formatExecutions (goString "lightning_executions_" ++ pair)
          messageRaw =
          .returned
            (orders.map fun element =>
              BitflyerRow.BitflyerExecutions pair element.Price
                (if element.Size ≠ 0 then
                  if element.Side = "ask" then -element.Size else element.Size
                else 0))
            none)) ∧
    BitflyerFormatter.FormatMessage formatTicker (goString "lightning_board_snapshot_BTC_JPY")
      ⟨some ⟨false⟩, some (some ⟨⟨⟨some ⟨[⟨100, 2⟩], [⟨101, 3⟩]⟩, none, []⟩⟩⟩)⟩ =
      .returned [.BitflyerBoard (goString "BTC_JPY") 101 (-3),
        .BitflyerBoard (goString "BTC_JPY") 100 2] none ∧
    BitflyerFormatter.FormatMessage formatTicker (goString "lightning_executions_FX_BTC_JPY")
      ⟨some ⟨false⟩, some (some ⟨⟨⟨none, some [⟨"ask", 100, 2⟩, ⟨"bid", 99, 1⟩], []⟩⟩⟩)⟩ =
      .returned [.BitflyerExecutions (goString "FX_BTC_JPY") 100 (-2),
        .BitflyerExecutions (goString "FX_BTC_JPY") 99 1] none ∧
    (∀ channel messageRaw,
      (BitflyerFormatter.formatBoard channel messageRaw = .panicked .sliceBounds ↔
        channel.length < (goString "lightning_board_").length) ∧
      (BitflyerFormatter.formatExecutions channel messageRaw = .panicked .sliceBounds ↔
        channel.length < (goString "lightning_executions_").length)) ∧
    (∀ channel, BitflyerFormatter.IsSupported channel = true ↔
      ∀ line, BitflyerFormatter.FormatMessage formatTicker channel line ≠
        .returned [] (some (.unsupported channel))) := by
  refine ⟨BitflyerFormatter.FormatMessage_ne_sliceBounds formatTicker,
    BitflyerFormatter.FormatMessage_nilDereference_iff formatTicker, ?_,
    BitflyerFormatter.FormatMessage_data formatTicker, ?_, fun s pre => HasPrefix_iff s pre,
    ?_, ?_, ?_, ?_, ?_, BitflyerFormatter.FormatMessage_unsupported_iff formatTicker⟩
  · exact (BitflyerFormatter.FormatMessage_nilDereference_iff formatTicker _ _).mpr
      ⟨rfl, rfl, by decide⟩
  · intro channel line
    obtain ⟨h1, h2, h3⟩ := BitflyerFormatter.FormatMessage_no_data formatTicker channel line
    refine ⟨h1, h2, h3, ?_⟩
    intro subscribe hs hr hm hno
    have hn : ¬ BitflyerFormatter.IsSupported channel = true := by simp [hno]
    rw [BitflyerFormatter.IsSupported_iff_prefixes] at hn
    simp only [not_or] at hn
    obtain ⟨hb, he, ht⟩ := hn
    rw [BitflyerFormatter.FormatMessage_nil_root formatTicker channel line subscribe hs hr hm,
      if_neg hb, if_neg he, if_neg ht]
  · intro channel pair messageRaw h
    have hf := BitflyerFormatter.formatBoard_of_pair channel pair messageRaw h
    refine ⟨?_, ?_⟩
    · intro hm
      rw [hf, hm]
    · intro message hm
      rw [hf, hm]
  · intro pair messageRaw
    have hf := BitflyerFormatter.formatExecutions_of_pair pair messageRaw
    refine ⟨?_, ?_⟩
    · intro hm
      rw [hf, hm]
    · intro orders hm
      rw [hf, hm]
  · rw [BitflyerFormatter.FormatMessage_data formatTicker _ _ ⟨false⟩ _ rfl rfl rfl,
      if_pos (by decide)]
    have hf := BitflyerFormatter.formatBoard_of_pair
      (goString "lightning_board_snapshot_BTC_JPY") (goString "BTC_JPY")
      ⟨some ⟨[⟨100, 2⟩], [⟨101, 3⟩]⟩, none, []⟩ (Or.inl (by decide))
    rw [hf]
    rfl
  · rw [BitflyerFormatter.FormatMessage_data formatTicker _ _ ⟨false⟩ _ rfl rfl rfl,
      if_neg (by decide), if_pos (by decide)]
    have hf := BitflyerFormatter.formatExecutions_of_pair (goString "FX_BTC_JPY")
      ⟨none, some [⟨"ask", 100, 2⟩, ⟨"bid", 99, 1⟩], []⟩
    have hc : goString "lightning_executions_FX_BTC_JPY" =
        goString "lightning_executions_" ++ goString "FX_BTC_JPY" := by decide
    rw [hc, hf]
    simp
  · intro channel messageRaw
    exact ⟨BitflyerFormatter.formatBoard_sliceBounds_iff channel messageRaw,
      BitflyerFormatter.formatExecutions_sliceBounds_iff channel messageRaw⟩

end StreamCommons
